import Mathlib

/-!
Verification development for the `rsbptree` repository (`src/bptree.rs`),
an in-memory B+ tree with point lookup (`get`), upsert (`set`) and
deletion (`remove`) with node splitting, sibling borrowing and merging.

Shallow embedding conventions:

* `BtreeNode` mirrors the Rust enum `BtreeNode` (variants `inner`, `leaf`,
  `placehold`).  Inner node content (`InnerNode { keys, childNodeptrs,
  max_key_count }`) is inlined into the `inner` constructor; leaf content
  is the structure `LeafNode`.
* Rust panics (out-of-bounds `Vec` indexing, `panic!`, `unreachable!`) are
  modeled as `none` of an `Option` result.  Helper functions `vGet`,
  `vSet`, `vInsert`, `vRemove` model the panicking `Vec` operations.
* `slice::binary_search` is modeled by `rustBsearch`, a faithful rendering
  of the standard library loop (left/right window, `mid = left + size/2`),
  driven by a fuel argument that strictly bounds the iteration count.
* Shared mutable `Arc<Mutex<…>>` handles: within one operation a node's
  content is reached either through its parent's child list or through a
  sibling argument.  The model passes sibling *values* down and returns
  the updated values, which the caller writes back into its child list —
  exactly the effect of in-place mutation through the shared handle.
* Leaf identity (the `Arc` pointer) is modeled by a numeric id `lid`;
  the `next` chain of leaves lives in a side state `Chain` mapping ids to
  the id of the next leaf (`none` = end of chain), together with a fresh
  id counter.  `set`/`split` thread this state; `remove` never touches
  `next` in the source, so it does not take the chain state.
* The tree-wide `Mutex<bool>` guard is acquired and immediately dropped in
  the source (`self.mutex.lock();`), has no effect on sequential behavior,
  and is not modeled.
-/

namespace Rsb

/-- Result of `slice::binary_search`: `found i` is Rust's `Ok(i)`,
`missing i` is Rust's `Err(i)` (the insertion point). -/
inductive SearchR : Type where
  | found (i : Nat)
  | missing (i : Nat)
deriving DecidableEq, Repr

/-- The loop of Rust `slice::binary_search_by` (std): window `[left, right)`,
`size = right - left`, probe at `mid = left + size / 2`; comparison `Less`
moves `left` to `mid+1`, `Greater` moves `right` to `mid`, `Equal` returns
`Ok(mid)`; on an empty window returns `Err(left)`.  `fuel` strictly bounds
the number of iterations (the window shrinks each round, so
`l.length + 1` is always enough). -/
def bsearchLoop {K : Type} [LinearOrder K] (l : List K) (k : K) :
    Nat → Nat → Nat → SearchR
  | 0, left, _ => .missing left
  | fuel + 1, left, right =>
    if left < right then
      let size := right - left
      let mid := left + size / 2
      match l.get? mid with
      | none => .missing left
      | some x =>
        if x < k then bsearchLoop l k fuel (mid + 1) right
        else if k < x then bsearchLoop l k fuel left mid
        else .found mid
    else .missing left

/-- Model of `Vec::binary_search`. -/
def rustBsearch {K : Type} [LinearOrder K] (l : List K) (k : K) : SearchR :=
  bsearchLoop l k (l.length + 1) 0 l.length

/-- Both `InnerNode::get`, `InnerNode::set` and `InnerNode::remove` turn the
search result into a child index: `Err(i) => i`, `Ok(i) => i + 1`. -/
def routeIndex (r : SearchR) : Nat :=
  match r with
  | .found i => i + 1
  | .missing i => i

/-- `v[i]` read (panics when out of bounds). -/
def vGet {α : Type} (l : List α) (i : Nat) : Option α := l.get? i

/-- `v[i] = a` write (panics when out of bounds). -/
def vSet {α : Type} (l : List α) (i : Nat) (a : α) : Option (List α) :=
  if i < l.length then some (l.set i a) else none

/-- `Vec::insert(i, a)` (panics when `i > len`). -/
def vInsert {α : Type} (l : List α) (i : Nat) (a : α) : Option (List α) :=
  if i ≤ l.length then some (l.insertIdx i a) else none

/-- `Vec::remove(i)`: returns the removed element and the rest
(panics when `i ≥ len`). -/
def vRemove {α : Type} (l : List α) (i : Nat) : Option (α × List α) :=
  match l.get? i with
  | some a => some (a, l.eraseIdx i)
  | none => none

/-- Side state for leaf identity: `links` records each leaf id's `next`
field (`LeafNode.next: Option<Arc<Mutex<LeafNode>>>`) as an association
list, most recent write first; `fresh` is the next unused id.  A brand-new
leaf has `next = None`, so ids without an entry read as `none`. -/
structure Chain : Type where
  links : List (Nat × Option Nat)
  fresh : Nat
deriving DecidableEq, Repr

/-- Read an id's `next` field (most recent write wins). -/
def linkLookup : List (Nat × Option Nat) → Nat → Option Nat
  | [], _ => none
  | (j, nx) :: r, i => if j = i then nx else linkLookup r i

def Chain.nextOf (σ : Chain) (i : Nat) : Option Nat := linkLookup σ.links i

def Chain.init : Chain := ⟨[], 0⟩

/-- Content of Rust `LeafNode<K, V>` (minus the `next` pointer, which lives
in `Chain` under this leaf's id `lid`). -/
structure LeafNode (K V : Type) : Type where
  lid : Nat
  keys : List K
  vals : List V
  max_key_count : Nat
deriving Repr

/-- `LeafNode::new(max_key_count)` plus the id handed out by `Arc::new`. -/
def LeafNode.new (K V : Type) (lid : Nat) (maxk : Nat) : LeafNode K V :=
  ⟨lid, [], [], maxk⟩

/-- `LeafNode::split_at`: `(max_key_count / 2) + (max_key_count % 2)`,
i.e. `⌈max_key_count / 2⌉`. -/
def LeafNode.split_at {K V : Type} (ln : LeafNode K V) : Nat :=
  ln.max_key_count / 2 + ln.max_key_count % 2

/-- `LeafNode::need_split`: `keys.len() > max_key_count`. -/
def LeafNode.need_split {K V : Type} (ln : LeafNode K V) : Bool :=
  decide (ln.keys.length > ln.max_key_count)

/-- `LeafNode::need_merge`: `keys.len() < split_at()`. -/
def LeafNode.need_merge {K V : Type} (ln : LeafNode K V) : Bool :=
  decide (ln.keys.length < ln.split_at)

/-- `LeafNode::can_borrow`: `keys.len() > split_at()`. -/
def LeafNode.can_borrow {K V : Type} (ln : LeafNode K V) : Bool :=
  decide (ln.keys.length > ln.split_at)

/-- `LeafNode::get`: binary search, clone the matching value. -/
def LeafNode.get {K V : Type} [LinearOrder K] (ln : LeafNode K V) (k : K) :
    Option (Option V) :=
  match rustBsearch ln.keys k with
  | .found i =>
    match vGet ln.vals i with
    | some v => some (some v)
    | none => none
  | .missing _ => some none

/-- `LeafNode::split(split_at)`: promoted key is `keys[split_at]`; the new
leaf takes `keys[split_at..]`/`vals[split_at..]`, inherits this leaf's
`next` and becomes this leaf's `next`; this leaf keeps the prefixes.
Returns `(chain', self', split_key, new_leaf)`. -/
def LeafNode.split {K V : Type} (σ : Chain) (ln : LeafNode K V) (s : Nat) :
    Option (Chain × LeafNode K V × K × LeafNode K V) :=
  match vGet ln.keys s with
  | none => none
  | some split_key =>
    -- `self.vals[split_at..]` panics when `split_at > vals.len()`
    if s ≤ ln.vals.length then
      let nid := σ.fresh
      let newLeaf : LeafNode K V :=
        ⟨nid, ln.keys.drop s, ln.vals.drop s, ln.max_key_count⟩
      -- new_leaf.set_next(self.next.take()); self.set_next(Some(new_leaf))
      let σ' : Chain :=
        ⟨(nid, σ.nextOf ln.lid) :: (ln.lid, some nid) :: σ.links,
         σ.fresh + 1⟩
      some (σ', ⟨ln.lid, ln.keys.take s, ln.vals.take s, ln.max_key_count⟩,
            split_key, newLeaf)
    else none

/-- `LeafNode::set`: overwrite on exact match, insert at the search point
otherwise; split when over-full.  Returns `(chain', self', split?)`. -/
def LeafNode.set {K V : Type} [LinearOrder K] (σ : Chain) (ln : LeafNode K V)
    (k : K) (v : V) :
    Option (Chain × LeafNode K V × Option (K × LeafNode K V)) :=
  let upd : Option (LeafNode K V) :=
    match rustBsearch ln.keys k with
    | .found i =>
      match vSet ln.vals i v with
      | some vs => some { ln with vals := vs }
      | none => none
    | .missing i =>
      match vInsert ln.keys i k, vInsert ln.vals i v with
      | some ks, some vs => some { ln with keys := ks, vals := vs }
      | _, _ => none
  match upd with
  | none => none
  | some ln' =>
    if ln'.need_split then
      match ln'.split σ ln'.split_at with
      | some (σ', self', sk, nl) => some (σ', self', some (sk, nl))
      | none => none
    else some (σ, ln', none)

/-- Rust enum `BtreeNode<K, V>`: `inner(Arc<Mutex<InnerNode>>)`,
`leaf(Arc<Mutex<LeafNode>>)`, `placehold`.  `InnerNode`'s fields
`keys`, `childNodeptrs`, `max_key_count` are inlined. -/
inductive BtreeNode (K V : Type) : Type where
  | inner (keys : List K) (childNodeptrs : List (BtreeNode K V))
      (max_key_count : Nat)
  | leaf (ln : LeafNode K V)
  | placehold

/-- `InnerNode::split_at` (same formula as the leaf's). -/
def innerSplitAt (maxk : Nat) : Nat := maxk / 2 + maxk % 2

/-- `BtreeNode::keys_len`. -/
def BtreeNode.keys_len {K V : Type} : BtreeNode K V → Nat
  | .inner ks _ _ => ks.length
  | .leaf ln => ln.keys.length
  | .placehold => 0

/-- Result of a node-level `remove`: the returned triple
`(Option<K>, Option<K>, Option<V>)` plus the updated content of `self`
and of the sibling arguments (in-place mutation through the shared
handles, written back by the caller). -/
structure RmRes (K V : Type) : Type where
  oldK : Option K
  newK : Option K
  val : Option V
  self : BtreeNode K V
  lsib : Option (BtreeNode K V)
  rsib : Option (BtreeNode K V)

mutual

/-- `BtreeNode::get` / `InnerNode::get` / `LeafNode::get`.
`placehold.get` returns `None`.  The inner node binary-searches its
separator keys and descends into `childNodeptrs[index]`
(`Err(i) => i`, `Ok(i) => i+1`); indexing out of bounds panics. -/
def BtreeNode.get {K V : Type} [LinearOrder K] :
    BtreeNode K V → K → Option (Option V)
  | .placehold, _ => some none
  | .leaf ln, k => ln.get k
  | .inner ks cs _, k => BtreeNode.getAt cs (routeIndex (rustBsearch ks k)) k
termination_by structural t => t

/-- `self.childNodeptrs[index].get(key)`: structural descent into the
`index`-th child; out-of-bounds indexing panics (`none`). -/
def BtreeNode.getAt {K V : Type} [LinearOrder K] :
    List (BtreeNode K V) → Nat → K → Option (Option V)
  | [], _, _ => none
  | c :: _, 0, k => c.get k
  | _ :: cs, n + 1, k => BtreeNode.getAt cs n k
termination_by structural l => l

end

mutual

/-- `BtreeNode::set` / `InnerNode::set`.  For an inner node: route to the
child, recurse; if the child reports a split `(split_key, new_node)`,
insert `split_key` into this node's keys at its search position (an exact
match is `unreachable!`) and the new node right after it; then split this
node itself if over-full.  `placehold.set` returns `None` doing nothing.
Result: `(chain', self', split?)`. -/
def BtreeNode.set {K V : Type} [LinearOrder K] (σ : Chain) :
    BtreeNode K V → K → V →
    Option (Chain × BtreeNode K V × Option (K × BtreeNode K V))
  | .placehold, _, _ => some (σ, .placehold, none)
  | .leaf ln, k, v =>
    match ln.set σ k v with
    | none => none
    | some (σ', ln', none) => some (σ', .leaf ln', none)
    | some (σ', ln', some (sk, nl)) => some (σ', .leaf ln', some (sk, .leaf nl))
  | .inner ks cs maxk, k, v =>
    match BtreeNode.setAt σ cs (routeIndex (rustBsearch ks k)) k v with
    | none => none
    | some (σ', cs', none) => some (σ', .inner ks cs' maxk, none)
    | some (σ', cs', some (sk, nn)) =>
      -- self.keys.binary_search(&split_key): Ok is unreachable!()
      match rustBsearch ks sk with
      | .found _ => none
      | .missing j =>
        match vInsert ks j sk, vInsert cs' (j + 1) nn with
        | some ks2, some cs2 =>
          -- need_split: keys.len() > max_key_count
          if decide (ks2.length > maxk) then
            -- InnerNode::split(split_at): promoted key keys[s]; the new
            -- inner takes keys[s..] and childNodeptrs[s+1..] with the
            -- placehold sentinel prepended; self keeps keys[..s],
            -- childNodeptrs[..s+1].
            let s := innerSplitAt maxk
            match vGet ks2 s with
            | none => none
            | some sk2 =>
              if s + 1 ≤ cs2.length then
                some (σ',
                  .inner (ks2.take s) (cs2.take (s + 1)) maxk,
                  some (sk2,
                    .inner (ks2.drop s) (.placehold :: cs2.drop (s + 1)) maxk))
              else none
          else some (σ', .inner ks2 cs2 maxk, none)
        | _, _ => none
termination_by structural t => t

/-- `self.childNodeptrs[index].set(key, val)` with the updated child written
back in place; out-of-bounds indexing panics. -/
def BtreeNode.setAt {K V : Type} [LinearOrder K] (σ : Chain) :
    List (BtreeNode K V) → Nat → K → V →
    Option (Chain × List (BtreeNode K V) × Option (K × BtreeNode K V))
  | [], _, _, _ => none
  | c :: cs, 0, k, v =>
    match c.set σ k v with
    | none => none
    | some (σ', c', sp) => some (σ', c' :: cs, sp)
  | c :: cs, n + 1, k, v =>
    match BtreeNode.setAt σ cs n k v with
    | none => none
    | some (σ', cs', sp) => some (σ', c :: cs', sp)
termination_by structural l => l

end

/-- `LeafNode::remove(key, left, right)`.  Faithful rendering of the source:
`min_key = self.keys[0]` (panics on an empty leaf); a search miss returns
`(None, None, None)`; on a hit the pair is removed; when not under-full the
minimum change is reported iff the removed index was 0; when under-full a
`left` sibling that is `placehold` or inner is a `panic!`, a leaf left
sibling is borrowed from (its last pair) when it `can_borrow`, else merged
into; otherwise the same with the `right` sibling (first pair / merge from
it); with no sibling the result is `(None, None, old_val)`. -/
def LeafNode.removeOp {K V : Type} [LinearOrder K] (ln : LeafNode K V) (k : K)
    (left right : Option (BtreeNode K V)) : Option (RmRes K V) :=
  match vGet ln.keys 0 with
  | none => none
  | some min_key =>
    match rustBsearch ln.keys k with
    | .missing _ => some ⟨none, none, none, .leaf ln, left, right⟩
    | .found i =>
      match vRemove ln.keys i, vRemove ln.vals i with
      | some (old_key, ks), some (v, vs) =>
        let self := { ln with keys := ks, vals := vs }
        if decide (ks.length < ln.split_at) then
          -- under-full: try left, then right
          match left with
          | some .placehold => none   -- panic!("leaf node can not be placehold")
          | some (.inner _ _ _) => none  -- panic!("bptree struct error!")
          | some (.leaf lc) =>
            if lc.can_borrow then
              -- last_index = left.keys.len() - 1, used for keys and vals
              match vRemove lc.keys (lc.keys.length - 1),
                    vRemove lc.vals (lc.keys.length - 1) with
              | some (bk, lks), some (bv, lvs) =>
                match (if i > 0 then vGet ks 0 else some old_key) with
                | none => none
                | some old_key2 =>
                  match vInsert ks 0 bk, vInsert vs 0 bv with
                  | some ks2, some vs2 =>
                    some ⟨some old_key2, some bk, some v,
                      .leaf { self with keys := ks2, vals := vs2 },
                      some (.leaf { lc with keys := lks, vals := lvs }), right⟩
                  | _, _ => none
              | _, _ => none
            else
              match (if i > 0 then vGet ks 0 else some old_key) with
              | none => none
              | some old_key2 =>
                -- left.keys.append(&mut self.keys): self is drained
                let lc2 : LeafNode K V :=
                  { lc with keys := lc.keys ++ ks, vals := lc.vals ++ vs }
                some ⟨some old_key2, none, some v,
                  .leaf { self with keys := [], vals := [] },
                  some (.leaf lc2), right⟩
          | none =>
            match right with
            | some .placehold => none
            | some (.inner _ _ _) => none
            | some (.leaf rc) =>
              if rc.can_borrow then
                match vRemove rc.keys 0, vRemove rc.vals 0 with
                | some (bk, rks), some (bv, rvs) =>
                  match vGet rks 0 with
                  | none => none
                  | some new_key =>
                    some ⟨some bk, some new_key, some v,
                      .leaf { self with keys := ks ++ [bk], vals := vs ++ [bv] },
                      none, some (.leaf { rc with keys := rks, vals := rvs })⟩
                | _, _ => none
              else
                match vGet rc.keys 0 with
                | none => none
                | some old_key2 =>
                  -- self.keys.append(&mut right.keys): right is drained
                  let slf2 : LeafNode K V :=
                    { self with keys := ks ++ rc.keys, vals := vs ++ rc.vals }
                  some ⟨some old_key2, none, some v, .leaf slf2,
                    none, some (.leaf { rc with keys := [], vals := [] })⟩
            | none => some ⟨none, none, some v, .leaf self, none, none⟩
        else
          if i = 0 then
            match vGet ks 0 with
            | none => none
            | some new_min => some ⟨some min_key, some new_min, some v,
                .leaf self, left, right⟩
          else some ⟨none, none, some v, .leaf self, left, right⟩
      | _, _ => none

/-- `InnerNode::left_slibing(index)`: `Some(children[index-1])` when
`index > 0` (indexing panics when out of bounds). -/
def leftSlibing {K V : Type} (cs : List (BtreeNode K V)) (index : Nat) :
    Option (Option (BtreeNode K V)) :=
  if index > 0 then
    match vGet cs (index - 1) with
    | some c => some (some c)
    | none => none
  else some none

/-- `InnerNode::right_slibing(index)`: `Some(children[index+1])` when
`index < children.len() - 1`.  `len() - 1` is usize arithmetic: on an empty
child list it wraps to `usize::MAX`, the condition holds, and the indexing
panics. -/
def rightSlibing {K V : Type} (cs : List (BtreeNode K V)) (index : Nat) :
    Option (Option (BtreeNode K V)) :=
  if cs.length = 0 then none
  else if index < cs.length - 1 then
    match vGet cs (index + 1) with
    | some c => some (some c)
    | none => none
  else some none

/-- The right-sibling half of the under-full tail of `InnerNode::remove`
(reached when `left` is `None` or the skipped `placehold`). -/
def innerRight {K V : Type} [LinearOrder K]
    (ks : List K) (cs : List (BtreeNode K V)) (maxk : Nat)
    (old_val : V) (left right : Option (BtreeNode K V)) :
    Option (RmRes K V) :=
  match right with
  | some (.leaf _) => none   -- panic!("bptree struct error!")
  | some (.inner rks rcs rmaxk) =>
    if decide (rks.length > innerSplitAt rmaxk) then
      -- borrow: right's first key and right.childNodeptrs.remove(1)
      match vRemove rks 0, vRemove rcs 1 with
      | some (bk, rks2), some (bc, rcs2) =>
        match vGet rks2 0 with
        | none => none
        | some new_key =>
          some ⟨some bk, some new_key, some old_val,
            .inner (ks ++ [bk]) (cs ++ [bc]) maxk, left,
            some (.inner rks2 rcs2 rmaxk)⟩
      | _, _ => none
    else
      -- merge right into self: drop right's child 0, append its content
      match vGet rks 0 with
      | none => none
      | some old_key =>
        match vRemove rcs 0 with
        | none => none
        | some (_, rcs2) =>
          some ⟨some old_key, none, some old_val,
            .inner (ks ++ rks) (cs ++ rcs2) maxk, left,
            some (.inner [] [] rmaxk)⟩
  | some .placehold =>
    some ⟨none, none, some old_val, .inner ks cs maxk, left, right⟩
  | none => some ⟨none, none, some old_val, .inner ks cs maxk, left, right⟩

/-- The tail of `InnerNode::remove` after the child result was applied:
check `need_merge`; when not under-full report this node's own minimum-key
change; otherwise borrow from / merge with a sibling (an inner sibling that
is `placehold` is skipped, a leaf sibling is a `panic!`).  `left`/`right`
are the original sibling arguments; the returned `self`/`lsib`/`rsib` are
the updated contents. -/
def innerAfter {K V : Type} [LinearOrder K]
    (ks : List K) (cs : List (BtreeNode K V)) (maxk : Nat) (min_key : K)
    (old_val : V) (left right : Option (BtreeNode K V)) :
    Option (RmRes K V) :=
  if decide (ks.length < innerSplitAt maxk) then
    match left with
    | some (.leaf _) => none   -- panic!("bptree struct error!")
    | some (.inner lks lcs lmaxk) =>
      if decide (lks.length > innerSplitAt lmaxk) then
        -- borrow: left's last key, and left.childNodeptrs.remove(last_index)
        -- where last_index = left.keys.len() - 1 (note: NOT the last child)
        match vRemove lks (lks.length - 1), vRemove lcs (lks.length - 1) with
        | some (bk, lks2), some (bc, lcs2) =>
          match vInsert ks 0 bk, vInsert cs 1 bc with
          | some ks2, some cs2 =>
            some ⟨some min_key, some bk, some old_val,
              .inner ks2 cs2 maxk, some (.inner lks2 lcs2 lmaxk), right⟩
          | _, _ => none
        | _, _ => none
      else
        -- merge into left: drop our placehold child 0, append our content
        match vRemove cs 0 with
        | none => none
        | some (_, cs2) =>
          some ⟨some min_key, none, some old_val,
            .inner [] [] maxk,
            some (.inner (lks ++ ks) (lcs ++ cs2) lmaxk), right⟩
    | some .placehold =>
      innerRight ks cs maxk old_val (some .placehold) right
    | none => innerRight ks cs maxk old_val none right
  else
    match vGet ks 0 with
    | none => none
    | some k0 =>
      if k0 ≠ min_key then
        some ⟨some min_key, some k0, some old_val, .inner ks cs maxk,
          left, right⟩
      else
        some ⟨none, none, some old_val, .inner ks cs maxk, left, right⟩

mutual

/-- `BtreeNode::remove` dispatch and `InnerNode::remove(key, left, right)`.
`placehold` returns `(None, None, None)`.  The inner node reads
`min_key = self.keys[0]` (panics when empty), routes to
`childNodeptrs[index]`, hands it its adjacent siblings, recurses, writes
the mutated child/sibling contents back, then interprets the child's
triple: `(Some old, Some new, Some val)` rewrites the separator equal to
`old` (a miss is ignored); `(Some old, None, Some val)` removes that
separator and the child right of it (a miss is
`panic!("btree struct error!")`); `(None, None, Some val)` and
`(None, None, None)` return immediately; the rest is `unreachable!()`.
The under-full tail is `innerAfter`. -/
def BtreeNode.removeOp {K V : Type} [LinearOrder K] :
    BtreeNode K V → K → Option (BtreeNode K V) → Option (BtreeNode K V) →
    Option (RmRes K V)
  | .placehold, _, l, r => some ⟨none, none, none, .placehold, l, r⟩
  | .leaf ln, k, l, r => ln.removeOp k l r
  | .inner ks cs maxk, k, left, right =>
    match vGet ks 0 with
    | none => none   -- let min_key = self.keys[0].clone();
    | some min_key =>
      let index := routeIndex (rustBsearch ks k)
      match leftSlibing cs index, rightSlibing cs index with
      | some ls, some rs =>
        match BtreeNode.removeAt cs index k ls rs with
        | none => none
        | some (res, cs1) =>
          -- write the mutated siblings back (they are the same objects as
          -- childNodeptrs[index-1] / childNodeptrs[index+1])
          let cs2 := match ls, res.lsib with
            | some _, some lv => cs1.set (index - 1) lv
            | _, _ => cs1
          let cs3 := match rs, res.rsib with
            | some _, some rv => cs2.set (index + 1) rv
            | _, _ => cs2
          match res.oldK, res.newK, res.val with
          | some old_key, some new_key, some v =>
            let ksu := match rustBsearch ks old_key with
              | .found i => ks.set i new_key
              | .missing _ => ks
            innerAfter ksu cs3 maxk min_key v left right
          | some old_key, none, some v =>
            match rustBsearch ks old_key with
            | .missing _ => none   -- panic!("btree struct error!")
            | .found i =>
              match vRemove ks i, vRemove cs3 (i + 1) with
              | some (_, ksu), some (_, cs4) =>
                innerAfter ksu cs4 maxk min_key v left right
              | _, _ => none
          | none, none, some v =>
            some ⟨none, none, some v, .inner ks cs3 maxk, left, right⟩
          | none, none, none =>
            some ⟨none, none, none, .inner ks cs3 maxk, left, right⟩
          | _, _, _ => none   -- unreachable!()
      | _, _ => none
termination_by structural t => t

/-- `self.childNodeptrs[index].remove(key, ls, rs)` with the updated child
written back in place; out-of-bounds indexing panics. -/
def BtreeNode.removeAt {K V : Type} [LinearOrder K] :
    List (BtreeNode K V) → Nat → K →
    Option (BtreeNode K V) → Option (BtreeNode K V) →
    Option (RmRes K V × List (BtreeNode K V))
  | [], _, _, _, _ => none
  | c :: cs, 0, k, ls, rs =>
    match c.removeOp k ls rs with
    | none => none
    | some res => some (res, res.self :: cs)
  | c :: cs, n + 1, k, ls, rs =>
    match BtreeNode.removeAt cs n k ls rs with
    | none => none
    | some (res, cs2) => some (res, c :: cs2)
termination_by structural l => l

end

/-- Rust struct `Bptree<K, V>`: the root node variant, the order `m`, and
the leaf-identity state (the unused `Mutex<bool>` guard is not modeled). -/
structure Bptree (K V : Type) : Type where
  root : BtreeNode K V
  m : Nat
  chain : Chain

/-- `Bptree::new(m)`. -/
def Bptree.new (K V : Type) (m : Nat) : Bptree K V :=
  ⟨.placehold, m, Chain.init⟩

/-- `Bptree::get`. -/
def Bptree.get {K V : Type} [LinearOrder K] (t : Bptree K V) (k : K) :
    Option (Option V) :=
  t.root.get k

/-- `Bptree::set`: an `placehold` root becomes a fresh leaf holding the
single pair (the leaf's own split result is discarded, as in the source);
otherwise delegate to the root and, on an upward split, wrap the old root
and the new sibling under a fresh inner root with the single separator. -/
def Bptree.set {K V : Type} [LinearOrder K] (t : Bptree K V) (k : K) (v : V) :
    Option (Bptree K V) :=
  match t.root with
  | .placehold =>
    let nl := LeafNode.new K V t.chain.fresh (t.m - 1)
    let σ : Chain := ⟨t.chain.links, t.chain.fresh + 1⟩
    match nl.set σ k v with
    | none => none
    | some (σ', ln', _) => some ⟨.leaf ln', t.m, σ'⟩
  | r =>
    match r.set t.chain k v with
    | none => none
    | some (σ', r', none) => some ⟨r', t.m, σ'⟩
    | some (σ', r', some (sk, nn)) =>
      some ⟨.inner [sk] [r', nn] (t.m - 1), t.m, σ'⟩

/-- `Bptree::remove`: when the root has zero keys and is an inner node,
replace it by its child 0 (indexing panics if there is none); then delegate
and interpret the triple — `(None, None, None)` is a miss, a present value
is the removed one, anything else is `unreachable!()`. -/
def Bptree.remove {K V : Type} [LinearOrder K] (t : Bptree K V) (k : K) :
    Option (Bptree K V × Option V) :=
  let step1 : Option (BtreeNode K V) :=
    if t.root.keys_len = 0 then
      match t.root with
      | .inner _ cs _ =>
        match vGet cs 0 with
        | some c => some c
        | none => none
      | r => some r
    else some t.root
  match step1 with
  | none => none
  | some r =>
    match r.removeOp k none none with
    | none => none
    | some res =>
      match res.oldK, res.newK, res.val with
      | none, none, none => some (⟨res.self, t.m, t.chain⟩, none)
      | _, _, some v => some (⟨res.self, t.m, t.chain⟩, some v)
      | _, _, none => none   -- unreachable!()

/-- One exercised operation of the public interface. -/
inductive Op (K V : Type) : Type where
  | setOp (k : K) (v : V)
  | rmOp (k : K)

/-- Run one operation (`none` = the operation panicked). -/
def Bptree.applyOp {K V : Type} [LinearOrder K] (t : Bptree K V) :
    Op K V → Option (Bptree K V)
  | .setOp k v => t.set k v
  | .rmOp k => (t.remove k).map Prod.fst

/-- Step runner: apply the operations in order; `none` once an operation
panicked. -/
def goOps {K V : Type} [LinearOrder K] :
    Option (Bptree K V) → List (Op K V) → Option (Bptree K V)
  | none, _ => none
  | some t, [] => some t
  | some t, op :: r => goOps (t.applyOp op) r

/-- Run a sequence of operations from a fresh tree of order `m`;
`none` when some operation panicked. -/
def runOps {K V : Type} [LinearOrder K] (m : Nat) (ops : List (Op K V)) :
    Option (Bptree K V) :=
  goOps (some (Bptree.new K V m)) ops

/-- Run a sequence of `set`s from a fresh tree of order `m`. -/
def runSets {K V : Type} [LinearOrder K] (m : Nat) (l : List (K × V)) :
    Option (Bptree K V) :=
  goOps (some (Bptree.new K V m)) (l.map (fun p => Op.setOp p.1 p.2))

mutual

/-- In-order key/value entries of a subtree: concatenation of the leaf
contents from left to right (`placehold` contributes nothing). -/
def entriesN {K V : Type} : BtreeNode K V → List (K × V)
  | .placehold => []
  | .leaf ln => ln.keys.zip ln.vals
  | .inner _ cs _ => entriesL cs
termination_by structural t => t

def entriesL {K V : Type} : List (BtreeNode K V) → List (K × V)
  | [] => []
  | c :: cs => entriesN c ++ entriesL cs
termination_by structural l => l

end

/-- In-order keys of a subtree. -/
def keysN {K V : Type} (t : BtreeNode K V) : List K :=
  (entriesN t).map Prod.fst

mutual

/-- Height of a node: 0 for the `placehold` sentinel, 1 for a leaf,
1 + the maximum child height for an inner node. -/
def heightN {K V : Type} : BtreeNode K V → Nat
  | .placehold => 0
  | .leaf _ => 1
  | .inner _ cs _ => 1 + heightL cs
termination_by structural t => t

def heightL {K V : Type} : List (BtreeNode K V) → Nat
  | [] => 0
  | c :: cs => max (heightN c) (heightL cs)
termination_by structural l => l

end

mutual

/-- The ids of the subtree's leaves, in order, left to right. -/
def lidsN {K V : Type} : BtreeNode K V → List Nat
  | .placehold => []
  | .leaf ln => [ln.lid]
  | .inner _ cs _ => lidsL cs
termination_by structural t => t

def lidsL {K V : Type} : List (BtreeNode K V) → List Nat
  | [] => []
  | c :: cs => lidsN c ++ lidsL cs
termination_by structural l => l

end

mutual

/-- The content of the leaf with id `i` in the subtree (`none` when no
leaf of the subtree carries that id — e.g. a leaf merged away whose handle
is only reachable through the `next` chain; such a leaf was drained and
holds no keys). -/
def findLeaf {K V : Type} : BtreeNode K V → Nat → Option (LeafNode K V)
  | .placehold, _ => none
  | .leaf ln, i => if ln.lid = i then some ln else none
  | .inner _ cs _, i => findLeafL cs i
termination_by structural t => t

def findLeafL {K V : Type} : List (BtreeNode K V) → Nat → Option (LeafNode K V)
  | [], _ => none
  | c :: cs, i =>
    match findLeaf c i with
    | some ln => some ln
    | none => findLeafL cs i
termination_by structural l => l

end

mutual

/-- Instrumented descent of `BtreeNode::get`: `true` when the binary-search
routing at some inner node on the descent path selects a `placehold` child
(i.e. the sentinel is the `childNodeptrs[index]` the search descends
into). -/
def getVisitsPh {K V : Type} [LinearOrder K] : BtreeNode K V → K → Bool
  | .placehold, _ => false
  | .leaf _, _ => false
  | .inner ks cs _, k => getVisitsPhAt cs (routeIndex (rustBsearch ks k)) k
termination_by structural t => t

def getVisitsPhAt {K V : Type} [LinearOrder K] :
    List (BtreeNode K V) → Nat → K → Bool
  | [], _, _ => false
  | .placehold :: _, 0, _ => true
  | c :: _, 0, k => getVisitsPh c k
  | _ :: cs, n + 1, k => getVisitsPhAt cs n k
termination_by structural l => l

end

/-- Follow the `next` chain from `start`, collecting leaf ids; `fuel`
bounds the number of steps (the number of leaves ever allocated suffices
when the chain is acyclic). -/
def chainIds (σ : Chain) : Nat → Option Nat → List Nat
  | 0, _ => []
  | _ + 1, none => []
  | fuel + 1, some i => i :: chainIds σ fuel (σ.nextOf i)

/-- The key sequence yielded by traversing the leaf chain from the tree's
leftmost leaf: for each id on the chain, the keys of that leaf (a leaf
no longer in the tree was drained by its merge and yields nothing). -/
def chainKeys {K V : Type} (t : Bptree K V) : List K :=
  (chainIds t.chain t.chain.fresh (lidsN t.root).head?).foldr
    (fun i acc =>
      (match findLeaf t.root i with
       | some ln => ln.keys
       | none => []) ++ acc) []


/-! ### Characterization of the binary search -/

/-- What a search result means for `l` and `k`: `found i` means `l[i] = k`;
`missing i` means `i` is the exact insertion point (everything before it is
`< k`, everything from it on is `> k`). -/
def SearchSpec {K : Type} [LinearOrder K] (l : List K) (k : K) : SearchR → Prop
  | .found i => l.get? i = some k
  | .missing i => i ≤ l.length ∧
      (∀ j x, j < i → l.get? j = some x → x < k) ∧
      (∀ j x, i ≤ j → l.get? j = some x → k < x)

theorem pairwise_get_lt {K : Type} [LinearOrder K] {l : List K}
    (hs : l.Pairwise (· < ·)) {i j : Nat} {x y : K} (hij : i < j)
    (hx : l.get? i = some x) (hy : l.get? j = some y) : x < y := by
  obtain ⟨hi, hxe⟩ := List.get?_eq_some.1 hx
  obtain ⟨hj, hye⟩ := List.get?_eq_some.1 hy
  have := (List.pairwise_iff_get.1 hs) ⟨i, hi⟩ ⟨j, hj⟩ hij
  rw [List.get?_eq_get hi] at hx
  rw [List.get?_eq_get hj] at hy
  simp_all

theorem searchSpec_unique {K : Type} [LinearOrder K] {l : List K} {k : K}
    (hs : l.Pairwise (· < ·)) :
    ∀ {r1 r2 : SearchR}, SearchSpec l k r1 → SearchSpec l k r2 → r1 = r2 := by
  have found_missing : ∀ {i j : Nat}, SearchSpec l k (.found i) →
      SearchSpec l k (.missing j) → False := by
    intro i j h1 h2
    rcases Nat.lt_or_ge i j with h | h
    · exact absurd (h2.2.1 i k h h1) (lt_irrefl k)
    · exact absurd (h2.2.2 i k h h1) (lt_irrefl k)
  intro r1 r2 h1 h2
  match r1, r2 with
  | .found i, .found i2 =>
    rcases Nat.lt_trichotomy i i2 with h | h | h
    · exact absurd (pairwise_get_lt hs h h1 h2) (lt_irrefl k)
    · simp [h]
    · exact absurd (pairwise_get_lt hs h h2 h1) (lt_irrefl k)
  | .found i, .missing j => exact absurd h2 (fun h2 => found_missing h1 h2)
  | .missing j, .found i => exact absurd h2 (fun h2 => found_missing h2 h1)
  | .missing j, .missing j2 =>
    rcases Nat.lt_trichotomy j j2 with h | h | h
    · have hj : j < l.length := Nat.lt_of_lt_of_le h h2.1
      obtain ⟨x, hx⟩ : ∃ x, l.get? j = some x := ⟨_, List.get?_eq_get hj⟩
      exact absurd (lt_trans (h2.2.1 j x h hx) (h1.2.2 j x (le_refl j) hx))
        (lt_irrefl x)
    · simp [h]
    · have hj : j2 < l.length := Nat.lt_of_lt_of_le h h1.1
      obtain ⟨x, hx⟩ : ∃ x, l.get? j2 = some x := ⟨_, List.get?_eq_get hj⟩
      exact absurd (lt_trans (h1.2.1 j2 x h hx) (h2.2.2 j2 x (le_refl j2) hx))
        (lt_irrefl x)

theorem bsearchLoop_spec {K : Type} [LinearOrder K] {l : List K} {k : K}
    (hs : l.Pairwise (· < ·)) :
    ∀ (fuel left right : Nat), left ≤ right → right ≤ l.length →
    right - left ≤ fuel →
    (∀ j x, j < left → l.get? j = some x → x < k) →
    (∀ j x, right ≤ j → l.get? j = some x → k < x) →
    SearchSpec l k (bsearchLoop l k fuel left right) := by
  intro fuel
  induction fuel with
  | zero =>
    intro left right hlr hrl hf hlo hhi
    have : right = left := Nat.le_antisymm (by omega) hlr
    subst this
    exact ⟨hrl, hlo, hhi⟩
  | succ fuel ih =>
    intro left right hlr hrl hf hlo hhi
    by_cases hlt : left < right
    · have hmid : left + (right - left) / 2 < l.length := by omega
      obtain ⟨x, hx⟩ : ∃ x, l.get? (left + (right - left) / 2) = some x :=
        ⟨_, List.get?_eq_get hmid⟩
      simp only [bsearchLoop, if_pos hlt, hx]
      by_cases h1 : x < k
      · simp only [if_pos h1]
        apply ih _ right (by omega) hrl (by omega)
        · intro j y hj hy
          rcases Nat.lt_trichotomy j (left + (right - left) / 2) with h | h | h
          · exact lt_trans (pairwise_get_lt hs h hy hx) h1
          · subst h; rw [hx] at hy; cases hy; exact h1
          · omega
        · exact hhi
      · by_cases h2 : k < x
        · simp only [if_neg h1, if_pos h2]
          apply ih left _ (by omega) (by omega) (by omega) hlo
          intro j y hj hy
          rcases Nat.lt_or_ge (left + (right - left) / 2) j with h | h
          · exact lt_trans h2 (pairwise_get_lt hs h hx hy)
          · have : j = left + (right - left) / 2 := by omega
            subst this; rw [hx] at hy; cases hy; exact h2
        · simp only [if_neg h1, if_neg h2]
          have : x = k := le_antisymm (le_of_not_lt h2) (le_of_not_lt h1)
          subst this
          exact hx
    · simp only [bsearchLoop, if_neg hlt]
      have : right = left := Nat.le_antisymm (Nat.le_of_not_lt hlt) hlr
      subst this
      exact ⟨hrl, hlo, hhi⟩

/-- On a strictly sorted list, `rustBsearch` meets its specification. -/
theorem rustBsearch_spec {K : Type} [LinearOrder K] {l : List K} {k : K}
    (hs : l.Pairwise (· < ·)) : SearchSpec l k (rustBsearch l k) := by
  apply bsearchLoop_spec hs (l.length + 1) 0 l.length (Nat.zero_le _)
    (le_refl _) (by omega)
  · intro j x hj; omega
  · intro j x hj hx
    rw [List.get?_eq_none.2 hj] at hx
    cases hx

/-- Without any sortedness assumption: a `found i` result reads back `k`
at index `i` (the loop only answers `Ok` on an `Equal` comparison). -/
theorem bsearchLoop_found_get {K : Type} [LinearOrder K] {l : List K} {k : K} :
    ∀ (fuel left right i : Nat), right ≤ l.length →
    bsearchLoop l k fuel left right = .found i → l.get? i = some k := by
  intro fuel
  induction fuel with
  | zero => intro left right i _ h; cases h
  | succ fuel ih =>
    intro left right i hrl h
    by_cases hlt : left < right
    · have hmid : left + (right - left) / 2 < l.length := by omega
      obtain ⟨x, hx⟩ : ∃ x, l.get? (left + (right - left) / 2) = some x :=
        ⟨_, List.get?_eq_get hmid⟩
      simp only [bsearchLoop, if_pos hlt, hx] at h
      by_cases h1 : x < k
      · rw [if_pos h1] at h; exact ih _ right i hrl h
      · by_cases h2 : k < x
        · rw [if_neg h1, if_pos h2] at h; exact ih left _ i (by omega) h
        · rw [if_neg h1, if_neg h2] at h
          cases h
          have : x = k := le_antisymm (le_of_not_lt h2) (le_of_not_lt h1)
          subst this
          exact hx
    · simp only [bsearchLoop, if_neg hlt] at h
      cases h

theorem rustBsearch_found_get {K : Type} [LinearOrder K] {l : List K} {k : K}
    {i : Nat} (h : rustBsearch l k = .found i) : l.get? i = some k :=
  bsearchLoop_found_get (l.length + 1) 0 l.length i (le_refl _) h

/-- Without any sortedness assumption: a `missing i` result has
`i ≤ l.length` (the window bounds are maintained by the loop). -/
theorem bsearchLoop_missing_le {K : Type} [LinearOrder K] {l : List K} {k : K} :
    ∀ (fuel left right i : Nat), left ≤ right → right ≤ l.length →
    bsearchLoop l k fuel left right = .missing i → i ≤ l.length := by
  intro fuel
  induction fuel with
  | zero =>
    intro left right i hlr hrl h
    simp only [bsearchLoop] at h
    cases h; omega
  | succ fuel ih =>
    intro left right i hlr hrl h
    by_cases hlt : left < right
    · cases hx : l.get? (left + (right - left) / 2) with
      | none =>
        simp only [bsearchLoop, if_pos hlt, hx] at h
        cases h; omega
      | some x =>
        simp only [bsearchLoop, if_pos hlt, hx] at h
        by_cases h1 : x < k
        · rw [if_pos h1] at h; exact ih _ right i (by omega) hrl h
        · by_cases h2 : k < x
          · rw [if_neg h1, if_pos h2] at h
            exact ih left _ i (by omega) (by omega) h
          · rw [if_neg h1, if_neg h2] at h; cases h
    · simp only [bsearchLoop, if_neg hlt] at h
      cases h; omega

theorem rustBsearch_missing_le {K : Type} [LinearOrder K] {l : List K} {k : K}
    {i : Nat} (h : rustBsearch l k = .missing i) : i ≤ l.length :=
  bsearchLoop_missing_le (l.length + 1) 0 l.length i (Nat.zero_le _)
    (le_refl _) h


/-! ### Observation helpers for the claims -/

/-- Occupancy property of claim C4: every non-root node has key count within
`[⌈(m-1)/2⌉, m-1]` (the root may have fewer); `mx = m - 1`. -/
def isPh {K V : Type} : BtreeNode K V → Bool
  | .placehold => true
  | _ => false

mutual

def occOk {K V : Type} (mx : Nat) (isRoot : Bool) : BtreeNode K V → Bool
  | .placehold => true
  | .leaf ln =>
    isRoot || (decide (innerSplitAt mx ≤ ln.keys.length) &&
               decide (ln.keys.length ≤ mx))
  | .inner ks cs _ =>
    (isRoot || (decide (innerSplitAt mx ≤ ks.length) &&
                decide (ks.length ≤ mx))) && occOkL mx cs
termination_by structural t => t

def occOkL {K V : Type} (mx : Nat) : List (BtreeNode K V) → Bool
  | [] => true
  | c :: cs => occOk mx false c && occOkL mx cs
termination_by structural l => l

end

mutual

/-- Does the tree contain an inner node with the `placehold` sentinel among
its children? -/
def hasPhChild {K V : Type} : BtreeNode K V → Bool
  | .inner _ cs _ => hasPhChildL cs
  | _ => false
termination_by structural t => t

def hasPhChildL {K V : Type} : List (BtreeNode K V) → Bool
  | [] => false
  | c :: cs => isPh c || hasPhChild c || hasPhChildL cs
termination_by structural l => l

end

/-! ### Concrete operation sequences exercising the remove rebalancing

With order `m = 4` (max 3 keys per node, minimum occupancy 2), removals can
drive an inner node under-full while its left sibling can spare a key; the
source then executes `childNodeptrs.remove(last_index)` with
`last_index = keys.len() - 1`, which removes the *second to last* child —
the wrong one.  The sequences below reach that branch and exploit the
resulting misplaced children. -/

/-- Ten ascending keys `10.…100` (values `key * 10`), then two small keys to
fatten the leftmost bottom inner node, then two removals triggering first a
leaf merge and then the buggy inner borrow-from-left. -/
def opsCorrupt : List (Op Nat Nat) :=
  ((List.range 10).map (fun i => .setOp (10 * (i + 1)) (100 * (i + 1))))
  ++ [.setOp 11 110, .setOp 12 120, .rmOp 100, .rmOp 20]

/-- Continuation of `opsCorrupt` reaching a state where a leaf merge removes
the wrong child: the result keeps a drained (empty) leaf in the tree. -/
def opsOccViolation : List (Op Nat Nat) :=
  opsCorrupt ++ [.setOp 30 303, .rmOp 30, .rmOp 10, .rmOp 11]

/-- Continuation of `opsOccViolation` after which `remove 50` succeeds while
a second, stale copy of key 50 becomes reachable. -/
def opsTombstone : List (Op Nat Nat) :=
  opsOccViolation ++ [.setOp 50 505, .setOp 55 550, .setOp 56 560,
    .rmOp 12, .rmOp 55, .rmOp 56]

/-- `opsCorrupt` followed by one insertion routed into a misplaced leaf:
the leaf chain then yields keys out of order. -/
def opsChainBreak : List (Op Nat Nat) := opsCorrupt ++ [.setOp 35 350]

/-- A height-4 tree (order 4): 22 ascending keys `10…220`, four small keys
to fatten the leftmost depth-1 inner node to 3 keys, then one removal whose
rebalancing cascade triggers the buggy inner borrow-from-left one level up;
the node left behind keeps its first key above its routing window, so the
descent for key 70 selects the sentinel child. -/
def opsPhDescent : List (Op Nat Nat) :=
  ((List.range 22).map (fun i => .setOp (10 * (i + 1)) (100 * (i + 1))))
  ++ [.setOp 11 110, .setOp 12 120, .setOp 13 130, .setOp 14 140, .rmOp 220]

/-! ### Claims C3, C6, C10 and the counterexamples for C2, C4, C5, C9 -/

/-- C10: on a freshly constructed tree (root still the `placehold`
sentinel), `remove(k)` returns absent for every key `k`, does not panic,
and leaves the root the sentinel (and the whole state unchanged). -/
theorem claim_C10 {K V : Type} [LinearOrder K] (m : Nat) (k : K) :
    (Bptree.new K V m).remove k = some (Bptree.new K V m, none) := rfl

/-- C3 (code bug): `remove` of an absent key is supposed to return absent
and leave the tree unchanged, but on a tree whose root is an empty leaf —
reached by `set 1; remove 1` from a fresh order-3 tree — `remove` reads
`self.keys[0]` of the empty leaf and panics (index out of bounds) instead.
First conjunct: the root after `set 1; remove 1` is the empty leaf (so the
final `remove 1` is a remove-miss on a reachable state); second conjunct:
that `remove` panics. -/
theorem claim_C3 :
    (runOps 3 [Op.setOp (1 : Nat) (10 : Nat), Op.rmOp 1]).map Bptree.root =
      some (BtreeNode.leaf ⟨0, [], [], 2⟩) ∧
    runOps 3 [Op.setOp (1 : Nat) (10 : Nat), Op.rmOp 1, Op.rmOp 1] = none :=
  ⟨rfl, rfl⟩


/-- Executable check that a list is strictly ascending. -/
def ascB {K : Type} [LinearOrder K] : List K → Bool
  | [] => true
  | [_] => true
  | a :: b :: r => decide (a < b) && ascB (b :: r)

theorem ascB_iff_chain {K : Type} [LinearOrder K] :
    ∀ (l : List K), ascB l = true ↔ List.Chain' (· < ·) l
  | [] => by simp [ascB]
  | [a] => by simp [ascB]
  | a :: b :: r => by
    rw [List.chain'_cons]
    simp [ascB, ascB_iff_chain (b :: r)]

/-- Unfolding of one step of the runner. -/
theorem runOps_def {K V : Type} [LinearOrder K] (m : Nat)
    (ops : List (Op K V)) :
    runOps m ops = goOps (some (Bptree.new K V m)) ops := rfl

theorem goOps_cons {K V : Type} [LinearOrder K] (t : Bptree K V)
    (op : Op K V) (r : List (Op K V)) :
    goOps (some t) (op :: r) = goOps (t.applyOp op) r := rfl

theorem goOps_nil {K V : Type} [LinearOrder K] (t : Bptree K V) :
    goOps (some t) ([] : List (Op K V)) = some t := rfl

/-- Rerunning a batch: `goOps` over an appended list runs the prefix
first. -/
theorem goOps_append {K V : Type} [LinearOrder K] (a b : List (Op K V)) :
    ∀ o : Option (Bptree K V), goOps o (a ++ b) = goOps (goOps o a) b := by
  induction a with
  | nil => intro o; cases o <;> simp [goOps]
  | cons op r ih =>
    intro o
    cases o with
    | none => simp [goOps]
    | some t => rw [List.cons_append, goOps_cons, goOps_cons, ih]

theorem runOps_append {K V : Type} [LinearOrder K] (m : Nat)
    (a b : List (Op K V)) : runOps m (a ++ b) = goOps (runOps m a) b :=
  goOps_append a b _

/-- Keys `1 … 5` set in order on a fresh order-3 tree. -/
def opsFiveSets : List (Op Nat Nat) :=
  (List.range 5).map (fun i => .setOp (i + 1) (10 * (i + 1)))

set_option maxHeartbeats 1000000 in
theorem runCorrupt_eq : runOps 4 opsCorrupt =
    some (Bptree.mk (BtreeNode.inner [] [BtreeNode.inner [30, 50, 70] [BtreeNode.leaf (LeafNode.mk 0 [10, 11, 12] [100, 110, 120] 3), BtreeNode.leaf (LeafNode.mk 2 [50, 60] [500, 600] 3), BtreeNode.leaf (LeafNode.mk 1 [30, 40] [300, 400] 3), BtreeNode.leaf (LeafNode.mk 3 [70, 80, 90] [700, 800, 900] 3)] 3] 3) 4 (Chain.mk [(5, (some 1)), (0, (some 5)), (4, none), (3, (some 4)), (3, none), (2, (some 3)), (2, none), (1, (some 2)), (1, none), (0, (some 1))] 6)) := by
  rw [runOps_def, show opsCorrupt = [Op.setOp 10 100, Op.setOp 20 200, Op.setOp 30 300, Op.setOp 40 400, Op.setOp 50 500, Op.setOp 60 600, Op.setOp 70 700, Op.setOp 80 800, Op.setOp 90 900, Op.setOp 100 1000, Op.setOp 11 110, Op.setOp 12 120, Op.rmOp 100, Op.rmOp 20] from rfl,
      show Bptree.new Nat Nat 4 = (Bptree.mk (BtreeNode.placehold) 4 (Chain.mk [] 0) : Bptree Nat Nat) from rfl]
  rw [goOps_cons, show Bptree.applyOp (Bptree.mk (BtreeNode.placehold) 4 (Chain.mk [] 0)) (Op.setOp 10 100) =
      some (Bptree.mk (BtreeNode.leaf (LeafNode.mk 0 [10] [100] 3)) 4 (Chain.mk [] 1)) from rfl]
  rw [goOps_cons, show Bptree.applyOp (Bptree.mk (BtreeNode.leaf (LeafNode.mk 0 [10] [100] 3)) 4 (Chain.mk [] 1)) (Op.setOp 20 200) =
      some (Bptree.mk (BtreeNode.leaf (LeafNode.mk 0 [10, 20] [100, 200] 3)) 4 (Chain.mk [] 1)) from rfl]
  rw [goOps_cons, show Bptree.applyOp (Bptree.mk (BtreeNode.leaf (LeafNode.mk 0 [10, 20] [100, 200] 3)) 4 (Chain.mk [] 1)) (Op.setOp 30 300) =
      some (Bptree.mk (BtreeNode.leaf (LeafNode.mk 0 [10, 20, 30] [100, 200, 300] 3)) 4 (Chain.mk [] 1)) from rfl]
  rw [goOps_cons, show Bptree.applyOp (Bptree.mk (BtreeNode.leaf (LeafNode.mk 0 [10, 20, 30] [100, 200, 300] 3)) 4 (Chain.mk [] 1)) (Op.setOp 40 400) =
      some (Bptree.mk (BtreeNode.inner [30] [BtreeNode.leaf (LeafNode.mk 0 [10, 20] [100, 200] 3), BtreeNode.leaf (LeafNode.mk 1 [30, 40] [300, 400] 3)] 3) 4 (Chain.mk [(1, none), (0, (some 1))] 2)) from rfl]
  rw [goOps_cons, show Bptree.applyOp (Bptree.mk (BtreeNode.inner [30] [BtreeNode.leaf (LeafNode.mk 0 [10, 20] [100, 200] 3), BtreeNode.leaf (LeafNode.mk 1 [30, 40] [300, 400] 3)] 3) 4 (Chain.mk [(1, none), (0, (some 1))] 2)) (Op.setOp 50 500) =
      some (Bptree.mk (BtreeNode.inner [30] [BtreeNode.leaf (LeafNode.mk 0 [10, 20] [100, 200] 3), BtreeNode.leaf (LeafNode.mk 1 [30, 40, 50] [300, 400, 500] 3)] 3) 4 (Chain.mk [(1, none), (0, (some 1))] 2)) from rfl]
  rw [goOps_cons, show Bptree.applyOp (Bptree.mk (BtreeNode.inner [30] [BtreeNode.leaf (LeafNode.mk 0 [10, 20] [100, 200] 3), BtreeNode.leaf (LeafNode.mk 1 [30, 40, 50] [300, 400, 500] 3)] 3) 4 (Chain.mk [(1, none), (0, (some 1))] 2)) (Op.setOp 60 600) =
      some (Bptree.mk (BtreeNode.inner [30, 50] [BtreeNode.leaf (LeafNode.mk 0 [10, 20] [100, 200] 3), BtreeNode.leaf (LeafNode.mk 1 [30, 40] [300, 400] 3), BtreeNode.leaf (LeafNode.mk 2 [50, 60] [500, 600] 3)] 3) 4 (Chain.mk [(2, none), (1, (some 2)), (1, none), (0, (some 1))] 3)) from rfl]
  rw [goOps_cons, show Bptree.applyOp (Bptree.mk (BtreeNode.inner [30, 50] [BtreeNode.leaf (LeafNode.mk 0 [10, 20] [100, 200] 3), BtreeNode.leaf (LeafNode.mk 1 [30, 40] [300, 400] 3), BtreeNode.leaf (LeafNode.mk 2 [50, 60] [500, 600] 3)] 3) 4 (Chain.mk [(2, none), (1, (some 2)), (1, none), (0, (some 1))] 3)) (Op.setOp 70 700) =
      some (Bptree.mk (BtreeNode.inner [30, 50] [BtreeNode.leaf (LeafNode.mk 0 [10, 20] [100, 200] 3), BtreeNode.leaf (LeafNode.mk 1 [30, 40] [300, 400] 3), BtreeNode.leaf (LeafNode.mk 2 [50, 60, 70] [500, 600, 700] 3)] 3) 4 (Chain.mk [(2, none), (1, (some 2)), (1, none), (0, (some 1))] 3)) from rfl]
  rw [goOps_cons, show Bptree.applyOp (Bptree.mk (BtreeNode.inner [30, 50] [BtreeNode.leaf (LeafNode.mk 0 [10, 20] [100, 200] 3), BtreeNode.leaf (LeafNode.mk 1 [30, 40] [300, 400] 3), BtreeNode.leaf (LeafNode.mk 2 [50, 60, 70] [500, 600, 700] 3)] 3) 4 (Chain.mk [(2, none), (1, (some 2)), (1, none), (0, (some 1))] 3)) (Op.setOp 80 800) =
      some (Bptree.mk (BtreeNode.inner [30, 50, 70] [BtreeNode.leaf (LeafNode.mk 0 [10, 20] [100, 200] 3), BtreeNode.leaf (LeafNode.mk 1 [30, 40] [300, 400] 3), BtreeNode.leaf (LeafNode.mk 2 [50, 60] [500, 600] 3), BtreeNode.leaf (LeafNode.mk 3 [70, 80] [700, 800] 3)] 3) 4 (Chain.mk [(3, none), (2, (some 3)), (2, none), (1, (some 2)), (1, none), (0, (some 1))] 4)) from rfl]
  rw [goOps_cons, show Bptree.applyOp (Bptree.mk (BtreeNode.inner [30, 50, 70] [BtreeNode.leaf (LeafNode.mk 0 [10, 20] [100, 200] 3), BtreeNode.leaf (LeafNode.mk 1 [30, 40] [300, 400] 3), BtreeNode.leaf (LeafNode.mk 2 [50, 60] [500, 600] 3), BtreeNode.leaf (LeafNode.mk 3 [70, 80] [700, 800] 3)] 3) 4 (Chain.mk [(3, none), (2, (some 3)), (2, none), (1, (some 2)), (1, none), (0, (some 1))] 4)) (Op.setOp 90 900) =
      some (Bptree.mk (BtreeNode.inner [30, 50, 70] [BtreeNode.leaf (LeafNode.mk 0 [10, 20] [100, 200] 3), BtreeNode.leaf (LeafNode.mk 1 [30, 40] [300, 400] 3), BtreeNode.leaf (LeafNode.mk 2 [50, 60] [500, 600] 3), BtreeNode.leaf (LeafNode.mk 3 [70, 80, 90] [700, 800, 900] 3)] 3) 4 (Chain.mk [(3, none), (2, (some 3)), (2, none), (1, (some 2)), (1, none), (0, (some 1))] 4)) from rfl]
  rw [goOps_cons, show Bptree.applyOp (Bptree.mk (BtreeNode.inner [30, 50, 70] [BtreeNode.leaf (LeafNode.mk 0 [10, 20] [100, 200] 3), BtreeNode.leaf (LeafNode.mk 1 [30, 40] [300, 400] 3), BtreeNode.leaf (LeafNode.mk 2 [50, 60] [500, 600] 3), BtreeNode.leaf (LeafNode.mk 3 [70, 80, 90] [700, 800, 900] 3)] 3) 4 (Chain.mk [(3, none), (2, (some 3)), (2, none), (1, (some 2)), (1, none), (0, (some 1))] 4)) (Op.setOp 100 1000) =
      some (Bptree.mk (BtreeNode.inner [70] [BtreeNode.inner [30, 50] [BtreeNode.leaf (LeafNode.mk 0 [10, 20] [100, 200] 3), BtreeNode.leaf (LeafNode.mk 1 [30, 40] [300, 400] 3), BtreeNode.leaf (LeafNode.mk 2 [50, 60] [500, 600] 3)] 3, BtreeNode.inner [70, 90] [BtreeNode.placehold, BtreeNode.leaf (LeafNode.mk 3 [70, 80] [700, 800] 3), BtreeNode.leaf (LeafNode.mk 4 [90, 100] [900, 1000] 3)] 3] 3) 4 (Chain.mk [(4, none), (3, (some 4)), (3, none), (2, (some 3)), (2, none), (1, (some 2)), (1, none), (0, (some 1))] 5)) from rfl]
  rw [goOps_cons, show Bptree.applyOp (Bptree.mk (BtreeNode.inner [70] [BtreeNode.inner [30, 50] [BtreeNode.leaf (LeafNode.mk 0 [10, 20] [100, 200] 3), BtreeNode.leaf (LeafNode.mk 1 [30, 40] [300, 400] 3), BtreeNode.leaf (LeafNode.mk 2 [50, 60] [500, 600] 3)] 3, BtreeNode.inner [70, 90] [BtreeNode.placehold, BtreeNode.leaf (LeafNode.mk 3 [70, 80] [700, 800] 3), BtreeNode.leaf (LeafNode.mk 4 [90, 100] [900, 1000] 3)] 3] 3) 4 (Chain.mk [(4, none), (3, (some 4)), (3, none), (2, (some 3)), (2, none), (1, (some 2)), (1, none), (0, (some 1))] 5)) (Op.setOp 11 110) =
      some (Bptree.mk (BtreeNode.inner [70] [BtreeNode.inner [30, 50] [BtreeNode.leaf (LeafNode.mk 0 [10, 11, 20] [100, 110, 200] 3), BtreeNode.leaf (LeafNode.mk 1 [30, 40] [300, 400] 3), BtreeNode.leaf (LeafNode.mk 2 [50, 60] [500, 600] 3)] 3, BtreeNode.inner [70, 90] [BtreeNode.placehold, BtreeNode.leaf (LeafNode.mk 3 [70, 80] [700, 800] 3), BtreeNode.leaf (LeafNode.mk 4 [90, 100] [900, 1000] 3)] 3] 3) 4 (Chain.mk [(4, none), (3, (some 4)), (3, none), (2, (some 3)), (2, none), (1, (some 2)), (1, none), (0, (some 1))] 5)) from rfl]
  rw [goOps_cons, show Bptree.applyOp (Bptree.mk (BtreeNode.inner [70] [BtreeNode.inner [30, 50] [BtreeNode.leaf (LeafNode.mk 0 [10, 11, 20] [100, 110, 200] 3), BtreeNode.leaf (LeafNode.mk 1 [30, 40] [300, 400] 3), BtreeNode.leaf (LeafNode.mk 2 [50, 60] [500, 600] 3)] 3, BtreeNode.inner [70, 90] [BtreeNode.placehold, BtreeNode.leaf (LeafNode.mk 3 [70, 80] [700, 800] 3), BtreeNode.leaf (LeafNode.mk 4 [90, 100] [900, 1000] 3)] 3] 3) 4 (Chain.mk [(4, none), (3, (some 4)), (3, none), (2, (some 3)), (2, none), (1, (some 2)), (1, none), (0, (some 1))] 5)) (Op.setOp 12 120) =
      some (Bptree.mk (BtreeNode.inner [70] [BtreeNode.inner [12, 30, 50] [BtreeNode.leaf (LeafNode.mk 0 [10, 11] [100, 110] 3), BtreeNode.leaf (LeafNode.mk 5 [12, 20] [120, 200] 3), BtreeNode.leaf (LeafNode.mk 1 [30, 40] [300, 400] 3), BtreeNode.leaf (LeafNode.mk 2 [50, 60] [500, 600] 3)] 3, BtreeNode.inner [70, 90] [BtreeNode.placehold, BtreeNode.leaf (LeafNode.mk 3 [70, 80] [700, 800] 3), BtreeNode.leaf (LeafNode.mk 4 [90, 100] [900, 1000] 3)] 3] 3) 4 (Chain.mk [(5, (some 1)), (0, (some 5)), (4, none), (3, (some 4)), (3, none), (2, (some 3)), (2, none), (1, (some 2)), (1, none), (0, (some 1))] 6)) from rfl]
  rw [goOps_cons, show Bptree.applyOp (Bptree.mk (BtreeNode.inner [70] [BtreeNode.inner [12, 30, 50] [BtreeNode.leaf (LeafNode.mk 0 [10, 11] [100, 110] 3), BtreeNode.leaf (LeafNode.mk 5 [12, 20] [120, 200] 3), BtreeNode.leaf (LeafNode.mk 1 [30, 40] [300, 400] 3), BtreeNode.leaf (LeafNode.mk 2 [50, 60] [500, 600] 3)] 3, BtreeNode.inner [70, 90] [BtreeNode.placehold, BtreeNode.leaf (LeafNode.mk 3 [70, 80] [700, 800] 3), BtreeNode.leaf (LeafNode.mk 4 [90, 100] [900, 1000] 3)] 3] 3) 4 (Chain.mk [(5, (some 1)), (0, (some 5)), (4, none), (3, (some 4)), (3, none), (2, (some 3)), (2, none), (1, (some 2)), (1, none), (0, (some 1))] 6)) (Op.rmOp 100) =
      some (Bptree.mk (BtreeNode.inner [50] [BtreeNode.inner [12, 30] [BtreeNode.leaf (LeafNode.mk 0 [10, 11] [100, 110] 3), BtreeNode.leaf (LeafNode.mk 5 [12, 20] [120, 200] 3), BtreeNode.leaf (LeafNode.mk 2 [50, 60] [500, 600] 3)] 3, BtreeNode.inner [50, 70] [BtreeNode.placehold, BtreeNode.leaf (LeafNode.mk 1 [30, 40] [300, 400] 3), BtreeNode.leaf (LeafNode.mk 3 [70, 80, 90] [700, 800, 900] 3)] 3] 3) 4 (Chain.mk [(5, (some 1)), (0, (some 5)), (4, none), (3, (some 4)), (3, none), (2, (some 3)), (2, none), (1, (some 2)), (1, none), (0, (some 1))] 6)) from rfl]
  rw [goOps_cons, show Bptree.applyOp (Bptree.mk (BtreeNode.inner [50] [BtreeNode.inner [12, 30] [BtreeNode.leaf (LeafNode.mk 0 [10, 11] [100, 110] 3), BtreeNode.leaf (LeafNode.mk 5 [12, 20] [120, 200] 3), BtreeNode.leaf (LeafNode.mk 2 [50, 60] [500, 600] 3)] 3, BtreeNode.inner [50, 70] [BtreeNode.placehold, BtreeNode.leaf (LeafNode.mk 1 [30, 40] [300, 400] 3), BtreeNode.leaf (LeafNode.mk 3 [70, 80, 90] [700, 800, 900] 3)] 3] 3) 4 (Chain.mk [(5, (some 1)), (0, (some 5)), (4, none), (3, (some 4)), (3, none), (2, (some 3)), (2, none), (1, (some 2)), (1, none), (0, (some 1))] 6)) (Op.rmOp 20) =
      some (Bptree.mk (BtreeNode.inner [] [BtreeNode.inner [30, 50, 70] [BtreeNode.leaf (LeafNode.mk 0 [10, 11, 12] [100, 110, 120] 3), BtreeNode.leaf (LeafNode.mk 2 [50, 60] [500, 600] 3), BtreeNode.leaf (LeafNode.mk 1 [30, 40] [300, 400] 3), BtreeNode.leaf (LeafNode.mk 3 [70, 80, 90] [700, 800, 900] 3)] 3] 3) 4 (Chain.mk [(5, (some 1)), (0, (some 5)), (4, none), (3, (some 4)), (3, none), (2, (some 3)), (2, none), (1, (some 2)), (1, none), (0, (some 1))] 6)) from rfl]
  rw [goOps_nil]


set_option maxHeartbeats 1000000 in
theorem runOccViolation_eq : runOps 4 opsOccViolation =
    some (Bptree.mk (BtreeNode.inner [50, 70] [BtreeNode.leaf (LeafNode.mk 0 [12, 50, 60] [120, 500, 600] 3), BtreeNode.leaf (LeafNode.mk 2 [] [] 3), BtreeNode.leaf (LeafNode.mk 3 [70, 80, 90] [700, 800, 900] 3)] 3) 4 (Chain.mk [(5, (some 1)), (0, (some 5)), (4, none), (3, (some 4)), (3, none), (2, (some 3)), (2, none), (1, (some 2)), (1, none), (0, (some 1))] 6)) := by
  rw [show opsOccViolation = opsCorrupt ++ [Op.setOp 30 303, Op.rmOp 30, Op.rmOp 10, Op.rmOp 11] from rfl,
      runOps_append, runCorrupt_eq]
  rw [goOps_cons, show Bptree.applyOp (Bptree.mk (BtreeNode.inner [] [BtreeNode.inner [30, 50, 70] [BtreeNode.leaf (LeafNode.mk 0 [10, 11, 12] [100, 110, 120] 3), BtreeNode.leaf (LeafNode.mk 2 [50, 60] [500, 600] 3), BtreeNode.leaf (LeafNode.mk 1 [30, 40] [300, 400] 3), BtreeNode.leaf (LeafNode.mk 3 [70, 80, 90] [700, 800, 900] 3)] 3] 3) 4 (Chain.mk [(5, (some 1)), (0, (some 5)), (4, none), (3, (some 4)), (3, none), (2, (some 3)), (2, none), (1, (some 2)), (1, none), (0, (some 1))] 6)) (Op.setOp 30 303) =
      some (Bptree.mk (BtreeNode.inner [] [BtreeNode.inner [30, 50, 70] [BtreeNode.leaf (LeafNode.mk 0 [10, 11, 12] [100, 110, 120] 3), BtreeNode.leaf (LeafNode.mk 2 [30, 50, 60] [303, 500, 600] 3), BtreeNode.leaf (LeafNode.mk 1 [30, 40] [300, 400] 3), BtreeNode.leaf (LeafNode.mk 3 [70, 80, 90] [700, 800, 900] 3)] 3] 3) 4 (Chain.mk [(5, (some 1)), (0, (some 5)), (4, none), (3, (some 4)), (3, none), (2, (some 3)), (2, none), (1, (some 2)), (1, none), (0, (some 1))] 6)) from rfl]
  rw [goOps_cons, show Bptree.applyOp (Bptree.mk (BtreeNode.inner [] [BtreeNode.inner [30, 50, 70] [BtreeNode.leaf (LeafNode.mk 0 [10, 11, 12] [100, 110, 120] 3), BtreeNode.leaf (LeafNode.mk 2 [30, 50, 60] [303, 500, 600] 3), BtreeNode.leaf (LeafNode.mk 1 [30, 40] [300, 400] 3), BtreeNode.leaf (LeafNode.mk 3 [70, 80, 90] [700, 800, 900] 3)] 3] 3) 4 (Chain.mk [(5, (some 1)), (0, (some 5)), (4, none), (3, (some 4)), (3, none), (2, (some 3)), (2, none), (1, (some 2)), (1, none), (0, (some 1))] 6)) (Op.rmOp 30) =
      some (Bptree.mk (BtreeNode.inner [50, 50, 70] [BtreeNode.leaf (LeafNode.mk 0 [10, 11, 12] [100, 110, 120] 3), BtreeNode.leaf (LeafNode.mk 2 [50, 60] [500, 600] 3), BtreeNode.leaf (LeafNode.mk 1 [30, 40] [300, 400] 3), BtreeNode.leaf (LeafNode.mk 3 [70, 80, 90] [700, 800, 900] 3)] 3) 4 (Chain.mk [(5, (some 1)), (0, (some 5)), (4, none), (3, (some 4)), (3, none), (2, (some 3)), (2, none), (1, (some 2)), (1, none), (0, (some 1))] 6)) from rfl]
  rw [goOps_cons, show Bptree.applyOp (Bptree.mk (BtreeNode.inner [50, 50, 70] [BtreeNode.leaf (LeafNode.mk 0 [10, 11, 12] [100, 110, 120] 3), BtreeNode.leaf (LeafNode.mk 2 [50, 60] [500, 600] 3), BtreeNode.leaf (LeafNode.mk 1 [30, 40] [300, 400] 3), BtreeNode.leaf (LeafNode.mk 3 [70, 80, 90] [700, 800, 900] 3)] 3) 4 (Chain.mk [(5, (some 1)), (0, (some 5)), (4, none), (3, (some 4)), (3, none), (2, (some 3)), (2, none), (1, (some 2)), (1, none), (0, (some 1))] 6)) (Op.rmOp 10) =
      some (Bptree.mk (BtreeNode.inner [50, 50, 70] [BtreeNode.leaf (LeafNode.mk 0 [11, 12] [110, 120] 3), BtreeNode.leaf (LeafNode.mk 2 [50, 60] [500, 600] 3), BtreeNode.leaf (LeafNode.mk 1 [30, 40] [300, 400] 3), BtreeNode.leaf (LeafNode.mk 3 [70, 80, 90] [700, 800, 900] 3)] 3) 4 (Chain.mk [(5, (some 1)), (0, (some 5)), (4, none), (3, (some 4)), (3, none), (2, (some 3)), (2, none), (1, (some 2)), (1, none), (0, (some 1))] 6)) from rfl]
  rw [goOps_cons, show Bptree.applyOp (Bptree.mk (BtreeNode.inner [50, 50, 70] [BtreeNode.leaf (LeafNode.mk 0 [11, 12] [110, 120] 3), BtreeNode.leaf (LeafNode.mk 2 [50, 60] [500, 600] 3), BtreeNode.leaf (LeafNode.mk 1 [30, 40] [300, 400] 3), BtreeNode.leaf (LeafNode.mk 3 [70, 80, 90] [700, 800, 900] 3)] 3) 4 (Chain.mk [(5, (some 1)), (0, (some 5)), (4, none), (3, (some 4)), (3, none), (2, (some 3)), (2, none), (1, (some 2)), (1, none), (0, (some 1))] 6)) (Op.rmOp 11) =
      some (Bptree.mk (BtreeNode.inner [50, 70] [BtreeNode.leaf (LeafNode.mk 0 [12, 50, 60] [120, 500, 600] 3), BtreeNode.leaf (LeafNode.mk 2 [] [] 3), BtreeNode.leaf (LeafNode.mk 3 [70, 80, 90] [700, 800, 900] 3)] 3) 4 (Chain.mk [(5, (some 1)), (0, (some 5)), (4, none), (3, (some 4)), (3, none), (2, (some 3)), (2, none), (1, (some 2)), (1, none), (0, (some 1))] 6)) from rfl]
  rw [goOps_nil]


set_option maxHeartbeats 1000000 in
theorem runTombstone_eq : runOps 4 opsTombstone =
    some (Bptree.mk (BtreeNode.inner [70] [BtreeNode.leaf (LeafNode.mk 0 [50, 60, 50] [500, 600, 505] 3), BtreeNode.leaf (LeafNode.mk 3 [70, 80, 90] [700, 800, 900] 3)] 3) 4 (Chain.mk [(5, (some 1)), (0, (some 5)), (4, none), (3, (some 4)), (3, none), (2, (some 3)), (2, none), (1, (some 2)), (1, none), (0, (some 1))] 6)) := by
  rw [show opsTombstone = opsOccViolation ++ [Op.setOp 50 505, Op.setOp 55 550, Op.setOp 56 560, Op.rmOp 12, Op.rmOp 55, Op.rmOp 56] from rfl,
      runOps_append, runOccViolation_eq]
  rw [goOps_cons, show Bptree.applyOp (Bptree.mk (BtreeNode.inner [50, 70] [BtreeNode.leaf (LeafNode.mk 0 [12, 50, 60] [120, 500, 600] 3), BtreeNode.leaf (LeafNode.mk 2 [] [] 3), BtreeNode.leaf (LeafNode.mk 3 [70, 80, 90] [700, 800, 900] 3)] 3) 4 (Chain.mk [(5, (some 1)), (0, (some 5)), (4, none), (3, (some 4)), (3, none), (2, (some 3)), (2, none), (1, (some 2)), (1, none), (0, (some 1))] 6)) (Op.setOp 50 505) =
      some (Bptree.mk (BtreeNode.inner [50, 70] [BtreeNode.leaf (LeafNode.mk 0 [12, 50, 60] [120, 500, 600] 3), BtreeNode.leaf (LeafNode.mk 2 [50] [505] 3), BtreeNode.leaf (LeafNode.mk 3 [70, 80, 90] [700, 800, 900] 3)] 3) 4 (Chain.mk [(5, (some 1)), (0, (some 5)), (4, none), (3, (some 4)), (3, none), (2, (some 3)), (2, none), (1, (some 2)), (1, none), (0, (some 1))] 6)) from rfl]
  rw [goOps_cons, show Bptree.applyOp (Bptree.mk (BtreeNode.inner [50, 70] [BtreeNode.leaf (LeafNode.mk 0 [12, 50, 60] [120, 500, 600] 3), BtreeNode.leaf (LeafNode.mk 2 [50] [505] 3), BtreeNode.leaf (LeafNode.mk 3 [70, 80, 90] [700, 800, 900] 3)] 3) 4 (Chain.mk [(5, (some 1)), (0, (some 5)), (4, none), (3, (some 4)), (3, none), (2, (some 3)), (2, none), (1, (some 2)), (1, none), (0, (some 1))] 6)) (Op.setOp 55 550) =
      some (Bptree.mk (BtreeNode.inner [50, 70] [BtreeNode.leaf (LeafNode.mk 0 [12, 50, 60] [120, 500, 600] 3), BtreeNode.leaf (LeafNode.mk 2 [50, 55] [505, 550] 3), BtreeNode.leaf (LeafNode.mk 3 [70, 80, 90] [700, 800, 900] 3)] 3) 4 (Chain.mk [(5, (some 1)), (0, (some 5)), (4, none), (3, (some 4)), (3, none), (2, (some 3)), (2, none), (1, (some 2)), (1, none), (0, (some 1))] 6)) from rfl]
  rw [goOps_cons, show Bptree.applyOp (Bptree.mk (BtreeNode.inner [50, 70] [BtreeNode.leaf (LeafNode.mk 0 [12, 50, 60] [120, 500, 600] 3), BtreeNode.leaf (LeafNode.mk 2 [50, 55] [505, 550] 3), BtreeNode.leaf (LeafNode.mk 3 [70, 80, 90] [700, 800, 900] 3)] 3) 4 (Chain.mk [(5, (some 1)), (0, (some 5)), (4, none), (3, (some 4)), (3, none), (2, (some 3)), (2, none), (1, (some 2)), (1, none), (0, (some 1))] 6)) (Op.setOp 56 560) =
      some (Bptree.mk (BtreeNode.inner [50, 70] [BtreeNode.leaf (LeafNode.mk 0 [12, 50, 60] [120, 500, 600] 3), BtreeNode.leaf (LeafNode.mk 2 [50, 55, 56] [505, 550, 560] 3), BtreeNode.leaf (LeafNode.mk 3 [70, 80, 90] [700, 800, 900] 3)] 3) 4 (Chain.mk [(5, (some 1)), (0, (some 5)), (4, none), (3, (some 4)), (3, none), (2, (some 3)), (2, none), (1, (some 2)), (1, none), (0, (some 1))] 6)) from rfl]
  rw [goOps_cons, show Bptree.applyOp (Bptree.mk (BtreeNode.inner [50, 70] [BtreeNode.leaf (LeafNode.mk 0 [12, 50, 60] [120, 500, 600] 3), BtreeNode.leaf (LeafNode.mk 2 [50, 55, 56] [505, 550, 560] 3), BtreeNode.leaf (LeafNode.mk 3 [70, 80, 90] [700, 800, 900] 3)] 3) 4 (Chain.mk [(5, (some 1)), (0, (some 5)), (4, none), (3, (some 4)), (3, none), (2, (some 3)), (2, none), (1, (some 2)), (1, none), (0, (some 1))] 6)) (Op.rmOp 12) =
      some (Bptree.mk (BtreeNode.inner [50, 70] [BtreeNode.leaf (LeafNode.mk 0 [50, 60] [500, 600] 3), BtreeNode.leaf (LeafNode.mk 2 [50, 55, 56] [505, 550, 560] 3), BtreeNode.leaf (LeafNode.mk 3 [70, 80, 90] [700, 800, 900] 3)] 3) 4 (Chain.mk [(5, (some 1)), (0, (some 5)), (4, none), (3, (some 4)), (3, none), (2, (some 3)), (2, none), (1, (some 2)), (1, none), (0, (some 1))] 6)) from rfl]
  rw [goOps_cons, show Bptree.applyOp (Bptree.mk (BtreeNode.inner [50, 70] [BtreeNode.leaf (LeafNode.mk 0 [50, 60] [500, 600] 3), BtreeNode.leaf (LeafNode.mk 2 [50, 55, 56] [505, 550, 560] 3), BtreeNode.leaf (LeafNode.mk 3 [70, 80, 90] [700, 800, 900] 3)] 3) 4 (Chain.mk [(5, (some 1)), (0, (some 5)), (4, none), (3, (some 4)), (3, none), (2, (some 3)), (2, none), (1, (some 2)), (1, none), (0, (some 1))] 6)) (Op.rmOp 55) =
      some (Bptree.mk (BtreeNode.inner [50, 70] [BtreeNode.leaf (LeafNode.mk 0 [50, 60] [500, 600] 3), BtreeNode.leaf (LeafNode.mk 2 [50, 56] [505, 560] 3), BtreeNode.leaf (LeafNode.mk 3 [70, 80, 90] [700, 800, 900] 3)] 3) 4 (Chain.mk [(5, (some 1)), (0, (some 5)), (4, none), (3, (some 4)), (3, none), (2, (some 3)), (2, none), (1, (some 2)), (1, none), (0, (some 1))] 6)) from rfl]
  rw [goOps_cons, show Bptree.applyOp (Bptree.mk (BtreeNode.inner [50, 70] [BtreeNode.leaf (LeafNode.mk 0 [50, 60] [500, 600] 3), BtreeNode.leaf (LeafNode.mk 2 [50, 56] [505, 560] 3), BtreeNode.leaf (LeafNode.mk 3 [70, 80, 90] [700, 800, 900] 3)] 3) 4 (Chain.mk [(5, (some 1)), (0, (some 5)), (4, none), (3, (some 4)), (3, none), (2, (some 3)), (2, none), (1, (some 2)), (1, none), (0, (some 1))] 6)) (Op.rmOp 56) =
      some (Bptree.mk (BtreeNode.inner [70] [BtreeNode.leaf (LeafNode.mk 0 [50, 60, 50] [500, 600, 505] 3), BtreeNode.leaf (LeafNode.mk 3 [70, 80, 90] [700, 800, 900] 3)] 3) 4 (Chain.mk [(5, (some 1)), (0, (some 5)), (4, none), (3, (some 4)), (3, none), (2, (some 3)), (2, none), (1, (some 2)), (1, none), (0, (some 1))] 6)) from rfl]
  rw [goOps_nil]


set_option maxHeartbeats 1000000 in
theorem runChainBreak_eq : runOps 4 opsChainBreak =
    some (Bptree.mk (BtreeNode.inner [] [BtreeNode.inner [30, 50, 70] [BtreeNode.leaf (LeafNode.mk 0 [10, 11, 12] [100, 110, 120] 3), BtreeNode.leaf (LeafNode.mk 2 [35, 50, 60] [350, 500, 600] 3), BtreeNode.leaf (LeafNode.mk 1 [30, 40] [300, 400] 3), BtreeNode.leaf (LeafNode.mk 3 [70, 80, 90] [700, 800, 900] 3)] 3] 3) 4 (Chain.mk [(5, (some 1)), (0, (some 5)), (4, none), (3, (some 4)), (3, none), (2, (some 3)), (2, none), (1, (some 2)), (1, none), (0, (some 1))] 6)) := by
  rw [show opsChainBreak = opsCorrupt ++ [Op.setOp 35 350] from rfl,
      runOps_append, runCorrupt_eq]
  rw [goOps_cons, show Bptree.applyOp (Bptree.mk (BtreeNode.inner [] [BtreeNode.inner [30, 50, 70] [BtreeNode.leaf (LeafNode.mk 0 [10, 11, 12] [100, 110, 120] 3), BtreeNode.leaf (LeafNode.mk 2 [50, 60] [500, 600] 3), BtreeNode.leaf (LeafNode.mk 1 [30, 40] [300, 400] 3), BtreeNode.leaf (LeafNode.mk 3 [70, 80, 90] [700, 800, 900] 3)] 3] 3) 4 (Chain.mk [(5, (some 1)), (0, (some 5)), (4, none), (3, (some 4)), (3, none), (2, (some 3)), (2, none), (1, (some 2)), (1, none), (0, (some 1))] 6)) (Op.setOp 35 350) =
      some (Bptree.mk (BtreeNode.inner [] [BtreeNode.inner [30, 50, 70] [BtreeNode.leaf (LeafNode.mk 0 [10, 11, 12] [100, 110, 120] 3), BtreeNode.leaf (LeafNode.mk 2 [35, 50, 60] [350, 500, 600] 3), BtreeNode.leaf (LeafNode.mk 1 [30, 40] [300, 400] 3), BtreeNode.leaf (LeafNode.mk 3 [70, 80, 90] [700, 800, 900] 3)] 3] 3) 4 (Chain.mk [(5, (some 1)), (0, (some 5)), (4, none), (3, (some 4)), (3, none), (2, (some 3)), (2, none), (1, (some 2)), (1, none), (0, (some 1))] 6)) from rfl]
  rw [goOps_nil]


set_option maxHeartbeats 1000000 in
theorem runPhDescent_eq : runOps 4 opsPhDescent =
    some (Bptree.mk (BtreeNode.inner [110] [BtreeNode.inner [30, 70] [BtreeNode.inner [12, 14] [BtreeNode.leaf (LeafNode.mk 0 [10, 11] [100, 110] 3), BtreeNode.leaf (LeafNode.mk 11 [12, 13] [120, 130] 3), BtreeNode.leaf (LeafNode.mk 12 [14, 20] [140, 200] 3)] 3, BtreeNode.inner [30, 50] [BtreeNode.placehold, BtreeNode.leaf (LeafNode.mk 1 [30, 40] [300, 400] 3), BtreeNode.leaf (LeafNode.mk 2 [50, 60] [500, 600] 3)] 3, BtreeNode.inner [110, 130] [BtreeNode.placehold, BtreeNode.leaf (LeafNode.mk 5 [110, 120] [1100, 1200] 3), BtreeNode.leaf (LeafNode.mk 6 [130, 140] [1300, 1400] 3)] 3] 3, BtreeNode.inner [110, 150] [BtreeNode.placehold, BtreeNode.inner [70, 90] [BtreeNode.placehold, BtreeNode.leaf (LeafNode.mk 3 [70, 80] [700, 800] 3), BtreeNode.leaf (LeafNode.mk 4 [90, 100] [900, 1000] 3)] 3, BtreeNode.inner [150, 170, 190] [BtreeNode.placehold, BtreeNode.leaf (LeafNode.mk 7 [150, 160] [1500, 1600] 3), BtreeNode.leaf (LeafNode.mk 8 [170, 180] [1700, 1800] 3), BtreeNode.leaf (LeafNode.mk 9 [190, 200, 210] [1900, 2000, 2100] 3)] 3] 3] 3) 4 (Chain.mk [(12, (some 1)), (11, (some 12)), (11, (some 1)), (0, (some 11)), (10, none), (9, (some 10)), (9, none), (8, (some 9)), (8, none), (7, (some 8)), (7, none), (6, (some 7)), (6, none), (5, (some 6)), (5, none), (4, (some 5)), (4, none), (3, (some 4)), (3, none), (2, (some 3)), (2, none), (1, (some 2)), (1, none), (0, (some 1))] 13)) := by
  rw [runOps_def, show opsPhDescent = [Op.setOp 10 100, Op.setOp 20 200, Op.setOp 30 300, Op.setOp 40 400, Op.setOp 50 500, Op.setOp 60 600, Op.setOp 70 700, Op.setOp 80 800, Op.setOp 90 900, Op.setOp 100 1000, Op.setOp 110 1100, Op.setOp 120 1200, Op.setOp 130 1300, Op.setOp 140 1400, Op.setOp 150 1500, Op.setOp 160 1600, Op.setOp 170 1700, Op.setOp 180 1800, Op.setOp 190 1900, Op.setOp 200 2000, Op.setOp 210 2100, Op.setOp 220 2200, Op.setOp 11 110, Op.setOp 12 120, Op.setOp 13 130, Op.setOp 14 140, Op.rmOp 220] from rfl,
      show Bptree.new Nat Nat 4 = (Bptree.mk (BtreeNode.placehold) 4 (Chain.mk [] 0) : Bptree Nat Nat) from rfl]
  rw [goOps_cons, show Bptree.applyOp (Bptree.mk (BtreeNode.placehold) 4 (Chain.mk [] 0)) (Op.setOp 10 100) =
      some (Bptree.mk (BtreeNode.leaf (LeafNode.mk 0 [10] [100] 3)) 4 (Chain.mk [] 1)) from rfl]
  rw [goOps_cons, show Bptree.applyOp (Bptree.mk (BtreeNode.leaf (LeafNode.mk 0 [10] [100] 3)) 4 (Chain.mk [] 1)) (Op.setOp 20 200) =
      some (Bptree.mk (BtreeNode.leaf (LeafNode.mk 0 [10, 20] [100, 200] 3)) 4 (Chain.mk [] 1)) from rfl]
  rw [goOps_cons, show Bptree.applyOp (Bptree.mk (BtreeNode.leaf (LeafNode.mk 0 [10, 20] [100, 200] 3)) 4 (Chain.mk [] 1)) (Op.setOp 30 300) =
      some (Bptree.mk (BtreeNode.leaf (LeafNode.mk 0 [10, 20, 30] [100, 200, 300] 3)) 4 (Chain.mk [] 1)) from rfl]
  rw [goOps_cons, show Bptree.applyOp (Bptree.mk (BtreeNode.leaf (LeafNode.mk 0 [10, 20, 30] [100, 200, 300] 3)) 4 (Chain.mk [] 1)) (Op.setOp 40 400) =
      some (Bptree.mk (BtreeNode.inner [30] [BtreeNode.leaf (LeafNode.mk 0 [10, 20] [100, 200] 3), BtreeNode.leaf (LeafNode.mk 1 [30, 40] [300, 400] 3)] 3) 4 (Chain.mk [(1, none), (0, (some 1))] 2)) from rfl]
  rw [goOps_cons, show Bptree.applyOp (Bptree.mk (BtreeNode.inner [30] [BtreeNode.leaf (LeafNode.mk 0 [10, 20] [100, 200] 3), BtreeNode.leaf (LeafNode.mk 1 [30, 40] [300, 400] 3)] 3) 4 (Chain.mk [(1, none), (0, (some 1))] 2)) (Op.setOp 50 500) =
      some (Bptree.mk (BtreeNode.inner [30] [BtreeNode.leaf (LeafNode.mk 0 [10, 20] [100, 200] 3), BtreeNode.leaf (LeafNode.mk 1 [30, 40, 50] [300, 400, 500] 3)] 3) 4 (Chain.mk [(1, none), (0, (some 1))] 2)) from rfl]
  rw [goOps_cons, show Bptree.applyOp (Bptree.mk (BtreeNode.inner [30] [BtreeNode.leaf (LeafNode.mk 0 [10, 20] [100, 200] 3), BtreeNode.leaf (LeafNode.mk 1 [30, 40, 50] [300, 400, 500] 3)] 3) 4 (Chain.mk [(1, none), (0, (some 1))] 2)) (Op.setOp 60 600) =
      some (Bptree.mk (BtreeNode.inner [30, 50] [BtreeNode.leaf (LeafNode.mk 0 [10, 20] [100, 200] 3), BtreeNode.leaf (LeafNode.mk 1 [30, 40] [300, 400] 3), BtreeNode.leaf (LeafNode.mk 2 [50, 60] [500, 600] 3)] 3) 4 (Chain.mk [(2, none), (1, (some 2)), (1, none), (0, (some 1))] 3)) from rfl]
  rw [goOps_cons, show Bptree.applyOp (Bptree.mk (BtreeNode.inner [30, 50] [BtreeNode.leaf (LeafNode.mk 0 [10, 20] [100, 200] 3), BtreeNode.leaf (LeafNode.mk 1 [30, 40] [300, 400] 3), BtreeNode.leaf (LeafNode.mk 2 [50, 60] [500, 600] 3)] 3) 4 (Chain.mk [(2, none), (1, (some 2)), (1, none), (0, (some 1))] 3)) (Op.setOp 70 700) =
      some (Bptree.mk (BtreeNode.inner [30, 50] [BtreeNode.leaf (LeafNode.mk 0 [10, 20] [100, 200] 3), BtreeNode.leaf (LeafNode.mk 1 [30, 40] [300, 400] 3), BtreeNode.leaf (LeafNode.mk 2 [50, 60, 70] [500, 600, 700] 3)] 3) 4 (Chain.mk [(2, none), (1, (some 2)), (1, none), (0, (some 1))] 3)) from rfl]
  rw [goOps_cons, show Bptree.applyOp (Bptree.mk (BtreeNode.inner [30, 50] [BtreeNode.leaf (LeafNode.mk 0 [10, 20] [100, 200] 3), BtreeNode.leaf (LeafNode.mk 1 [30, 40] [300, 400] 3), BtreeNode.leaf (LeafNode.mk 2 [50, 60, 70] [500, 600, 700] 3)] 3) 4 (Chain.mk [(2, none), (1, (some 2)), (1, none), (0, (some 1))] 3)) (Op.setOp 80 800) =
      some (Bptree.mk (BtreeNode.inner [30, 50, 70] [BtreeNode.leaf (LeafNode.mk 0 [10, 20] [100, 200] 3), BtreeNode.leaf (LeafNode.mk 1 [30, 40] [300, 400] 3), BtreeNode.leaf (LeafNode.mk 2 [50, 60] [500, 600] 3), BtreeNode.leaf (LeafNode.mk 3 [70, 80] [700, 800] 3)] 3) 4 (Chain.mk [(3, none), (2, (some 3)), (2, none), (1, (some 2)), (1, none), (0, (some 1))] 4)) from rfl]
  rw [goOps_cons, show Bptree.applyOp (Bptree.mk (BtreeNode.inner [30, 50, 70] [BtreeNode.leaf (LeafNode.mk 0 [10, 20] [100, 200] 3), BtreeNode.leaf (LeafNode.mk 1 [30, 40] [300, 400] 3), BtreeNode.leaf (LeafNode.mk 2 [50, 60] [500, 600] 3), BtreeNode.leaf (LeafNode.mk 3 [70, 80] [700, 800] 3)] 3) 4 (Chain.mk [(3, none), (2, (some 3)), (2, none), (1, (some 2)), (1, none), (0, (some 1))] 4)) (Op.setOp 90 900) =
      some (Bptree.mk (BtreeNode.inner [30, 50, 70] [BtreeNode.leaf (LeafNode.mk 0 [10, 20] [100, 200] 3), BtreeNode.leaf (LeafNode.mk 1 [30, 40] [300, 400] 3), BtreeNode.leaf (LeafNode.mk 2 [50, 60] [500, 600] 3), BtreeNode.leaf (LeafNode.mk 3 [70, 80, 90] [700, 800, 900] 3)] 3) 4 (Chain.mk [(3, none), (2, (some 3)), (2, none), (1, (some 2)), (1, none), (0, (some 1))] 4)) from rfl]
  rw [goOps_cons, show Bptree.applyOp (Bptree.mk (BtreeNode.inner [30, 50, 70] [BtreeNode.leaf (LeafNode.mk 0 [10, 20] [100, 200] 3), BtreeNode.leaf (LeafNode.mk 1 [30, 40] [300, 400] 3), BtreeNode.leaf (LeafNode.mk 2 [50, 60] [500, 600] 3), BtreeNode.leaf (LeafNode.mk 3 [70, 80, 90] [700, 800, 900] 3)] 3) 4 (Chain.mk [(3, none), (2, (some 3)), (2, none), (1, (some 2)), (1, none), (0, (some 1))] 4)) (Op.setOp 100 1000) =
      some (Bptree.mk (BtreeNode.inner [70] [BtreeNode.inner [30, 50] [BtreeNode.leaf (LeafNode.mk 0 [10, 20] [100, 200] 3), BtreeNode.leaf (LeafNode.mk 1 [30, 40] [300, 400] 3), BtreeNode.leaf (LeafNode.mk 2 [50, 60] [500, 600] 3)] 3, BtreeNode.inner [70, 90] [BtreeNode.placehold, BtreeNode.leaf (LeafNode.mk 3 [70, 80] [700, 800] 3), BtreeNode.leaf (LeafNode.mk 4 [90, 100] [900, 1000] 3)] 3] 3) 4 (Chain.mk [(4, none), (3, (some 4)), (3, none), (2, (some 3)), (2, none), (1, (some 2)), (1, none), (0, (some 1))] 5)) from rfl]
  rw [goOps_cons, show Bptree.applyOp (Bptree.mk (BtreeNode.inner [70] [BtreeNode.inner [30, 50] [BtreeNode.leaf (LeafNode.mk 0 [10, 20] [100, 200] 3), BtreeNode.leaf (LeafNode.mk 1 [30, 40] [300, 400] 3), BtreeNode.leaf (LeafNode.mk 2 [50, 60] [500, 600] 3)] 3, BtreeNode.inner [70, 90] [BtreeNode.placehold, BtreeNode.leaf (LeafNode.mk 3 [70, 80] [700, 800] 3), BtreeNode.leaf (LeafNode.mk 4 [90, 100] [900, 1000] 3)] 3] 3) 4 (Chain.mk [(4, none), (3, (some 4)), (3, none), (2, (some 3)), (2, none), (1, (some 2)), (1, none), (0, (some 1))] 5)) (Op.setOp 110 1100) =
      some (Bptree.mk (BtreeNode.inner [70] [BtreeNode.inner [30, 50] [BtreeNode.leaf (LeafNode.mk 0 [10, 20] [100, 200] 3), BtreeNode.leaf (LeafNode.mk 1 [30, 40] [300, 400] 3), BtreeNode.leaf (LeafNode.mk 2 [50, 60] [500, 600] 3)] 3, BtreeNode.inner [70, 90] [BtreeNode.placehold, BtreeNode.leaf (LeafNode.mk 3 [70, 80] [700, 800] 3), BtreeNode.leaf (LeafNode.mk 4 [90, 100, 110] [900, 1000, 1100] 3)] 3] 3) 4 (Chain.mk [(4, none), (3, (some 4)), (3, none), (2, (some 3)), (2, none), (1, (some 2)), (1, none), (0, (some 1))] 5)) from rfl]
  rw [goOps_cons, show Bptree.applyOp (Bptree.mk (BtreeNode.inner [70] [BtreeNode.inner [30, 50] [BtreeNode.leaf (LeafNode.mk 0 [10, 20] [100, 200] 3), BtreeNode.leaf (LeafNode.mk 1 [30, 40] [300, 400] 3), BtreeNode.leaf (LeafNode.mk 2 [50, 60] [500, 600] 3)] 3, BtreeNode.inner [70, 90] [BtreeNode.placehold, BtreeNode.leaf (LeafNode.mk 3 [70, 80] [700, 800] 3), BtreeNode.leaf (LeafNode.mk 4 [90, 100, 110] [900, 1000, 1100] 3)] 3] 3) 4 (Chain.mk [(4, none), (3, (some 4)), (3, none), (2, (some 3)), (2, none), (1, (some 2)), (1, none), (0, (some 1))] 5)) (Op.setOp 120 1200) =
      some (Bptree.mk (BtreeNode.inner [70] [BtreeNode.inner [30, 50] [BtreeNode.leaf (LeafNode.mk 0 [10, 20] [100, 200] 3), BtreeNode.leaf (LeafNode.mk 1 [30, 40] [300, 400] 3), BtreeNode.leaf (LeafNode.mk 2 [50, 60] [500, 600] 3)] 3, BtreeNode.inner [70, 90, 110] [BtreeNode.placehold, BtreeNode.leaf (LeafNode.mk 3 [70, 80] [700, 800] 3), BtreeNode.leaf (LeafNode.mk 4 [90, 100] [900, 1000] 3), BtreeNode.leaf (LeafNode.mk 5 [110, 120] [1100, 1200] 3)] 3] 3) 4 (Chain.mk [(5, none), (4, (some 5)), (4, none), (3, (some 4)), (3, none), (2, (some 3)), (2, none), (1, (some 2)), (1, none), (0, (some 1))] 6)) from rfl]
  rw [goOps_cons, show Bptree.applyOp (Bptree.mk (BtreeNode.inner [70] [BtreeNode.inner [30, 50] [BtreeNode.leaf (LeafNode.mk 0 [10, 20] [100, 200] 3), BtreeNode.leaf (LeafNode.mk 1 [30, 40] [300, 400] 3), BtreeNode.leaf (LeafNode.mk 2 [50, 60] [500, 600] 3)] 3, BtreeNode.inner [70, 90, 110] [BtreeNode.placehold, BtreeNode.leaf (LeafNode.mk 3 [70, 80] [700, 800] 3), BtreeNode.leaf (LeafNode.mk 4 [90, 100] [900, 1000] 3), BtreeNode.leaf (LeafNode.mk 5 [110, 120] [1100, 1200] 3)] 3] 3) 4 (Chain.mk [(5, none), (4, (some 5)), (4, none), (3, (some 4)), (3, none), (2, (some 3)), (2, none), (1, (some 2)), (1, none), (0, (some 1))] 6)) (Op.setOp 130 1300) =
      some (Bptree.mk (BtreeNode.inner [70] [BtreeNode.inner [30, 50] [BtreeNode.leaf (LeafNode.mk 0 [10, 20] [100, 200] 3), BtreeNode.leaf (LeafNode.mk 1 [30, 40] [300, 400] 3), BtreeNode.leaf (LeafNode.mk 2 [50, 60] [500, 600] 3)] 3, BtreeNode.inner [70, 90, 110] [BtreeNode.placehold, BtreeNode.leaf (LeafNode.mk 3 [70, 80] [700, 800] 3), BtreeNode.leaf (LeafNode.mk 4 [90, 100] [900, 1000] 3), BtreeNode.leaf (LeafNode.mk 5 [110, 120, 130] [1100, 1200, 1300] 3)] 3] 3) 4 (Chain.mk [(5, none), (4, (some 5)), (4, none), (3, (some 4)), (3, none), (2, (some 3)), (2, none), (1, (some 2)), (1, none), (0, (some 1))] 6)) from rfl]
  rw [goOps_cons, show Bptree.applyOp (Bptree.mk (BtreeNode.inner [70] [BtreeNode.inner [30, 50] [BtreeNode.leaf (LeafNode.mk 0 [10, 20] [100, 200] 3), BtreeNode.leaf (LeafNode.mk 1 [30, 40] [300, 400] 3), BtreeNode.leaf (LeafNode.mk 2 [50, 60] [500, 600] 3)] 3, BtreeNode.inner [70, 90, 110] [BtreeNode.placehold, BtreeNode.leaf (LeafNode.mk 3 [70, 80] [700, 800] 3), BtreeNode.leaf (LeafNode.mk 4 [90, 100] [900, 1000] 3), BtreeNode.leaf (LeafNode.mk 5 [110, 120, 130] [1100, 1200, 1300] 3)] 3] 3) 4 (Chain.mk [(5, none), (4, (some 5)), (4, none), (3, (some 4)), (3, none), (2, (some 3)), (2, none), (1, (some 2)), (1, none), (0, (some 1))] 6)) (Op.setOp 140 1400) =
      some (Bptree.mk (BtreeNode.inner [70, 110] [BtreeNode.inner [30, 50] [BtreeNode.leaf (LeafNode.mk 0 [10, 20] [100, 200] 3), BtreeNode.leaf (LeafNode.mk 1 [30, 40] [300, 400] 3), BtreeNode.leaf (LeafNode.mk 2 [50, 60] [500, 600] 3)] 3, BtreeNode.inner [70, 90] [BtreeNode.placehold, BtreeNode.leaf (LeafNode.mk 3 [70, 80] [700, 800] 3), BtreeNode.leaf (LeafNode.mk 4 [90, 100] [900, 1000] 3)] 3, BtreeNode.inner [110, 130] [BtreeNode.placehold, BtreeNode.leaf (LeafNode.mk 5 [110, 120] [1100, 1200] 3), BtreeNode.leaf (LeafNode.mk 6 [130, 140] [1300, 1400] 3)] 3] 3) 4 (Chain.mk [(6, none), (5, (some 6)), (5, none), (4, (some 5)), (4, none), (3, (some 4)), (3, none), (2, (some 3)), (2, none), (1, (some 2)), (1, none), (0, (some 1))] 7)) from rfl]
  rw [goOps_cons, show Bptree.applyOp (Bptree.mk (BtreeNode.inner [70, 110] [BtreeNode.inner [30, 50] [BtreeNode.leaf (LeafNode.mk 0 [10, 20] [100, 200] 3), BtreeNode.leaf (LeafNode.mk 1 [30, 40] [300, 400] 3), BtreeNode.leaf (LeafNode.mk 2 [50, 60] [500, 600] 3)] 3, BtreeNode.inner [70, 90] [BtreeNode.placehold, BtreeNode.leaf (LeafNode.mk 3 [70, 80] [700, 800] 3), BtreeNode.leaf (LeafNode.mk 4 [90, 100] [900, 1000] 3)] 3, BtreeNode.inner [110, 130] [BtreeNode.placehold, BtreeNode.leaf (LeafNode.mk 5 [110, 120] [1100, 1200] 3), BtreeNode.leaf (LeafNode.mk 6 [130, 140] [1300, 1400] 3)] 3] 3) 4 (Chain.mk [(6, none), (5, (some 6)), (5, none), (4, (some 5)), (4, none), (3, (some 4)), (3, none), (2, (some 3)), (2, none), (1, (some 2)), (1, none), (0, (some 1))] 7)) (Op.setOp 150 1500) =
      some (Bptree.mk (BtreeNode.inner [70, 110] [BtreeNode.inner [30, 50] [BtreeNode.leaf (LeafNode.mk 0 [10, 20] [100, 200] 3), BtreeNode.leaf (LeafNode.mk 1 [30, 40] [300, 400] 3), BtreeNode.leaf (LeafNode.mk 2 [50, 60] [500, 600] 3)] 3, BtreeNode.inner [70, 90] [BtreeNode.placehold, BtreeNode.leaf (LeafNode.mk 3 [70, 80] [700, 800] 3), BtreeNode.leaf (LeafNode.mk 4 [90, 100] [900, 1000] 3)] 3, BtreeNode.inner [110, 130] [BtreeNode.placehold, BtreeNode.leaf (LeafNode.mk 5 [110, 120] [1100, 1200] 3), BtreeNode.leaf (LeafNode.mk 6 [130, 140, 150] [1300, 1400, 1500] 3)] 3] 3) 4 (Chain.mk [(6, none), (5, (some 6)), (5, none), (4, (some 5)), (4, none), (3, (some 4)), (3, none), (2, (some 3)), (2, none), (1, (some 2)), (1, none), (0, (some 1))] 7)) from rfl]
  rw [goOps_cons, show Bptree.applyOp (Bptree.mk (BtreeNode.inner [70, 110] [BtreeNode.inner [30, 50] [BtreeNode.leaf (LeafNode.mk 0 [10, 20] [100, 200] 3), BtreeNode.leaf (LeafNode.mk 1 [30, 40] [300, 400] 3), BtreeNode.leaf (LeafNode.mk 2 [50, 60] [500, 600] 3)] 3, BtreeNode.inner [70, 90] [BtreeNode.placehold, BtreeNode.leaf (LeafNode.mk 3 [70, 80] [700, 800] 3), BtreeNode.leaf (LeafNode.mk 4 [90, 100] [900, 1000] 3)] 3, BtreeNode.inner [110, 130] [BtreeNode.placehold, BtreeNode.leaf (LeafNode.mk 5 [110, 120] [1100, 1200] 3), BtreeNode.leaf (LeafNode.mk 6 [130, 140, 150] [1300, 1400, 1500] 3)] 3] 3) 4 (Chain.mk [(6, none), (5, (some 6)), (5, none), (4, (some 5)), (4, none), (3, (some 4)), (3, none), (2, (some 3)), (2, none), (1, (some 2)), (1, none), (0, (some 1))] 7)) (Op.setOp 160 1600) =
      some (Bptree.mk (BtreeNode.inner [70, 110] [BtreeNode.inner [30, 50] [BtreeNode.leaf (LeafNode.mk 0 [10, 20] [100, 200] 3), BtreeNode.leaf (LeafNode.mk 1 [30, 40] [300, 400] 3), BtreeNode.leaf (LeafNode.mk 2 [50, 60] [500, 600] 3)] 3, BtreeNode.inner [70, 90] [BtreeNode.placehold, BtreeNode.leaf (LeafNode.mk 3 [70, 80] [700, 800] 3), BtreeNode.leaf (LeafNode.mk 4 [90, 100] [900, 1000] 3)] 3, BtreeNode.inner [110, 130, 150] [BtreeNode.placehold, BtreeNode.leaf (LeafNode.mk 5 [110, 120] [1100, 1200] 3), BtreeNode.leaf (LeafNode.mk 6 [130, 140] [1300, 1400] 3), BtreeNode.leaf (LeafNode.mk 7 [150, 160] [1500, 1600] 3)] 3] 3) 4 (Chain.mk [(7, none), (6, (some 7)), (6, none), (5, (some 6)), (5, none), (4, (some 5)), (4, none), (3, (some 4)), (3, none), (2, (some 3)), (2, none), (1, (some 2)), (1, none), (0, (some 1))] 8)) from rfl]
  rw [goOps_cons, show Bptree.applyOp (Bptree.mk (BtreeNode.inner [70, 110] [BtreeNode.inner [30, 50] [BtreeNode.leaf (LeafNode.mk 0 [10, 20] [100, 200] 3), BtreeNode.leaf (LeafNode.mk 1 [30, 40] [300, 400] 3), BtreeNode.leaf (LeafNode.mk 2 [50, 60] [500, 600] 3)] 3, BtreeNode.inner [70, 90] [BtreeNode.placehold, BtreeNode.leaf (LeafNode.mk 3 [70, 80] [700, 800] 3), BtreeNode.leaf (LeafNode.mk 4 [90, 100] [900, 1000] 3)] 3, BtreeNode.inner [110, 130, 150] [BtreeNode.placehold, BtreeNode.leaf (LeafNode.mk 5 [110, 120] [1100, 1200] 3), BtreeNode.leaf (LeafNode.mk 6 [130, 140] [1300, 1400] 3), BtreeNode.leaf (LeafNode.mk 7 [150, 160] [1500, 1600] 3)] 3] 3) 4 (Chain.mk [(7, none), (6, (some 7)), (6, none), (5, (some 6)), (5, none), (4, (some 5)), (4, none), (3, (some 4)), (3, none), (2, (some 3)), (2, none), (1, (some 2)), (1, none), (0, (some 1))] 8)) (Op.setOp 170 1700) =
      some (Bptree.mk (BtreeNode.inner [70, 110] [BtreeNode.inner [30, 50] [BtreeNode.leaf (LeafNode.mk 0 [10, 20] [100, 200] 3), BtreeNode.leaf (LeafNode.mk 1 [30, 40] [300, 400] 3), BtreeNode.leaf (LeafNode.mk 2 [50, 60] [500, 600] 3)] 3, BtreeNode.inner [70, 90] [BtreeNode.placehold, BtreeNode.leaf (LeafNode.mk 3 [70, 80] [700, 800] 3), BtreeNode.leaf (LeafNode.mk 4 [90, 100] [900, 1000] 3)] 3, BtreeNode.inner [110, 130, 150] [BtreeNode.placehold, BtreeNode.leaf (LeafNode.mk 5 [110, 120] [1100, 1200] 3), BtreeNode.leaf (LeafNode.mk 6 [130, 140] [1300, 1400] 3), BtreeNode.leaf (LeafNode.mk 7 [150, 160, 170] [1500, 1600, 1700] 3)] 3] 3) 4 (Chain.mk [(7, none), (6, (some 7)), (6, none), (5, (some 6)), (5, none), (4, (some 5)), (4, none), (3, (some 4)), (3, none), (2, (some 3)), (2, none), (1, (some 2)), (1, none), (0, (some 1))] 8)) from rfl]
  rw [goOps_cons, show Bptree.applyOp (Bptree.mk (BtreeNode.inner [70, 110] [BtreeNode.inner [30, 50] [BtreeNode.leaf (LeafNode.mk 0 [10, 20] [100, 200] 3), BtreeNode.leaf (LeafNode.mk 1 [30, 40] [300, 400] 3), BtreeNode.leaf (LeafNode.mk 2 [50, 60] [500, 600] 3)] 3, BtreeNode.inner [70, 90] [BtreeNode.placehold, BtreeNode.leaf (LeafNode.mk 3 [70, 80] [700, 800] 3), BtreeNode.leaf (LeafNode.mk 4 [90, 100] [900, 1000] 3)] 3, BtreeNode.inner [110, 130, 150] [BtreeNode.placehold, BtreeNode.leaf (LeafNode.mk 5 [110, 120] [1100, 1200] 3), BtreeNode.leaf (LeafNode.mk 6 [130, 140] [1300, 1400] 3), BtreeNode.leaf (LeafNode.mk 7 [150, 160, 170] [1500, 1600, 1700] 3)] 3] 3) 4 (Chain.mk [(7, none), (6, (some 7)), (6, none), (5, (some 6)), (5, none), (4, (some 5)), (4, none), (3, (some 4)), (3, none), (2, (some 3)), (2, none), (1, (some 2)), (1, none), (0, (some 1))] 8)) (Op.setOp 180 1800) =
      some (Bptree.mk (BtreeNode.inner [70, 110, 150] [BtreeNode.inner [30, 50] [BtreeNode.leaf (LeafNode.mk 0 [10, 20] [100, 200] 3), BtreeNode.leaf (LeafNode.mk 1 [30, 40] [300, 400] 3), BtreeNode.leaf (LeafNode.mk 2 [50, 60] [500, 600] 3)] 3, BtreeNode.inner [70, 90] [BtreeNode.placehold, BtreeNode.leaf (LeafNode.mk 3 [70, 80] [700, 800] 3), BtreeNode.leaf (LeafNode.mk 4 [90, 100] [900, 1000] 3)] 3, BtreeNode.inner [110, 130] [BtreeNode.placehold, BtreeNode.leaf (LeafNode.mk 5 [110, 120] [1100, 1200] 3), BtreeNode.leaf (LeafNode.mk 6 [130, 140] [1300, 1400] 3)] 3, BtreeNode.inner [150, 170] [BtreeNode.placehold, BtreeNode.leaf (LeafNode.mk 7 [150, 160] [1500, 1600] 3), BtreeNode.leaf (LeafNode.mk 8 [170, 180] [1700, 1800] 3)] 3] 3) 4 (Chain.mk [(8, none), (7, (some 8)), (7, none), (6, (some 7)), (6, none), (5, (some 6)), (5, none), (4, (some 5)), (4, none), (3, (some 4)), (3, none), (2, (some 3)), (2, none), (1, (some 2)), (1, none), (0, (some 1))] 9)) from rfl]
  rw [goOps_cons, show Bptree.applyOp (Bptree.mk (BtreeNode.inner [70, 110, 150] [BtreeNode.inner [30, 50] [BtreeNode.leaf (LeafNode.mk 0 [10, 20] [100, 200] 3), BtreeNode.leaf (LeafNode.mk 1 [30, 40] [300, 400] 3), BtreeNode.leaf (LeafNode.mk 2 [50, 60] [500, 600] 3)] 3, BtreeNode.inner [70, 90] [BtreeNode.placehold, BtreeNode.leaf (LeafNode.mk 3 [70, 80] [700, 800] 3), BtreeNode.leaf (LeafNode.mk 4 [90, 100] [900, 1000] 3)] 3, BtreeNode.inner [110, 130] [BtreeNode.placehold, BtreeNode.leaf (LeafNode.mk 5 [110, 120] [1100, 1200] 3), BtreeNode.leaf (LeafNode.mk 6 [130, 140] [1300, 1400] 3)] 3, BtreeNode.inner [150, 170] [BtreeNode.placehold, BtreeNode.leaf (LeafNode.mk 7 [150, 160] [1500, 1600] 3), BtreeNode.leaf (LeafNode.mk 8 [170, 180] [1700, 1800] 3)] 3] 3) 4 (Chain.mk [(8, none), (7, (some 8)), (7, none), (6, (some 7)), (6, none), (5, (some 6)), (5, none), (4, (some 5)), (4, none), (3, (some 4)), (3, none), (2, (some 3)), (2, none), (1, (some 2)), (1, none), (0, (some 1))] 9)) (Op.setOp 190 1900) =
      some (Bptree.mk (BtreeNode.inner [70, 110, 150] [BtreeNode.inner [30, 50] [BtreeNode.leaf (LeafNode.mk 0 [10, 20] [100, 200] 3), BtreeNode.leaf (LeafNode.mk 1 [30, 40] [300, 400] 3), BtreeNode.leaf (LeafNode.mk 2 [50, 60] [500, 600] 3)] 3, BtreeNode.inner [70, 90] [BtreeNode.placehold, BtreeNode.leaf (LeafNode.mk 3 [70, 80] [700, 800] 3), BtreeNode.leaf (LeafNode.mk 4 [90, 100] [900, 1000] 3)] 3, BtreeNode.inner [110, 130] [BtreeNode.placehold, BtreeNode.leaf (LeafNode.mk 5 [110, 120] [1100, 1200] 3), BtreeNode.leaf (LeafNode.mk 6 [130, 140] [1300, 1400] 3)] 3, BtreeNode.inner [150, 170] [BtreeNode.placehold, BtreeNode.leaf (LeafNode.mk 7 [150, 160] [1500, 1600] 3), BtreeNode.leaf (LeafNode.mk 8 [170, 180, 190] [1700, 1800, 1900] 3)] 3] 3) 4 (Chain.mk [(8, none), (7, (some 8)), (7, none), (6, (some 7)), (6, none), (5, (some 6)), (5, none), (4, (some 5)), (4, none), (3, (some 4)), (3, none), (2, (some 3)), (2, none), (1, (some 2)), (1, none), (0, (some 1))] 9)) from rfl]
  rw [goOps_cons, show Bptree.applyOp (Bptree.mk (BtreeNode.inner [70, 110, 150] [BtreeNode.inner [30, 50] [BtreeNode.leaf (LeafNode.mk 0 [10, 20] [100, 200] 3), BtreeNode.leaf (LeafNode.mk 1 [30, 40] [300, 400] 3), BtreeNode.leaf (LeafNode.mk 2 [50, 60] [500, 600] 3)] 3, BtreeNode.inner [70, 90] [BtreeNode.placehold, BtreeNode.leaf (LeafNode.mk 3 [70, 80] [700, 800] 3), BtreeNode.leaf (LeafNode.mk 4 [90, 100] [900, 1000] 3)] 3, BtreeNode.inner [110, 130] [BtreeNode.placehold, BtreeNode.leaf (LeafNode.mk 5 [110, 120] [1100, 1200] 3), BtreeNode.leaf (LeafNode.mk 6 [130, 140] [1300, 1400] 3)] 3, BtreeNode.inner [150, 170] [BtreeNode.placehold, BtreeNode.leaf (LeafNode.mk 7 [150, 160] [1500, 1600] 3), BtreeNode.leaf (LeafNode.mk 8 [170, 180, 190] [1700, 1800, 1900] 3)] 3] 3) 4 (Chain.mk [(8, none), (7, (some 8)), (7, none), (6, (some 7)), (6, none), (5, (some 6)), (5, none), (4, (some 5)), (4, none), (3, (some 4)), (3, none), (2, (some 3)), (2, none), (1, (some 2)), (1, none), (0, (some 1))] 9)) (Op.setOp 200 2000) =
      some (Bptree.mk (BtreeNode.inner [70, 110, 150] [BtreeNode.inner [30, 50] [BtreeNode.leaf (LeafNode.mk 0 [10, 20] [100, 200] 3), BtreeNode.leaf (LeafNode.mk 1 [30, 40] [300, 400] 3), BtreeNode.leaf (LeafNode.mk 2 [50, 60] [500, 600] 3)] 3, BtreeNode.inner [70, 90] [BtreeNode.placehold, BtreeNode.leaf (LeafNode.mk 3 [70, 80] [700, 800] 3), BtreeNode.leaf (LeafNode.mk 4 [90, 100] [900, 1000] 3)] 3, BtreeNode.inner [110, 130] [BtreeNode.placehold, BtreeNode.leaf (LeafNode.mk 5 [110, 120] [1100, 1200] 3), BtreeNode.leaf (LeafNode.mk 6 [130, 140] [1300, 1400] 3)] 3, BtreeNode.inner [150, 170, 190] [BtreeNode.placehold, BtreeNode.leaf (LeafNode.mk 7 [150, 160] [1500, 1600] 3), BtreeNode.leaf (LeafNode.mk 8 [170, 180] [1700, 1800] 3), BtreeNode.leaf (LeafNode.mk 9 [190, 200] [1900, 2000] 3)] 3] 3) 4 (Chain.mk [(9, none), (8, (some 9)), (8, none), (7, (some 8)), (7, none), (6, (some 7)), (6, none), (5, (some 6)), (5, none), (4, (some 5)), (4, none), (3, (some 4)), (3, none), (2, (some 3)), (2, none), (1, (some 2)), (1, none), (0, (some 1))] 10)) from rfl]
  rw [goOps_cons, show Bptree.applyOp (Bptree.mk (BtreeNode.inner [70, 110, 150] [BtreeNode.inner [30, 50] [BtreeNode.leaf (LeafNode.mk 0 [10, 20] [100, 200] 3), BtreeNode.leaf (LeafNode.mk 1 [30, 40] [300, 400] 3), BtreeNode.leaf (LeafNode.mk 2 [50, 60] [500, 600] 3)] 3, BtreeNode.inner [70, 90] [BtreeNode.placehold, BtreeNode.leaf (LeafNode.mk 3 [70, 80] [700, 800] 3), BtreeNode.leaf (LeafNode.mk 4 [90, 100] [900, 1000] 3)] 3, BtreeNode.inner [110, 130] [BtreeNode.placehold, BtreeNode.leaf (LeafNode.mk 5 [110, 120] [1100, 1200] 3), BtreeNode.leaf (LeafNode.mk 6 [130, 140] [1300, 1400] 3)] 3, BtreeNode.inner [150, 170, 190] [BtreeNode.placehold, BtreeNode.leaf (LeafNode.mk 7 [150, 160] [1500, 1600] 3), BtreeNode.leaf (LeafNode.mk 8 [170, 180] [1700, 1800] 3), BtreeNode.leaf (LeafNode.mk 9 [190, 200] [1900, 2000] 3)] 3] 3) 4 (Chain.mk [(9, none), (8, (some 9)), (8, none), (7, (some 8)), (7, none), (6, (some 7)), (6, none), (5, (some 6)), (5, none), (4, (some 5)), (4, none), (3, (some 4)), (3, none), (2, (some 3)), (2, none), (1, (some 2)), (1, none), (0, (some 1))] 10)) (Op.setOp 210 2100) =
      some (Bptree.mk (BtreeNode.inner [70, 110, 150] [BtreeNode.inner [30, 50] [BtreeNode.leaf (LeafNode.mk 0 [10, 20] [100, 200] 3), BtreeNode.leaf (LeafNode.mk 1 [30, 40] [300, 400] 3), BtreeNode.leaf (LeafNode.mk 2 [50, 60] [500, 600] 3)] 3, BtreeNode.inner [70, 90] [BtreeNode.placehold, BtreeNode.leaf (LeafNode.mk 3 [70, 80] [700, 800] 3), BtreeNode.leaf (LeafNode.mk 4 [90, 100] [900, 1000] 3)] 3, BtreeNode.inner [110, 130] [BtreeNode.placehold, BtreeNode.leaf (LeafNode.mk 5 [110, 120] [1100, 1200] 3), BtreeNode.leaf (LeafNode.mk 6 [130, 140] [1300, 1400] 3)] 3, BtreeNode.inner [150, 170, 190] [BtreeNode.placehold, BtreeNode.leaf (LeafNode.mk 7 [150, 160] [1500, 1600] 3), BtreeNode.leaf (LeafNode.mk 8 [170, 180] [1700, 1800] 3), BtreeNode.leaf (LeafNode.mk 9 [190, 200, 210] [1900, 2000, 2100] 3)] 3] 3) 4 (Chain.mk [(9, none), (8, (some 9)), (8, none), (7, (some 8)), (7, none), (6, (some 7)), (6, none), (5, (some 6)), (5, none), (4, (some 5)), (4, none), (3, (some 4)), (3, none), (2, (some 3)), (2, none), (1, (some 2)), (1, none), (0, (some 1))] 10)) from rfl]
  rw [goOps_cons, show Bptree.applyOp (Bptree.mk (BtreeNode.inner [70, 110, 150] [BtreeNode.inner [30, 50] [BtreeNode.leaf (LeafNode.mk 0 [10, 20] [100, 200] 3), BtreeNode.leaf (LeafNode.mk 1 [30, 40] [300, 400] 3), BtreeNode.leaf (LeafNode.mk 2 [50, 60] [500, 600] 3)] 3, BtreeNode.inner [70, 90] [BtreeNode.placehold, BtreeNode.leaf (LeafNode.mk 3 [70, 80] [700, 800] 3), BtreeNode.leaf (LeafNode.mk 4 [90, 100] [900, 1000] 3)] 3, BtreeNode.inner [110, 130] [BtreeNode.placehold, BtreeNode.leaf (LeafNode.mk 5 [110, 120] [1100, 1200] 3), BtreeNode.leaf (LeafNode.mk 6 [130, 140] [1300, 1400] 3)] 3, BtreeNode.inner [150, 170, 190] [BtreeNode.placehold, BtreeNode.leaf (LeafNode.mk 7 [150, 160] [1500, 1600] 3), BtreeNode.leaf (LeafNode.mk 8 [170, 180] [1700, 1800] 3), BtreeNode.leaf (LeafNode.mk 9 [190, 200, 210] [1900, 2000, 2100] 3)] 3] 3) 4 (Chain.mk [(9, none), (8, (some 9)), (8, none), (7, (some 8)), (7, none), (6, (some 7)), (6, none), (5, (some 6)), (5, none), (4, (some 5)), (4, none), (3, (some 4)), (3, none), (2, (some 3)), (2, none), (1, (some 2)), (1, none), (0, (some 1))] 10)) (Op.setOp 220 2200) =
      some (Bptree.mk (BtreeNode.inner [150] [BtreeNode.inner [70, 110] [BtreeNode.inner [30, 50] [BtreeNode.leaf (LeafNode.mk 0 [10, 20] [100, 200] 3), BtreeNode.leaf (LeafNode.mk 1 [30, 40] [300, 400] 3), BtreeNode.leaf (LeafNode.mk 2 [50, 60] [500, 600] 3)] 3, BtreeNode.inner [70, 90] [BtreeNode.placehold, BtreeNode.leaf (LeafNode.mk 3 [70, 80] [700, 800] 3), BtreeNode.leaf (LeafNode.mk 4 [90, 100] [900, 1000] 3)] 3, BtreeNode.inner [110, 130] [BtreeNode.placehold, BtreeNode.leaf (LeafNode.mk 5 [110, 120] [1100, 1200] 3), BtreeNode.leaf (LeafNode.mk 6 [130, 140] [1300, 1400] 3)] 3] 3, BtreeNode.inner [150, 190] [BtreeNode.placehold, BtreeNode.inner [150, 170] [BtreeNode.placehold, BtreeNode.leaf (LeafNode.mk 7 [150, 160] [1500, 1600] 3), BtreeNode.leaf (LeafNode.mk 8 [170, 180] [1700, 1800] 3)] 3, BtreeNode.inner [190, 210] [BtreeNode.placehold, BtreeNode.leaf (LeafNode.mk 9 [190, 200] [1900, 2000] 3), BtreeNode.leaf (LeafNode.mk 10 [210, 220] [2100, 2200] 3)] 3] 3] 3) 4 (Chain.mk [(10, none), (9, (some 10)), (9, none), (8, (some 9)), (8, none), (7, (some 8)), (7, none), (6, (some 7)), (6, none), (5, (some 6)), (5, none), (4, (some 5)), (4, none), (3, (some 4)), (3, none), (2, (some 3)), (2, none), (1, (some 2)), (1, none), (0, (some 1))] 11)) from rfl]
  rw [goOps_cons, show Bptree.applyOp (Bptree.mk (BtreeNode.inner [150] [BtreeNode.inner [70, 110] [BtreeNode.inner [30, 50] [BtreeNode.leaf (LeafNode.mk 0 [10, 20] [100, 200] 3), BtreeNode.leaf (LeafNode.mk 1 [30, 40] [300, 400] 3), BtreeNode.leaf (LeafNode.mk 2 [50, 60] [500, 600] 3)] 3, BtreeNode.inner [70, 90] [BtreeNode.placehold, BtreeNode.leaf (LeafNode.mk 3 [70, 80] [700, 800] 3), BtreeNode.leaf (LeafNode.mk 4 [90, 100] [900, 1000] 3)] 3, BtreeNode.inner [110, 130] [BtreeNode.placehold, BtreeNode.leaf (LeafNode.mk 5 [110, 120] [1100, 1200] 3), BtreeNode.leaf (LeafNode.mk 6 [130, 140] [1300, 1400] 3)] 3] 3, BtreeNode.inner [150, 190] [BtreeNode.placehold, BtreeNode.inner [150, 170] [BtreeNode.placehold, BtreeNode.leaf (LeafNode.mk 7 [150, 160] [1500, 1600] 3), BtreeNode.leaf (LeafNode.mk 8 [170, 180] [1700, 1800] 3)] 3, BtreeNode.inner [190, 210] [BtreeNode.placehold, BtreeNode.leaf (LeafNode.mk 9 [190, 200] [1900, 2000] 3), BtreeNode.leaf (LeafNode.mk 10 [210, 220] [2100, 2200] 3)] 3] 3] 3) 4 (Chain.mk [(10, none), (9, (some 10)), (9, none), (8, (some 9)), (8, none), (7, (some 8)), (7, none), (6, (some 7)), (6, none), (5, (some 6)), (5, none), (4, (some 5)), (4, none), (3, (some 4)), (3, none), (2, (some 3)), (2, none), (1, (some 2)), (1, none), (0, (some 1))] 11)) (Op.setOp 11 110) =
      some (Bptree.mk (BtreeNode.inner [150] [BtreeNode.inner [70, 110] [BtreeNode.inner [30, 50] [BtreeNode.leaf (LeafNode.mk 0 [10, 11, 20] [100, 110, 200] 3), BtreeNode.leaf (LeafNode.mk 1 [30, 40] [300, 400] 3), BtreeNode.leaf (LeafNode.mk 2 [50, 60] [500, 600] 3)] 3, BtreeNode.inner [70, 90] [BtreeNode.placehold, BtreeNode.leaf (LeafNode.mk 3 [70, 80] [700, 800] 3), BtreeNode.leaf (LeafNode.mk 4 [90, 100] [900, 1000] 3)] 3, BtreeNode.inner [110, 130] [BtreeNode.placehold, BtreeNode.leaf (LeafNode.mk 5 [110, 120] [1100, 1200] 3), BtreeNode.leaf (LeafNode.mk 6 [130, 140] [1300, 1400] 3)] 3] 3, BtreeNode.inner [150, 190] [BtreeNode.placehold, BtreeNode.inner [150, 170] [BtreeNode.placehold, BtreeNode.leaf (LeafNode.mk 7 [150, 160] [1500, 1600] 3), BtreeNode.leaf (LeafNode.mk 8 [170, 180] [1700, 1800] 3)] 3, BtreeNode.inner [190, 210] [BtreeNode.placehold, BtreeNode.leaf (LeafNode.mk 9 [190, 200] [1900, 2000] 3), BtreeNode.leaf (LeafNode.mk 10 [210, 220] [2100, 2200] 3)] 3] 3] 3) 4 (Chain.mk [(10, none), (9, (some 10)), (9, none), (8, (some 9)), (8, none), (7, (some 8)), (7, none), (6, (some 7)), (6, none), (5, (some 6)), (5, none), (4, (some 5)), (4, none), (3, (some 4)), (3, none), (2, (some 3)), (2, none), (1, (some 2)), (1, none), (0, (some 1))] 11)) from rfl]
  rw [goOps_cons, show Bptree.applyOp (Bptree.mk (BtreeNode.inner [150] [BtreeNode.inner [70, 110] [BtreeNode.inner [30, 50] [BtreeNode.leaf (LeafNode.mk 0 [10, 11, 20] [100, 110, 200] 3), BtreeNode.leaf (LeafNode.mk 1 [30, 40] [300, 400] 3), BtreeNode.leaf (LeafNode.mk 2 [50, 60] [500, 600] 3)] 3, BtreeNode.inner [70, 90] [BtreeNode.placehold, BtreeNode.leaf (LeafNode.mk 3 [70, 80] [700, 800] 3), BtreeNode.leaf (LeafNode.mk 4 [90, 100] [900, 1000] 3)] 3, BtreeNode.inner [110, 130] [BtreeNode.placehold, BtreeNode.leaf (LeafNode.mk 5 [110, 120] [1100, 1200] 3), BtreeNode.leaf (LeafNode.mk 6 [130, 140] [1300, 1400] 3)] 3] 3, BtreeNode.inner [150, 190] [BtreeNode.placehold, BtreeNode.inner [150, 170] [BtreeNode.placehold, BtreeNode.leaf (LeafNode.mk 7 [150, 160] [1500, 1600] 3), BtreeNode.leaf (LeafNode.mk 8 [170, 180] [1700, 1800] 3)] 3, BtreeNode.inner [190, 210] [BtreeNode.placehold, BtreeNode.leaf (LeafNode.mk 9 [190, 200] [1900, 2000] 3), BtreeNode.leaf (LeafNode.mk 10 [210, 220] [2100, 2200] 3)] 3] 3] 3) 4 (Chain.mk [(10, none), (9, (some 10)), (9, none), (8, (some 9)), (8, none), (7, (some 8)), (7, none), (6, (some 7)), (6, none), (5, (some 6)), (5, none), (4, (some 5)), (4, none), (3, (some 4)), (3, none), (2, (some 3)), (2, none), (1, (some 2)), (1, none), (0, (some 1))] 11)) (Op.setOp 12 120) =
      some (Bptree.mk (BtreeNode.inner [150] [BtreeNode.inner [70, 110] [BtreeNode.inner [12, 30, 50] [BtreeNode.leaf (LeafNode.mk 0 [10, 11] [100, 110] 3), BtreeNode.leaf (LeafNode.mk 11 [12, 20] [120, 200] 3), BtreeNode.leaf (LeafNode.mk 1 [30, 40] [300, 400] 3), BtreeNode.leaf (LeafNode.mk 2 [50, 60] [500, 600] 3)] 3, BtreeNode.inner [70, 90] [BtreeNode.placehold, BtreeNode.leaf (LeafNode.mk 3 [70, 80] [700, 800] 3), BtreeNode.leaf (LeafNode.mk 4 [90, 100] [900, 1000] 3)] 3, BtreeNode.inner [110, 130] [BtreeNode.placehold, BtreeNode.leaf (LeafNode.mk 5 [110, 120] [1100, 1200] 3), BtreeNode.leaf (LeafNode.mk 6 [130, 140] [1300, 1400] 3)] 3] 3, BtreeNode.inner [150, 190] [BtreeNode.placehold, BtreeNode.inner [150, 170] [BtreeNode.placehold, BtreeNode.leaf (LeafNode.mk 7 [150, 160] [1500, 1600] 3), BtreeNode.leaf (LeafNode.mk 8 [170, 180] [1700, 1800] 3)] 3, BtreeNode.inner [190, 210] [BtreeNode.placehold, BtreeNode.leaf (LeafNode.mk 9 [190, 200] [1900, 2000] 3), BtreeNode.leaf (LeafNode.mk 10 [210, 220] [2100, 2200] 3)] 3] 3] 3) 4 (Chain.mk [(11, (some 1)), (0, (some 11)), (10, none), (9, (some 10)), (9, none), (8, (some 9)), (8, none), (7, (some 8)), (7, none), (6, (some 7)), (6, none), (5, (some 6)), (5, none), (4, (some 5)), (4, none), (3, (some 4)), (3, none), (2, (some 3)), (2, none), (1, (some 2)), (1, none), (0, (some 1))] 12)) from rfl]
  rw [goOps_cons, show Bptree.applyOp (Bptree.mk (BtreeNode.inner [150] [BtreeNode.inner [70, 110] [BtreeNode.inner [12, 30, 50] [BtreeNode.leaf (LeafNode.mk 0 [10, 11] [100, 110] 3), BtreeNode.leaf (LeafNode.mk 11 [12, 20] [120, 200] 3), BtreeNode.leaf (LeafNode.mk 1 [30, 40] [300, 400] 3), BtreeNode.leaf (LeafNode.mk 2 [50, 60] [500, 600] 3)] 3, BtreeNode.inner [70, 90] [BtreeNode.placehold, BtreeNode.leaf (LeafNode.mk 3 [70, 80] [700, 800] 3), BtreeNode.leaf (LeafNode.mk 4 [90, 100] [900, 1000] 3)] 3, BtreeNode.inner [110, 130] [BtreeNode.placehold, BtreeNode.leaf (LeafNode.mk 5 [110, 120] [1100, 1200] 3), BtreeNode.leaf (LeafNode.mk 6 [130, 140] [1300, 1400] 3)] 3] 3, BtreeNode.inner [150, 190] [BtreeNode.placehold, BtreeNode.inner [150, 170] [BtreeNode.placehold, BtreeNode.leaf (LeafNode.mk 7 [150, 160] [1500, 1600] 3), BtreeNode.leaf (LeafNode.mk 8 [170, 180] [1700, 1800] 3)] 3, BtreeNode.inner [190, 210] [BtreeNode.placehold, BtreeNode.leaf (LeafNode.mk 9 [190, 200] [1900, 2000] 3), BtreeNode.leaf (LeafNode.mk 10 [210, 220] [2100, 2200] 3)] 3] 3] 3) 4 (Chain.mk [(11, (some 1)), (0, (some 11)), (10, none), (9, (some 10)), (9, none), (8, (some 9)), (8, none), (7, (some 8)), (7, none), (6, (some 7)), (6, none), (5, (some 6)), (5, none), (4, (some 5)), (4, none), (3, (some 4)), (3, none), (2, (some 3)), (2, none), (1, (some 2)), (1, none), (0, (some 1))] 12)) (Op.setOp 13 130) =
      some (Bptree.mk (BtreeNode.inner [150] [BtreeNode.inner [70, 110] [BtreeNode.inner [12, 30, 50] [BtreeNode.leaf (LeafNode.mk 0 [10, 11] [100, 110] 3), BtreeNode.leaf (LeafNode.mk 11 [12, 13, 20] [120, 130, 200] 3), BtreeNode.leaf (LeafNode.mk 1 [30, 40] [300, 400] 3), BtreeNode.leaf (LeafNode.mk 2 [50, 60] [500, 600] 3)] 3, BtreeNode.inner [70, 90] [BtreeNode.placehold, BtreeNode.leaf (LeafNode.mk 3 [70, 80] [700, 800] 3), BtreeNode.leaf (LeafNode.mk 4 [90, 100] [900, 1000] 3)] 3, BtreeNode.inner [110, 130] [BtreeNode.placehold, BtreeNode.leaf (LeafNode.mk 5 [110, 120] [1100, 1200] 3), BtreeNode.leaf (LeafNode.mk 6 [130, 140] [1300, 1400] 3)] 3] 3, BtreeNode.inner [150, 190] [BtreeNode.placehold, BtreeNode.inner [150, 170] [BtreeNode.placehold, BtreeNode.leaf (LeafNode.mk 7 [150, 160] [1500, 1600] 3), BtreeNode.leaf (LeafNode.mk 8 [170, 180] [1700, 1800] 3)] 3, BtreeNode.inner [190, 210] [BtreeNode.placehold, BtreeNode.leaf (LeafNode.mk 9 [190, 200] [1900, 2000] 3), BtreeNode.leaf (LeafNode.mk 10 [210, 220] [2100, 2200] 3)] 3] 3] 3) 4 (Chain.mk [(11, (some 1)), (0, (some 11)), (10, none), (9, (some 10)), (9, none), (8, (some 9)), (8, none), (7, (some 8)), (7, none), (6, (some 7)), (6, none), (5, (some 6)), (5, none), (4, (some 5)), (4, none), (3, (some 4)), (3, none), (2, (some 3)), (2, none), (1, (some 2)), (1, none), (0, (some 1))] 12)) from rfl]
  rw [goOps_cons, show Bptree.applyOp (Bptree.mk (BtreeNode.inner [150] [BtreeNode.inner [70, 110] [BtreeNode.inner [12, 30, 50] [BtreeNode.leaf (LeafNode.mk 0 [10, 11] [100, 110] 3), BtreeNode.leaf (LeafNode.mk 11 [12, 13, 20] [120, 130, 200] 3), BtreeNode.leaf (LeafNode.mk 1 [30, 40] [300, 400] 3), BtreeNode.leaf (LeafNode.mk 2 [50, 60] [500, 600] 3)] 3, BtreeNode.inner [70, 90] [BtreeNode.placehold, BtreeNode.leaf (LeafNode.mk 3 [70, 80] [700, 800] 3), BtreeNode.leaf (LeafNode.mk 4 [90, 100] [900, 1000] 3)] 3, BtreeNode.inner [110, 130] [BtreeNode.placehold, BtreeNode.leaf (LeafNode.mk 5 [110, 120] [1100, 1200] 3), BtreeNode.leaf (LeafNode.mk 6 [130, 140] [1300, 1400] 3)] 3] 3, BtreeNode.inner [150, 190] [BtreeNode.placehold, BtreeNode.inner [150, 170] [BtreeNode.placehold, BtreeNode.leaf (LeafNode.mk 7 [150, 160] [1500, 1600] 3), BtreeNode.leaf (LeafNode.mk 8 [170, 180] [1700, 1800] 3)] 3, BtreeNode.inner [190, 210] [BtreeNode.placehold, BtreeNode.leaf (LeafNode.mk 9 [190, 200] [1900, 2000] 3), BtreeNode.leaf (LeafNode.mk 10 [210, 220] [2100, 2200] 3)] 3] 3] 3) 4 (Chain.mk [(11, (some 1)), (0, (some 11)), (10, none), (9, (some 10)), (9, none), (8, (some 9)), (8, none), (7, (some 8)), (7, none), (6, (some 7)), (6, none), (5, (some 6)), (5, none), (4, (some 5)), (4, none), (3, (some 4)), (3, none), (2, (some 3)), (2, none), (1, (some 2)), (1, none), (0, (some 1))] 12)) (Op.setOp 14 140) =
      some (Bptree.mk (BtreeNode.inner [150] [BtreeNode.inner [30, 70, 110] [BtreeNode.inner [12, 14] [BtreeNode.leaf (LeafNode.mk 0 [10, 11] [100, 110] 3), BtreeNode.leaf (LeafNode.mk 11 [12, 13] [120, 130] 3), BtreeNode.leaf (LeafNode.mk 12 [14, 20] [140, 200] 3)] 3, BtreeNode.inner [30, 50] [BtreeNode.placehold, BtreeNode.leaf (LeafNode.mk 1 [30, 40] [300, 400] 3), BtreeNode.leaf (LeafNode.mk 2 [50, 60] [500, 600] 3)] 3, BtreeNode.inner [70, 90] [BtreeNode.placehold, BtreeNode.leaf (LeafNode.mk 3 [70, 80] [700, 800] 3), BtreeNode.leaf (LeafNode.mk 4 [90, 100] [900, 1000] 3)] 3, BtreeNode.inner [110, 130] [BtreeNode.placehold, BtreeNode.leaf (LeafNode.mk 5 [110, 120] [1100, 1200] 3), BtreeNode.leaf (LeafNode.mk 6 [130, 140] [1300, 1400] 3)] 3] 3, BtreeNode.inner [150, 190] [BtreeNode.placehold, BtreeNode.inner [150, 170] [BtreeNode.placehold, BtreeNode.leaf (LeafNode.mk 7 [150, 160] [1500, 1600] 3), BtreeNode.leaf (LeafNode.mk 8 [170, 180] [1700, 1800] 3)] 3, BtreeNode.inner [190, 210] [BtreeNode.placehold, BtreeNode.leaf (LeafNode.mk 9 [190, 200] [1900, 2000] 3), BtreeNode.leaf (LeafNode.mk 10 [210, 220] [2100, 2200] 3)] 3] 3] 3) 4 (Chain.mk [(12, (some 1)), (11, (some 12)), (11, (some 1)), (0, (some 11)), (10, none), (9, (some 10)), (9, none), (8, (some 9)), (8, none), (7, (some 8)), (7, none), (6, (some 7)), (6, none), (5, (some 6)), (5, none), (4, (some 5)), (4, none), (3, (some 4)), (3, none), (2, (some 3)), (2, none), (1, (some 2)), (1, none), (0, (some 1))] 13)) from rfl]
  rw [goOps_cons, show Bptree.applyOp (Bptree.mk (BtreeNode.inner [150] [BtreeNode.inner [30, 70, 110] [BtreeNode.inner [12, 14] [BtreeNode.leaf (LeafNode.mk 0 [10, 11] [100, 110] 3), BtreeNode.leaf (LeafNode.mk 11 [12, 13] [120, 130] 3), BtreeNode.leaf (LeafNode.mk 12 [14, 20] [140, 200] 3)] 3, BtreeNode.inner [30, 50] [BtreeNode.placehold, BtreeNode.leaf (LeafNode.mk 1 [30, 40] [300, 400] 3), BtreeNode.leaf (LeafNode.mk 2 [50, 60] [500, 600] 3)] 3, BtreeNode.inner [70, 90] [BtreeNode.placehold, BtreeNode.leaf (LeafNode.mk 3 [70, 80] [700, 800] 3), BtreeNode.leaf (LeafNode.mk 4 [90, 100] [900, 1000] 3)] 3, BtreeNode.inner [110, 130] [BtreeNode.placehold, BtreeNode.leaf (LeafNode.mk 5 [110, 120] [1100, 1200] 3), BtreeNode.leaf (LeafNode.mk 6 [130, 140] [1300, 1400] 3)] 3] 3, BtreeNode.inner [150, 190] [BtreeNode.placehold, BtreeNode.inner [150, 170] [BtreeNode.placehold, BtreeNode.leaf (LeafNode.mk 7 [150, 160] [1500, 1600] 3), BtreeNode.leaf (LeafNode.mk 8 [170, 180] [1700, 1800] 3)] 3, BtreeNode.inner [190, 210] [BtreeNode.placehold, BtreeNode.leaf (LeafNode.mk 9 [190, 200] [1900, 2000] 3), BtreeNode.leaf (LeafNode.mk 10 [210, 220] [2100, 2200] 3)] 3] 3] 3) 4 (Chain.mk [(12, (some 1)), (11, (some 12)), (11, (some 1)), (0, (some 11)), (10, none), (9, (some 10)), (9, none), (8, (some 9)), (8, none), (7, (some 8)), (7, none), (6, (some 7)), (6, none), (5, (some 6)), (5, none), (4, (some 5)), (4, none), (3, (some 4)), (3, none), (2, (some 3)), (2, none), (1, (some 2)), (1, none), (0, (some 1))] 13)) (Op.rmOp 220) =
      some (Bptree.mk (BtreeNode.inner [110] [BtreeNode.inner [30, 70] [BtreeNode.inner [12, 14] [BtreeNode.leaf (LeafNode.mk 0 [10, 11] [100, 110] 3), BtreeNode.leaf (LeafNode.mk 11 [12, 13] [120, 130] 3), BtreeNode.leaf (LeafNode.mk 12 [14, 20] [140, 200] 3)] 3, BtreeNode.inner [30, 50] [BtreeNode.placehold, BtreeNode.leaf (LeafNode.mk 1 [30, 40] [300, 400] 3), BtreeNode.leaf (LeafNode.mk 2 [50, 60] [500, 600] 3)] 3, BtreeNode.inner [110, 130] [BtreeNode.placehold, BtreeNode.leaf (LeafNode.mk 5 [110, 120] [1100, 1200] 3), BtreeNode.leaf (LeafNode.mk 6 [130, 140] [1300, 1400] 3)] 3] 3, BtreeNode.inner [110, 150] [BtreeNode.placehold, BtreeNode.inner [70, 90] [BtreeNode.placehold, BtreeNode.leaf (LeafNode.mk 3 [70, 80] [700, 800] 3), BtreeNode.leaf (LeafNode.mk 4 [90, 100] [900, 1000] 3)] 3, BtreeNode.inner [150, 170, 190] [BtreeNode.placehold, BtreeNode.leaf (LeafNode.mk 7 [150, 160] [1500, 1600] 3), BtreeNode.leaf (LeafNode.mk 8 [170, 180] [1700, 1800] 3), BtreeNode.leaf (LeafNode.mk 9 [190, 200, 210] [1900, 2000, 2100] 3)] 3] 3] 3) 4 (Chain.mk [(12, (some 1)), (11, (some 12)), (11, (some 1)), (0, (some 11)), (10, none), (9, (some 10)), (9, none), (8, (some 9)), (8, none), (7, (some 8)), (7, none), (6, (some 7)), (6, none), (5, (some 6)), (5, none), (4, (some 5)), (4, none), (3, (some 4)), (3, none), (2, (some 3)), (2, none), (1, (some 2)), (1, none), (0, (some 1))] 13)) from rfl]
  rw [goOps_nil]


set_option maxHeartbeats 1000000 in
theorem runFiveSets_eq : runOps 3 opsFiveSets =
    some (Bptree.mk (BtreeNode.inner [3] [BtreeNode.inner [2] [BtreeNode.leaf (LeafNode.mk 0 [1] [10] 2), BtreeNode.leaf (LeafNode.mk 1 [2] [20] 2)] 2, BtreeNode.inner [3, 4] [BtreeNode.placehold, BtreeNode.leaf (LeafNode.mk 2 [3] [30] 2), BtreeNode.leaf (LeafNode.mk 3 [4, 5] [40, 50] 2)] 2] 2) 3 (Chain.mk [(3, none), (2, (some 3)), (2, none), (1, (some 2)), (1, none), (0, (some 1))] 4)) := by
  rw [runOps_def, show opsFiveSets = [Op.setOp 1 10, Op.setOp 2 20, Op.setOp 3 30, Op.setOp 4 40, Op.setOp 5 50] from rfl,
      show Bptree.new Nat Nat 3 = (Bptree.mk (BtreeNode.placehold) 3 (Chain.mk [] 0) : Bptree Nat Nat) from rfl]
  rw [goOps_cons, show Bptree.applyOp (Bptree.mk (BtreeNode.placehold) 3 (Chain.mk [] 0)) (Op.setOp 1 10) =
      some (Bptree.mk (BtreeNode.leaf (LeafNode.mk 0 [1] [10] 2)) 3 (Chain.mk [] 1)) from rfl]
  rw [goOps_cons, show Bptree.applyOp (Bptree.mk (BtreeNode.leaf (LeafNode.mk 0 [1] [10] 2)) 3 (Chain.mk [] 1)) (Op.setOp 2 20) =
      some (Bptree.mk (BtreeNode.leaf (LeafNode.mk 0 [1, 2] [10, 20] 2)) 3 (Chain.mk [] 1)) from rfl]
  rw [goOps_cons, show Bptree.applyOp (Bptree.mk (BtreeNode.leaf (LeafNode.mk 0 [1, 2] [10, 20] 2)) 3 (Chain.mk [] 1)) (Op.setOp 3 30) =
      some (Bptree.mk (BtreeNode.inner [2] [BtreeNode.leaf (LeafNode.mk 0 [1] [10] 2), BtreeNode.leaf (LeafNode.mk 1 [2, 3] [20, 30] 2)] 2) 3 (Chain.mk [(1, none), (0, (some 1))] 2)) from rfl]
  rw [goOps_cons, show Bptree.applyOp (Bptree.mk (BtreeNode.inner [2] [BtreeNode.leaf (LeafNode.mk 0 [1] [10] 2), BtreeNode.leaf (LeafNode.mk 1 [2, 3] [20, 30] 2)] 2) 3 (Chain.mk [(1, none), (0, (some 1))] 2)) (Op.setOp 4 40) =
      some (Bptree.mk (BtreeNode.inner [2, 3] [BtreeNode.leaf (LeafNode.mk 0 [1] [10] 2), BtreeNode.leaf (LeafNode.mk 1 [2] [20] 2), BtreeNode.leaf (LeafNode.mk 2 [3, 4] [30, 40] 2)] 2) 3 (Chain.mk [(2, none), (1, (some 2)), (1, none), (0, (some 1))] 3)) from rfl]
  rw [goOps_cons, show Bptree.applyOp (Bptree.mk (BtreeNode.inner [2, 3] [BtreeNode.leaf (LeafNode.mk 0 [1] [10] 2), BtreeNode.leaf (LeafNode.mk 1 [2] [20] 2), BtreeNode.leaf (LeafNode.mk 2 [3, 4] [30, 40] 2)] 2) 3 (Chain.mk [(2, none), (1, (some 2)), (1, none), (0, (some 1))] 3)) (Op.setOp 5 50) =
      some (Bptree.mk (BtreeNode.inner [3] [BtreeNode.inner [2] [BtreeNode.leaf (LeafNode.mk 0 [1] [10] 2), BtreeNode.leaf (LeafNode.mk 1 [2] [20] 2)] 2, BtreeNode.inner [3, 4] [BtreeNode.placehold, BtreeNode.leaf (LeafNode.mk 2 [3] [30] 2), BtreeNode.leaf (LeafNode.mk 3 [4, 5] [40, 50] 2)] 2] 2) 3 (Chain.mk [(3, none), (2, (some 3)), (2, none), (1, (some 2)), (1, none), (0, (some 1))] 4)) from rfl]
  rw [goOps_nil]


/-- C6 counterexample: after the completed set operations inserting
`1 … 5` into a fresh order-3 tree — a sequence whose last insertion splits
an inner node — the tree *does* contain an inner node with the `Empty`
sentinel among its children: the sentinel was never replaced by the
caller. -/
theorem claim_C6_counterexample :
    (runSets 3 ((List.range 5).map (fun i => (i + 1, 10 * (i + 1))))).map
      (fun t => hasPhChild t.root) = some true := by
  rw [show runSets 3 ((List.range 5).map (fun i => (i + 1, 10 * (i + 1)))) =
    runOps 3 opsFiveSets from rfl, runFiveSets_eq]
  rfl

/-- C6 amended: the sentinel prepended by an inner split is *not* replaced
by the caller; it stays as the leftmost child slot of the new inner node in
the resulting tree.  Concretely, after setting keys `1 … 5` (order 3) the
root is an inner node whose second child is an inner node whose leftmost
child is the sentinel, and the tree's key/value content is nevertheless
intact. -/
theorem claim_C6 :
    (runSets 3 ((List.range 5).map (fun i => (i + 1, 10 * (i + 1))))).map
        (fun t =>
          (match t.root with
           | .inner _ (_ :: .inner _ (c0 :: _) _ :: _) _ => isPh c0
           | _ => false,
           entriesN t.root)) =
      some (true, [(1, 10), (2, 20), (3, 30), (4, 40), (5, 50)]) := by
  rw [show runSets 3 ((List.range 5).map (fun i => (i + 1, 10 * (i + 1)))) =
    runOps 3 opsFiveSets from rfl, runFiveSets_eq]
  rfl

/-- C4 counterexample: order `m = 4` (minimum non-root occupancy
`⌈3/2⌉ = 2`).  All operations of `opsOccViolation` complete (no panic), yet
the resulting tree contains a non-root leaf with 0 keys: the final remove
merged a leaf into its sibling and then deleted the *wrong* child, leaving
the drained leaf in the tree. -/
theorem claim_C4_counterexample :
    (runOps 4 opsOccViolation).map (fun t => (occOk 3 true t.root, t.root)) =
      some (false,
        .inner [50, 70]
          [.leaf ⟨0, [12, 50, 60], [120, 500, 600], 3⟩,
           .leaf ⟨2, [], [], 3⟩,
           .leaf ⟨3, [70, 80, 90], [700, 800, 900], 3⟩] 3) := by
  rw [runOccViolation_eq]
  rfl

/-- C2 counterexample: after the completed operations `opsTombstone`
(order 4), `remove 50` *succeeds* — it returns the removed value `500` —
yet `get 50` on the resulting tree returns `some 505`: a stale duplicate of
key 50, produced by the earlier corrupting rebalances, is still reachable. -/
theorem claim_C2_counterexample :
    ((runOps 4 opsTombstone).bind (fun t => t.remove 50)).map
      (fun p => (p.2, p.1.get 50)) = some (some 500, some (some 505)) := by
  rw [runTombstone_eq]
  rfl

/-- C5 counterexample: after the completed operations `opsChainBreak`
(order 4), traversing the leaf chain from the leftmost leaf yields
`[10, 11, 12, 30, 40, 35, 50, 60, 70, 80, 90]` — `35` after `40` — which is
not strictly ascending (`ascB`, equivalent to `List.Chain' (· < ·)` by
`ascB_iff_chain`), hence not the sorted sequence of the tree's keys. -/
theorem claim_C5_counterexample :
    (runOps 4 opsChainBreak).map
      (fun t => (chainKeys t, ascB (chainKeys t))) =
      some ([10, 11, 12, 30, 40, 35, 50, 60, 70, 80, 90], false) := by
  rw [runChainBreak_eq]
  rfl

/-- C9 counterexample: after the completed operations `opsPhDescent`
(order 4), key 70 is present in the tree, yet the binary-search descent for
`get 70` selects the sentinel child at index 0 of an inner node (so the
lookup returns absent). -/
theorem claim_C9_counterexample :
    (runOps 4 opsPhDescent).map
      (fun t => (getVisitsPh t.root 70, decide (70 ∈ keysN t.root),
                 t.get 70)) = some (true, true, some none) := by
  rw [runPhDescent_eq]
  rfl


/-! ### The set-only invariant

`nodeInv mx isRoot req hi t` is the structural invariant maintained by
`set` on trees built by `set` alone (order `m = mx + 1`):

* all `max_key_count` fields equal `mx`; keys of every node are strictly
  ascending and below `hi` (when given); leaf `vals` align with `keys`;
* key counts are at most `mx` and, except at the root, at least
  `⌈mx / 2⌉` (`innerSplitAt mx`);
* `req = some s` means the subtree's minimum key is exactly `s` (this is
  the separator invariant: every separator key of an inner node is the
  minimum key of the subtree right of it), and such a node, when inner, is
  exactly one "freshly split" node: its child 0 is the `placehold`
  sentinel and its own first key is `s`;
* `req = none` marks the leftmost spine: child 0 is a real node.
-/

/-- `x` is below the optional strict upper bound. -/
def ltHi {K : Type} [LinearOrder K] (hi : Option K) (x : K) : Bool :=
  match hi with
  | none => true
  | some h => decide (x < h)

/-- The optional lower bound is at most `k`. -/
def leLo {K : Type} [LinearOrder K] (req : Option K) (k : K) : Bool :=
  match req with
  | none => true
  | some s => decide (s ≤ k)

/-- `minReq req l`: when `req = some s`, the list starts with `s`. -/
def minReq {K : Type} [LinearOrder K] (req : Option K) (l : List K) : Bool :=
  match req with
  | none => true
  | some s => decide (l.head? = some s)

/-- First key if any, else the fallback bound. -/
def headOr {K : Type} (ks : List K) (hi : Option K) : Option K :=
  match ks with
  | [] => hi
  | a :: _ => some a

mutual

def nodeInv {K V : Type} [LinearOrder K] (mx : Nat) (isRoot : Bool)
    (req hi : Option K) : BtreeNode K V → Bool
  | .placehold => false
  | .leaf ln =>
    decide (ln.max_key_count = mx) &&
    decide (ln.vals.length = ln.keys.length) &&
    ascB ln.keys &&
    decide (ln.keys.length ≤ mx) &&
    (isRoot || decide (innerSplitAt mx ≤ ln.keys.length)) &&
    minReq req ln.keys &&
    ln.keys.all (ltHi hi)
  | .inner ks cs mk =>
    decide (mk = mx) &&
    ascB ks &&
    decide (ks.length ≤ mx) &&
    (isRoot || decide (innerSplitAt mx ≤ ks.length)) &&
    minReq req ks &&
    ks.all (ltHi hi) &&
    (match req, cs with
     | none, c :: rest =>
       nodeInv mx false none (headOr ks hi) c && childrenInv mx hi ks rest
     | some _, .placehold :: rest => childrenInv mx hi ks rest
     | _, _ => false)
termination_by structural t => t

/-- Children aligned with separator keys: the `t`-th child has minimum key
`ks[t]` and keys below `ks[t+1]` (or below `hi` for the last one). -/
def childrenInv {K V : Type} [LinearOrder K] (mx : Nat) (hi : Option K) :
    List K → List (BtreeNode K V) → Bool
  | ks, [] => ks.isEmpty
  | ks, c :: rest =>
    match ks with
    | [] => false
    | k1 :: ks2 =>
      nodeInv mx false (some k1) (headOr ks2 hi) c &&
      childrenInv mx hi ks2 rest
termination_by structural ks cs => cs

end

/-- Whole-tree invariant of a `set`-built tree. -/
def treeInv {K V : Type} [LinearOrder K] (t : Bptree K V) : Bool :=
  match t.root with
  | .placehold => true
  | r => nodeInv (t.m - 1) true none none r

/-- Lookup in an entry list (first match). -/
def entLookup {K V : Type} [DecidableEq K] (k : K) : List (K × V) → Option V
  | [] => none
  | (a, b) :: r => if a = k then some b else entLookup k r

/-- Sorted-insert-or-replace on an entry list: the abstract effect of
`set` on the in-order entries. -/
def upsertE {K V : Type} [LinearOrder K] (k : K) (v : V) :
    List (K × V) → List (K × V)
  | [] => [(k, v)]
  | (a, b) :: r =>
    if a < k then (a, b) :: upsertE k v r
    else if k < a then (k, v) :: (a, b) :: r
    else (k, v) :: r

/-! ### The leaf-chain invariant -/

/-- `linkChain σ x ids`: following `next` through `ids` in order, each id
points to the following one, and the last points to `x`. -/
def linkChain (σ : Chain) (x : Option Nat) : List Nat → Prop
  | [] => True
  | [i] => σ.nextOf i = x
  | i :: j :: r => σ.nextOf i = some j ∧ linkChain σ x (j :: r)

/-- How one `set` changes the chain state over a subtree whose in-order
leaf ids go from `ids` to `ids'`. -/
structure ChainDelta (σ : Chain) (ids : List Nat) (σ' : Chain)
    (ids' : List Nat) : Prop where
  freshMono : σ.fresh ≤ σ'.fresh
  idsSub : ∀ i ∈ ids', i ∈ ids ∨ (σ.fresh ≤ i ∧ i < σ'.fresh)
  headEq : ids'.head? = ids.head?
  offEq : ∀ i, i ∉ ids → i < σ.fresh → σ'.nextOf i = σ.nextOf i
  linkPres : ∀ x, ids.Nodup → (∀ i ∈ ids, i < σ.fresh) → linkChain σ x ids →
    linkChain σ' x ids'
  domPres : (∀ p ∈ σ.links, p.1 < σ.fresh) → (∀ i ∈ ids, i < σ.fresh) →
    ∀ p ∈ σ'.links, p.1 < σ'.fresh
  nodupPres : ids.Nodup → (∀ i ∈ ids, i < σ.fresh) → ids'.Nodup

/-- Whole-tree chain invariant: the leaf ids are distinct, allocated, and
chained left to right with the last `next` empty. -/
def chainInvP {K V : Type} (t : Bptree K V) : Prop :=
  (lidsN t.root).Nodup ∧ (∀ i ∈ lidsN t.root, i < t.chain.fresh) ∧
  linkChain t.chain none (lidsN t.root)


/-! ### List scaffolding: take/drop views, sorted insertion, upsert -/

theorem ascB_iff_pairwise {K : Type} [LinearOrder K] (l : List K) :
    ascB l = true ↔ l.Pairwise (· < ·) := by
  rw [ascB_iff_chain, List.chain'_iff_pairwise]

theorem mem_take_get {α : Type} :
    ∀ (l : List α) (i : Nat) (x : α), x ∈ l.take i →
    ∃ j, j < i ∧ l.get? j = some x
  | [], i, x, h => by simp at h
  | _ :: _, 0, x, h => by simp at h
  | a :: r, i + 1, x, h => by
    simp only [List.take_succ_cons, List.mem_cons] at h
    rcases h with h | h
    · exact ⟨0, Nat.succ_pos _, by simp [h]⟩
    · obtain ⟨j, hj, hg⟩ := mem_take_get r i x h
      exact ⟨j + 1, Nat.succ_lt_succ hj, by simpa using hg⟩

theorem mem_drop_get {α : Type} :
    ∀ (l : List α) (i : Nat) (x : α), x ∈ l.drop i →
    ∃ j, i ≤ j ∧ l.get? j = some x
  | l, 0, x, h => by
    obtain ⟨j, hj⟩ := List.get?_of_mem (by simpa using h)
    exact ⟨j, Nat.zero_le _, hj⟩
  | [], _ + 1, x, h => by simp at h
  | _ :: r, i + 1, x, h => by
    rw [List.drop_succ_cons] at h
    obtain ⟨j, hj, hg⟩ := mem_drop_get r i x h
    exact ⟨j + 1, Nat.succ_le_succ hj, by simpa using hg⟩

theorem insertIdx_eq_take_drop {α : Type} (a : α) :
    ∀ (i : Nat) (l : List α), i ≤ l.length →
    l.insertIdx i a = l.take i ++ a :: l.drop i
  | 0, l, _ => rfl
  | i + 1, [], h => by simp at h
  | i + 1, b :: r, h => by
    simp only [List.insertIdx_succ_cons, List.take_succ_cons,
      List.drop_succ_cons, List.cons_append]
    rw [insertIdx_eq_take_drop a i r (by simpa using h)]

theorem set_eq_take_drop {α : Type} (a : α) :
    ∀ (i : Nat) (l : List α), i < l.length →
    l.set i a = l.take i ++ a :: l.drop (i + 1)
  | 0, _ :: _, _ => rfl
  | 0, [], h => by simp at h
  | _ + 1, [], h => by simp at h
  | i + 1, b :: r, h => by
    simp only [List.set_cons_succ, List.take_succ_cons,
      List.drop_succ_cons, List.cons_append]
    rw [set_eq_take_drop a i r (by simpa using h)]

theorem get_cons_decomp {α : Type} :
    ∀ (l : List α) (i : Nat) (x : α), l.get? i = some x →
    l = l.take i ++ x :: l.drop (i + 1)
  | [], i, x, h => by simp at h
  | a :: r, 0, x, h => by
    obtain rfl : a = x := by simpa using h
    rfl
  | a :: r, i + 1, x, h => by
    simp only [List.take_succ_cons, List.drop_succ_cons, List.cons_append]
    exact congrArg (List.cons a) (get_cons_decomp r i x (by simpa using h))

theorem zip_insertIdx {α β : Type} (a : α) (b : β) :
    ∀ (i : Nat) (l : List α) (l' : List β), l.length = l'.length →
    i ≤ l.length →
    (l.insertIdx i a).zip (l'.insertIdx i b) = (l.zip l').insertIdx i (a, b)
  | 0, l, l', h, _ => by
    have : l'.insertIdx 0 b = b :: l' := rfl
    simp [this]
  | _ + 1, [], _, _, hi => by simp at hi
  | i + 1, x :: r, [], h, _ => by simp at h
  | i + 1, x :: r, y :: r', h, hi => by
    simp only [List.insertIdx_succ_cons, List.zip_cons_cons]
    rw [zip_insertIdx a b i r r' (by simpa using h) (by simpa using hi)]

theorem zip_set_right {α β : Type} (b : β) :
    ∀ (i : Nat) (l : List α) (l' : List β) (a : α), l.get? i = some a →
    l.zip (l'.set i b) = (l.zip l').set i (a, b)
  | i, [], _, a, h => by simp at h
  | 0, x :: r, [], a, h => rfl
  | 0, x :: r, y :: r', a, h => by
    obtain rfl : x = a := by simpa using h
    rfl
  | i + 1, x :: r, [], a, h => rfl
  | i + 1, x :: r, y :: r', a, h => by
    simp only [List.set_cons_succ, List.zip_cons_cons]
    rw [zip_set_right b i r r' a (by simpa using h)]

theorem zip_take_take {α β : Type} :
    ∀ (i : Nat) (l : List α) (l' : List β),
    (l.take i).zip (l'.take i) = (l.zip l').take i
  | 0, _, _ => rfl
  | _ + 1, [], _ => rfl
  | _ + 1, _ :: _, [] => rfl
  | i + 1, x :: r, y :: r' => by
    simp only [List.take_succ_cons, List.zip_cons_cons]
    rw [zip_take_take i r r']

theorem zip_drop_drop {α β : Type} :
    ∀ (i : Nat) (l : List α) (l' : List β), l.length = l'.length →
    (l.drop i).zip (l'.drop i) = (l.zip l').drop i
  | 0, _, _, _ => rfl
  | _ + 1, [], [], _ => rfl
  | _ + 1, [], _ :: _, h => by simp at h
  | _ + 1, _ :: _, [], h => by simp at h
  | i + 1, x :: r, y :: r', h => by
    simp only [List.drop_succ_cons, List.zip_cons_cons]
    exact zip_drop_drop i r r' (by simpa using h)

/-! ### upsertE characterization -/

theorem upsertE_append_lo {K V : Type} [LinearOrder K] (k : K) (v : V) :
    ∀ (A M : List (K × V)), (∀ p ∈ A, p.1 < k) →
    upsertE k v (A ++ M) = A ++ upsertE k v M
  | [], M, _ => rfl
  | (a, b) :: A, M, h => by
    have ha : a < k := h (a, b) (List.mem_cons_self _ _)
    simp only [List.cons_append, upsertE, if_pos ha]
    exact congrArg (List.cons (a, b))
      (upsertE_append_lo k v A M (fun p hp => h p (List.mem_cons_of_mem _ hp)))

theorem upsertE_all_gt {K V : Type} [LinearOrder K] (k : K) (v : V) :
    ∀ (M : List (K × V)), (∀ p ∈ M, k < p.1) →
    upsertE k v M = (k, v) :: M
  | [], _ => rfl
  | (a, b) :: M, h => by
    have ha : k < a := h (a, b) (List.mem_cons_self _ _)
    simp only [upsertE, if_neg (not_lt_of_gt ha), if_pos ha]

theorem upsertE_cons_self {K V : Type} [LinearOrder K] (k : K) (v b : V)
    (M : List (K × V)) : upsertE k v ((k, b) :: M) = (k, v) :: M := by
  simp [upsertE]

/-- Inserting `(k,v)` at the missing position of a sorted entry list is the
abstract upsert. -/
theorem insertIdx_eq_upsertE {K V : Type} [LinearOrder K] {k : K} (v : V)
    {E : List (K × V)} {i : Nat} (hi : i ≤ E.length)
    (hlo : ∀ j p, j < i → E.get? j = some p → p.1 < k)
    (hhi : ∀ j p, i ≤ j → E.get? j = some p → k < p.1) :
    E.insertIdx i (k, v) = upsertE k v E := by
  rw [insertIdx_eq_take_drop _ i E hi]
  have hA : ∀ p ∈ E.take i, p.1 < k := by
    intro p hp
    obtain ⟨j, hj, hg⟩ := mem_take_get E i p hp
    exact hlo j p hj hg
  have hB : ∀ p ∈ E.drop i, k < p.1 := by
    intro p hp
    obtain ⟨j, hj, hg⟩ := mem_drop_get E i p hp
    exact hhi j p hj hg
  conv_rhs => rw [← List.take_append_drop i E]
  rw [upsertE_append_lo k v _ _ hA, upsertE_all_gt k v _ hB]

/-- Overwriting the value at an exact-match position of a sorted entry list
is the abstract upsert. -/
theorem set_eq_upsertE {K V : Type} [LinearOrder K] {k : K} (v : V)
    {E : List (K × V)} {i : Nat} {b : V} (hg : E.get? i = some (k, b))
    (hA : ∀ p ∈ E.take i, p.1 < k) :
    E.set i (k, v) = upsertE k v E := by
  have hi : i < E.length := (List.get?_eq_some.1 hg).1
  rw [set_eq_take_drop _ i E hi]
  conv_rhs => rw [get_cons_decomp E i (k, b) hg]
  rw [upsertE_append_lo k v _ _ hA, upsertE_cons_self]

theorem entLookup_upsertE_self {K V : Type} [LinearOrder K] (k : K) (v : V) :
    ∀ (E : List (K × V)), entLookup k (upsertE k v E) = some v
  | [] => by simp [upsertE, entLookup]
  | (a, b) :: E => by
    rcases lt_trichotomy a k with h | h | h
    · rw [show upsertE k v ((a, b) :: E) = (a, b) :: upsertE k v E from by
        simp [upsertE, h]]
      rw [show entLookup k ((a, b) :: upsertE k v E) =
          entLookup k (upsertE k v E) from by simp [entLookup, ne_of_lt h]]
      exact entLookup_upsertE_self k v E
    · subst h
      simp [upsertE, lt_irrefl, entLookup]
    · simp [upsertE, not_lt_of_gt h, h, entLookup]

theorem entLookup_upsertE_other {K V : Type} [LinearOrder K] {k k' : K}
    (hne : k' ≠ k) (v : V) :
    ∀ (E : List (K × V)), entLookup k' (upsertE k v E) = entLookup k' E
  | [] => by simp [upsertE, entLookup, Ne.symm hne]
  | (a, b) :: E => by
    rcases lt_trichotomy a k with h | h | h
    · simp only [upsertE, if_pos h, entLookup]
      rw [entLookup_upsertE_other hne v E]
    · subst h
      simp [upsertE, lt_irrefl, entLookup, Ne.symm hne]
    · simp [upsertE, not_lt_of_gt h, h, entLookup, Ne.symm hne]

/-! ### Routing: the child index chosen by the binary search -/

/-- On a sorted key list the route index of the binary search equals the
number of leading keys `≤ k`. -/
def routeCount {K : Type} [LinearOrder K] (k : K) : List K → Nat
  | [] => 0
  | a :: r => if a ≤ k then routeCount k r + 1 else 0

theorem routeCount_le_length {K : Type} [LinearOrder K] (k : K) :
    ∀ l : List K, routeCount k l ≤ l.length
  | [] => le_refl _
  | a :: r => by
    simp only [routeCount, List.length_cons]
    split
    · exact Nat.succ_le_succ (routeCount_le_length k r)
    · exact Nat.zero_le _

theorem routeCount_eq_of_bounds {K : Type} [LinearOrder K] {k : K} :
    ∀ (l : List K) (i : Nat), i ≤ l.length →
    (∀ j x, j < i → l.get? j = some x → x ≤ k) →
    (∀ j x, i ≤ j → l.get? j = some x → k < x) →
    routeCount k l = i
  | [], 0, _, _, _ => rfl
  | [], _ + 1, hi, _, _ => by simp at hi
  | a :: r, 0, _, _, hhi => by
    have ha : k < a := hhi 0 a (Nat.zero_le _) rfl
    simp [routeCount, not_le_of_gt ha]
  | a :: r, i + 1, hi, hlo, hhi => by
    have ha : a ≤ k := hlo 0 a (Nat.succ_pos _) rfl
    have hr : routeCount k r = i :=
      routeCount_eq_of_bounds r i (by simpa using hi)
        (fun j x hj hx => hlo (j + 1) x (Nat.succ_lt_succ hj) (by simpa using hx))
        (fun j x hj hx => hhi (j + 1) x (Nat.succ_le_succ hj) (by simpa using hx))
    simp [routeCount, ha, hr]

/-- On sorted keys, the route index of the Rust binary search is
`routeCount`. -/
theorem routeIndex_rustBsearch {K : Type} [LinearOrder K] {l : List K} {k : K}
    (hs : l.Pairwise (· < ·)) :
    routeIndex (rustBsearch l k) = routeCount k l := by
  have spec := rustBsearch_spec (l := l) (k := k) hs
  cases hr : rustBsearch l k with
  | found i =>
    rw [hr] at spec
    have sp : l.get? i = some k := spec
    have hi : i < l.length := (List.get?_eq_some.1 sp).1
    have hlo : ∀ j x, j < i + 1 → l.get? j = some x → x ≤ k := by
      intro j x hj hx
      rcases Nat.lt_or_ge j i with h | h
      · exact le_of_lt (pairwise_get_lt hs h hx sp)
      · have hji : j = i := by omega
        subst hji
        rw [hx] at sp
        exact le_of_eq (Option.some.inj sp)
    have hhi : ∀ j x, i + 1 ≤ j → l.get? j = some x → k < x := by
      intro j x hj hx
      exact pairwise_get_lt hs (by omega : i < j) sp hx
    exact (routeCount_eq_of_bounds l (i + 1) (by omega) hlo hhi).symm
  | missing i =>
    rw [hr] at spec
    exact (routeCount_eq_of_bounds l i spec.1
      (fun j x hj hx => le_of_lt (spec.2.1 j x hj hx)) spec.2.2).symm

/-! ### Sortedness through insertion -/

theorem ascB_insertIdx {K : Type} [LinearOrder K] {l : List K} {k : K}
    {i : Nat} (hs : ascB l = true) (hi : i ≤ l.length)
    (hlo : ∀ j x, j < i → l.get? j = some x → x < k)
    (hhi : ∀ j x, i ≤ j → l.get? j = some x → k < x) :
    ascB (l.insertIdx i k) = true := by
  rw [ascB_iff_pairwise] at hs ⊢
  rw [insertIdx_eq_take_drop k i l hi, List.pairwise_append]
  refine ⟨hs.sublist (List.take_sublist i l), ?_, ?_⟩
  · rw [List.pairwise_cons]
    refine ⟨?_, hs.sublist (List.drop_sublist i l)⟩
    intro y hy
    obtain ⟨j, hj, hg⟩ := mem_drop_get l i y hy
    exact hhi j y hj hg
  · intro x hx y hy
    obtain ⟨j, hj, hg⟩ := mem_take_get l i x hx
    rcases List.mem_cons.1 hy with rfl | hy2
    · exact hlo j x hj hg
    · obtain ⟨j2, hj2, hg2⟩ := mem_drop_get l i y hy2
      exact pairwise_get_lt hs (by omega) hg hg2

theorem head_insertIdx_pos {α : Type} (a : α) :
    ∀ (l : List α) (i : Nat), 0 < i → i ≤ l.length →
    (l.insertIdx i a).head? = l.head?
  | _ :: _, i + 1, _, _ => by simp [List.insertIdx_succ_cons]
  | [], _ + 1, _, h => by simp at h
  | _, 0, h, _ => absurd h (lt_irrefl 0)


/-! ### Key bounds extracted from the invariant -/

theorem pairwise_head_le {K : Type} [LinearOrder K] {l : List K} {s : K}
    (hp : l.Pairwise (· < ·)) (hh : l.head? = some s) : ∀ x ∈ l, s ≤ x := by
  cases l with
  | nil => simp at hh
  | cons a r =>
    obtain rfl : a = s := by simpa using hh
    intro x hx
    rcases List.mem_cons.1 hx with rfl | hx
    · exact le_refl x
    · exact le_of_lt ((List.pairwise_cons.1 hp).1 x hx)

theorem ltHi_of_lt {K : Type} [LinearOrder K] {hi : Option K} {x y : K}
    (hxy : x < y) (hy : ltHi hi y = true) : ltHi hi x = true := by
  cases hi with
  | none => rfl
  | some h =>
    simp only [ltHi, decide_eq_true_eq] at hy ⊢
    exact lt_trans hxy hy

theorem head_append_of_some {α : Type} {A B : List α} {a : α}
    (h : A.head? = some a) : (A ++ B).head? = some a := by
  cases A with
  | nil => simp at h
  | cons x r => simpa using h

theorem entLookup_eq_none {K V : Type} [DecidableEq K] {k : K} :
    ∀ (E : List (K × V)), (∀ p ∈ E, p.1 ≠ k) → entLookup k E = none
  | [], _ => rfl
  | (a, b) :: E, h => by
    have ha : a ≠ k := h (a, b) (List.mem_cons_self _ _)
    simp only [entLookup, if_neg ha]
    exact entLookup_eq_none E (fun p hp => h p (List.mem_cons_of_mem _ hp))

theorem entLookup_append_skip {K V : Type} [DecidableEq K] {k : K} :
    ∀ (A B : List (K × V)), (∀ p ∈ A, p.1 ≠ k) →
    entLookup k (A ++ B) = entLookup k B
  | [], B, _ => rfl
  | (a, b) :: A, B, h => by
    have ha : a ≠ k := h (a, b) (List.mem_cons_self _ _)
    simp only [List.cons_append, entLookup, if_neg ha]
    exact entLookup_append_skip A B (fun p hp => h p (List.mem_cons_of_mem _ hp))

theorem entLookup_append_keep {K V : Type} [DecidableEq K] {k : K} :
    ∀ (A B : List (K × V)), (∀ p ∈ B, p.1 ≠ k) →
    entLookup k (A ++ B) = entLookup k A
  | [], B, h => entLookup_eq_none B h
  | (a, b) :: A, B, h => by
    by_cases ha : a = k
    · simp [entLookup, ha]
    · simp only [List.cons_append, entLookup, if_neg ha]
      exact entLookup_append_keep A B h

/-- Child count equals separator count under the alignment invariant. -/
theorem childrenInv_length {K V : Type} [LinearOrder K] {mx : Nat}
    {hi : Option K} :
    ∀ (cs : List (BtreeNode K V)) (ks : List K),
    childrenInv mx hi ks cs = true → cs.length = ks.length
  | [], ks, h => by
    have : ks = [] := by simpa [childrenInv, List.isEmpty_iff] using h
    simp [this]
  | c :: rest, [], h => by simp [childrenInv] at h
  | c :: rest, k1 :: ks2, h => by
    simp only [childrenInv, Bool.and_eq_true] at h
    simp [childrenInv_length rest ks2 h.2]

mutual

/-- Under the invariant, a subtree's in-order keys are strictly ascending,
bounded above by `hi`, bounded below by `req`, and start exactly at the
required separator when one is given. -/
theorem nodeInv_keys {K V : Type} [LinearOrder K] {mx : Nat} :
    ∀ (t : BtreeNode K V) (isRoot : Bool) (req hi : Option K),
    nodeInv mx isRoot req hi t = true →
    (keysN t).Pairwise (· < ·) ∧
    (∀ x ∈ keysN t, ltHi hi x = true) ∧
    (∀ x ∈ keysN t, leLo req x = true) ∧
    (∀ s, req = some s → (keysN t).head? = some s)
  | .placehold, isRoot, req, hi, h => by simp [nodeInv] at h
  | .leaf ln, isRoot, req, hi, h => by
    simp only [nodeInv, Bool.and_eq_true, decide_eq_true_eq] at h
    obtain ⟨⟨⟨⟨⟨⟨h1, h2⟩, h3⟩, h4⟩, h5⟩, h6⟩, h7⟩ := h
    have hk : keysN (BtreeNode.leaf ln : BtreeNode K V) = ln.keys := by
      simp only [keysN, entriesN]
      exact List.map_fst_zip _ _ (le_of_eq h2.symm)
    rw [hk]
    have hp : ln.keys.Pairwise (· < ·) := (ascB_iff_pairwise _).1 h3
    refine ⟨hp, fun x hx => List.all_eq_true.1 h7 x hx, ?_, ?_⟩
    · intro x hx
      cases req with
      | none => rfl
      | some s =>
        have hh : ln.keys.head? = some s := by
          simpa [minReq] using h6
        simpa [leLo] using pairwise_head_le hp hh x hx
    · intro s hs
      subst hs
      simpa [minReq] using h6
  | .inner ks [] mk, isRoot, none, hi, h => by simp [nodeInv] at h
  | .inner ks [] mk, isRoot, some s, hi, h => by simp [nodeInv] at h
  | .inner ks (.inner ks2 cs2 mk2 :: rest) mk, isRoot, some s, hi, h => by
    simp [nodeInv] at h
  | .inner ks (.leaf ln :: rest) mk, isRoot, some s, hi, h => by
    simp [nodeInv] at h
  | .inner ks (c :: rest) mk, isRoot, none, hi, h => by
    simp only [nodeInv, Bool.and_eq_true, decide_eq_true_eq] at h
    obtain ⟨⟨⟨⟨⟨⟨h1, h2⟩, h3⟩, h4⟩, h5⟩, h6⟩, h7, h8⟩ := h
    have hsk : ks.Pairwise (· < ·) := (ascB_iff_pairwise _).1 h2
    obtain ⟨Na, Nb, Nc, Nd⟩ := nodeInv_keys c false none (headOr ks hi) h7
    obtain ⟨Ca, Cb, Cc, Cd⟩ := childrenInv_keys rest ks hi h8 hsk h6
    have hkc : (entriesN c).map Prod.fst = keysN c := rfl
    have hk : keysN (BtreeNode.inner ks (c :: rest) mk : BtreeNode K V) =
        keysN c ++ (entriesL rest).map Prod.fst := by
      simp [keysN, entriesN, entriesL]
    rw [hk]
    refine ⟨?_, ?_, fun x _ => rfl, fun s hs => by cases hs⟩
    · rw [List.pairwise_append]
      refine ⟨Na, Ca, ?_⟩
      intro x hx y hy
      cases ks with
      | nil =>
        have hr : rest = [] :=
          List.length_eq_zero.1 (childrenInv_length rest [] h8)
        subst hr
        simp [entriesL] at hy
      | cons k1 ks2 =>
        have hx1 : x < k1 := by
          have := Nb x hx
          simpa [ltHi, headOr] using this
        have hy1 : k1 ≤ y := Cc k1 rfl y hy
        exact lt_of_lt_of_le hx1 hy1
    · intro x hx
      rcases List.mem_append.1 hx with hx | hx
      · cases ks with
        | nil => simpa [headOr] using Nb x hx
        | cons k1 ks2 =>
          have hx1 : x < k1 := by simpa [ltHi, headOr] using Nb x hx
          have hk1 : ltHi hi k1 = true := by
            have := List.all_eq_true.1 h6 k1 (List.mem_cons_self _ _)
            exact this
          exact ltHi_of_lt hx1 hk1
      · exact Cb x hx
  | .inner ks (.placehold :: rest) mk, isRoot, some s, hi, h => by
    simp only [nodeInv, Bool.and_eq_true, decide_eq_true_eq] at h
    obtain ⟨⟨⟨⟨⟨⟨h1, h2⟩, h3⟩, h4⟩, h5⟩, h6⟩, h7⟩ := h
    have hsk : ks.Pairwise (· < ·) := (ascB_iff_pairwise _).1 h2
    obtain ⟨Ca, Cb, Cc, Cd⟩ := childrenInv_keys rest ks hi h7 hsk h6
    have hh : ks.head? = some s := by simpa [minReq] using h5
    have hk : keysN (BtreeNode.inner ks (BtreeNode.placehold :: rest) mk :
        BtreeNode K V) = (entriesL rest).map Prod.fst := by
      simp [keysN, entriesN, entriesL]
    rw [hk]
    refine ⟨Ca, Cb, ?_, ?_⟩
    · intro x hx
      simpa [leLo] using Cc s hh x hx
    · intro s2 hs2
      obtain rfl : s = s2 := by simpa using hs2
      exact Cd s hh
termination_by structural t => t

/-- Under the alignment invariant with sorted, `hi`-bounded separators, the
children's in-order keys are strictly ascending, bounded above by `hi`,
bounded below by the first separator, and start exactly at it. -/
theorem childrenInv_keys {K V : Type} [LinearOrder K] {mx : Nat} :
    ∀ (cs : List (BtreeNode K V)) (ks : List K) (hi : Option K),
    childrenInv mx hi ks cs = true →
    ks.Pairwise (· < ·) → ks.all (ltHi hi) = true →
    ((entriesL cs).map Prod.fst).Pairwise (· < ·) ∧
    (∀ x ∈ (entriesL cs).map Prod.fst, ltHi hi x = true) ∧
    (∀ s, ks.head? = some s → ∀ x ∈ (entriesL cs).map Prod.fst, s ≤ x) ∧
    (∀ s, ks.head? = some s → ((entriesL cs).map Prod.fst).head? = some s)
  | [], ks, hi, h, _, _ => by
    have hks : ks = [] := by simpa [childrenInv, List.isEmpty_iff] using h
    subst hks
    refine ⟨by simp [entriesL], by simp [entriesL], by simp, by simp⟩
  | c :: rest, [], hi, h, _, _ => by simp [childrenInv] at h
  | c :: rest, k1 :: ks2, hi, h, hs, hall => by
    simp only [childrenInv, Bool.and_eq_true] at h
    obtain ⟨h1, h2⟩ := h
    obtain ⟨Na, Nb, Nc, Nd⟩ := nodeInv_keys c false (some k1) (headOr ks2 hi) h1
    have hs2 : ks2.Pairwise (· < ·) := (List.pairwise_cons.1 hs).2
    have hall2 : ks2.all (ltHi hi) = true := by
      simp only [List.all_cons, Bool.and_eq_true] at hall
      exact hall.2
    have hk1hi : ltHi hi k1 = true := by
      simp only [List.all_cons, Bool.and_eq_true] at hall
      exact hall.1
    obtain ⟨Ca, Cb, Cc, Cd⟩ := childrenInv_keys rest ks2 hi h2 hs2 hall2
    have hsplit : (entriesL (c :: rest)).map Prod.fst =
        keysN c ++ (entriesL rest).map Prod.fst := by
      simp [entriesL, keysN]
    rw [hsplit]
    refine ⟨?_, ?_, ?_, ?_⟩
    · rw [List.pairwise_append]
      refine ⟨Na, Ca, ?_⟩
      intro x hx y hy
      cases ks2 with
      | nil =>
        have hr : rest = [] :=
          List.length_eq_zero.1 (childrenInv_length rest [] h2)
        subst hr
        simp [entriesL] at hy
      | cons k2 ks3 =>
        have hx1 : x < k2 := by simpa [ltHi, headOr] using Nb x hx
        exact lt_of_lt_of_le hx1 (Cc k2 rfl y hy)
    · intro x hx
      rcases List.mem_append.1 hx with hx | hx
      · cases ks2 with
        | nil => simpa [headOr] using Nb x hx
        | cons k2 ks3 =>
          have hx1 : x < k2 := by simpa [ltHi, headOr] using Nb x hx
          have hk2 : ltHi hi k2 = true := by
            simp only [List.all_cons, Bool.and_eq_true] at hall2
            exact hall2.1
          exact ltHi_of_lt hx1 hk2
      · exact Cb x hx
    · intro s hhd x hx
      obtain rfl : k1 = s := by simpa using hhd
      rcases List.mem_append.1 hx with hx | hx
      · simpa [leLo] using Nc x hx
      · cases ks2 with
        | nil =>
          have hr : rest = [] :=
            List.length_eq_zero.1 (childrenInv_length rest [] h2)
          subst hr
          simp [entriesL] at hx
        | cons k2 ks3 =>
          have h12 : k1 < k2 :=
            (List.pairwise_cons.1 hs).1 k2 (List.mem_cons_self _ _)
          exact le_trans (le_of_lt h12) (Cc k2 rfl x hx)
    · intro s hhd
      obtain rfl : k1 = s := by simpa using hhd
      exact head_append_of_some (Nd k1 rfl)
termination_by structural cs => cs

end


/-! ### `get` returns the looked-up entry -/

theorem zip_get_both {α β : Type} :
    ∀ (l : List α) (l' : List β) (i : Nat) (a : α) (b : β),
    l.get? i = some a → l'.get? i = some b →
    (l.zip l').get? i = some (a, b)
  | [], _, i, a, b, h, _ => by simp at h
  | _ :: _, [], i, a, b, _, h => by simp at h
  | x :: r, y :: r', 0, a, b, h, h' => by
    obtain rfl : x = a := by simpa using h
    obtain rfl : y = b := by simpa using h'
    rfl
  | x :: r, y :: r', i + 1, a, b, h, h' => by
    simpa using zip_get_both r r' i a b (by simpa using h) (by simpa using h')

theorem zip_get_parts {α β : Type} :
    ∀ (l : List α) (l' : List β) (i : Nat) (p : α × β),
    (l.zip l').get? i = some p → l.get? i = some p.1 ∧ l'.get? i = some p.2
  | [], _, i, p, h => by simp at h
  | _ :: _, [], i, p, h => by simp at h
  | x :: r, y :: r', 0, p, h => by
    obtain rfl : (x, y) = p := by simpa using h
    exact ⟨rfl, rfl⟩
  | x :: r, y :: r', i + 1, p, h => zip_get_parts r r' i p (by simpa using h)

theorem entLookup_of_get {K V : Type} [LinearOrder K] {E : List (K × V)}
    {i : Nat} {k : K} {v : V} (hg : E.get? i = some (k, v))
    (hpre : ∀ p ∈ E.take i, p.1 ≠ k) : entLookup k E = some v := by
  conv_lhs => rw [get_cons_decomp E i (k, v) hg]
  rw [entLookup_append_skip _ _ hpre]
  simp [entLookup]

/-- `LeafNode::get` is lookup in the leaf's entry list, given aligned
value/key lengths and sorted keys. -/
theorem leafGet_correct {K V : Type} [LinearOrder K] {ln : LeafNode K V}
    {k : K} (hlen : ln.vals.length = ln.keys.length)
    (hs : ln.keys.Pairwise (· < ·)) :
    ln.get k = some (entLookup k (ln.keys.zip ln.vals)) := by
  cases hr : rustBsearch ln.keys k with
  | found i =>
    have hk : ln.keys.get? i = some k := rustBsearch_found_get hr
    have hi : i < ln.keys.length := (List.get?_eq_some.1 hk).1
    have hiv : i < ln.vals.length := by omega
    obtain ⟨v, hv⟩ : ∃ v, ln.vals.get? i = some v :=
      ⟨_, List.get?_eq_get hiv⟩
    have hz : (ln.keys.zip ln.vals).get? i = some (k, v) :=
      zip_get_both _ _ i k v hk hv
    have hpre : ∀ p ∈ (ln.keys.zip ln.vals).take i, p.1 ≠ k := by
      intro p hp
      obtain ⟨j, hj, hg⟩ := mem_take_get _ i p hp
      have hfst := (zip_get_parts _ _ j p hg).1
      exact ne_of_lt (pairwise_get_lt hs hj hfst hk)
    rw [entLookup_of_get hz hpre]
    have hv2 : ln.vals[i]? = some v := by
      simpa [List.get?_eq_getElem?] using hv
    simp [LeafNode.get, hr, vGet, hv2]
  | missing i =>
    have spec := rustBsearch_spec (l := ln.keys) (k := k) hs
    rw [hr] at spec
    have hnone : entLookup k (ln.keys.zip ln.vals) = none := by
      apply entLookup_eq_none
      intro p hp
      have hfst : p.1 ∈ ln.keys := (List.of_mem_zip hp).1
      obtain ⟨j, hj⟩ := List.get?_of_mem hfst
      rcases Nat.lt_or_ge j i with h | h
      · exact ne_of_lt (spec.2.1 j p.1 h hj)
      · exact ne_of_gt (spec.2.2 j p.1 h hj)
    rw [hnone]
    simp [LeafNode.get, hr]

mutual

/-- Under the invariant, `get` answers exactly the in-order entry lookup:
it finds every stored key's current value and reports every other key
absent. -/
theorem get_correct {K V : Type} [LinearOrder K] {mx : Nat} :
    ∀ (t : BtreeNode K V) (isRoot : Bool) (req hi : Option K) (k : K),
    nodeInv mx isRoot req hi t = true →
    BtreeNode.get t k = some (entLookup k (entriesN t))
  | .placehold, isRoot, req, hi, k, h => by simp [nodeInv] at h
  | .leaf ln, isRoot, req, hi, k, h => by
    simp only [nodeInv, Bool.and_eq_true, decide_eq_true_eq] at h
    obtain ⟨⟨⟨⟨⟨⟨h1, h2⟩, h3⟩, h4⟩, h5⟩, h6⟩, h7⟩ := h
    have : ln.get k = some (entLookup k (ln.keys.zip ln.vals)) :=
      leafGet_correct h2 ((ascB_iff_pairwise _).1 h3)
    simpa [BtreeNode.get, entriesN] using this
  | .inner ks [] mk, isRoot, none, hi, k, h => by simp [nodeInv] at h
  | .inner ks [] mk, isRoot, some s, hi, k, h => by simp [nodeInv] at h
  | .inner ks (.inner ks2 cs2 mk2 :: rest) mk, isRoot, some s, hi, k, h => by
    simp [nodeInv] at h
  | .inner ks (.leaf ln :: rest) mk, isRoot, some s, hi, k, h => by
    simp [nodeInv] at h
  | .inner ks (c :: rest) mk, isRoot, none, hi, k, h => by
    simp only [nodeInv, Bool.and_eq_true, decide_eq_true_eq] at h
    obtain ⟨⟨⟨⟨⟨⟨h1, h2⟩, h3⟩, h4⟩, h5⟩, h6⟩, h7, h8⟩ := h
    have hsk : ks.Pairwise (· < ·) := (ascB_iff_pairwise _).1 h2
    have hroute : routeIndex (rustBsearch ks k) = routeCount k ks :=
      routeIndex_rustBsearch hsk
    rw [show BtreeNode.get (BtreeNode.inner ks (c :: rest) mk :
        BtreeNode K V) k = BtreeNode.getAt (c :: rest)
        (routeIndex (rustBsearch ks k)) k from rfl, hroute,
      show entriesN (BtreeNode.inner ks (c :: rest) mk : BtreeNode K V) =
        entriesN c ++ entriesL rest from by simp [entriesN, entriesL]]
    cases ks with
    | nil =>
      have hr : rest = [] :=
        List.length_eq_zero.1 (childrenInv_length rest [] h8)
      subst hr
      have := get_correct c false none (headOr ([] : List K) hi) k h7
      simpa [routeCount, entriesL, BtreeNode.getAt] using this
    | cons k1 ks2 =>
      by_cases hk1 : k1 ≤ k
      · have hskip : ∀ p ∈ entriesN c, p.1 ≠ k := by
          intro p hp
          have hx : p.1 ∈ keysN c := List.mem_map_of_mem Prod.fst hp
          obtain ⟨Na, Nb, Nc2, Nd⟩ :=
            nodeInv_keys c false none (headOr (k1 :: ks2) hi) h7
          have hlt : p.1 < k1 := by simpa [ltHi, headOr] using Nb p.1 hx
          exact ne_of_lt (lt_of_lt_of_le hlt hk1)
        rw [entLookup_append_skip _ _ hskip,
          show routeCount k (k1 :: ks2) = routeCount k ks2 + 1 from by
            simp [routeCount, hk1],
          show BtreeNode.getAt (c :: rest) (routeCount k ks2 + 1) k =
            BtreeNode.getAt rest (routeCount k ks2) k from rfl]
        exact childrenInv_getAt rest (k1 :: ks2) hi k h8 hsk h6
          (List.cons_ne_nil _ _)
          (fun s hs => by
            obtain rfl : k1 = s := by simpa using hs
            exact hk1)
      · have hkeep : ∀ p ∈ entriesL rest, p.1 ≠ k := by
          obtain ⟨Ca, Cb, Cc, Cd⟩ :=
            childrenInv_keys rest (k1 :: ks2) hi h8 hsk h6
          intro p hp
          have hx : p.1 ∈ (entriesL rest).map Prod.fst :=
            List.mem_map_of_mem Prod.fst hp
          have hge : k1 ≤ p.1 := Cc k1 rfl p.1 hx
          exact ne_of_gt (lt_of_lt_of_le (lt_of_not_le hk1) hge)
        rw [entLookup_append_keep _ _ hkeep,
          show routeCount k (k1 :: ks2) = 0 from by simp [routeCount, hk1],
          show BtreeNode.getAt (c :: rest) 0 k = BtreeNode.get c k from rfl]
        exact get_correct c false none (headOr (k1 :: ks2) hi) k h7
  | .inner ks (.placehold :: rest) mk, isRoot, some s, hi, k, h => by
    simp only [nodeInv, Bool.and_eq_true, decide_eq_true_eq] at h
    obtain ⟨⟨⟨⟨⟨⟨h1, h2⟩, h3⟩, h4⟩, h5⟩, h6⟩, h7⟩ := h
    have hsk : ks.Pairwise (· < ·) := (ascB_iff_pairwise _).1 h2
    have hh : ks.head? = some s := by simpa [minReq] using h5
    obtain ⟨k1, ks2, rfl⟩ : ∃ k1 ks2, ks = k1 :: ks2 := by
      cases ks with
      | nil => simp at hh
      | cons a r => exact ⟨a, r, rfl⟩
    obtain rfl : k1 = s := by simpa using hh
    have hroute : routeIndex (rustBsearch (k1 :: ks2) k) =
        routeCount k (k1 :: ks2) := routeIndex_rustBsearch hsk
    rw [show BtreeNode.get (BtreeNode.inner (k1 :: ks2)
        (BtreeNode.placehold :: rest) mk : BtreeNode K V) k =
        BtreeNode.getAt (BtreeNode.placehold :: rest)
        (routeIndex (rustBsearch (k1 :: ks2) k)) k from rfl, hroute,
      show entriesN (BtreeNode.inner (k1 :: ks2)
        (BtreeNode.placehold :: rest) mk : BtreeNode K V) =
        entriesL rest from by simp [entriesN, entriesL]]
    by_cases hk1 : k1 ≤ k
    · rw [show routeCount k (k1 :: ks2) = routeCount k ks2 + 1 from by
          simp [routeCount, hk1],
        show BtreeNode.getAt (BtreeNode.placehold :: rest)
          (routeCount k ks2 + 1) k =
          BtreeNode.getAt rest (routeCount k ks2) k from rfl]
      exact childrenInv_getAt rest (k1 :: ks2) hi k h7 hsk h6
        (List.cons_ne_nil _ _)
        (fun s2 hs2 => by
          obtain rfl : k1 = s2 := by simpa using hs2
          exact hk1)
    · have hkeep : entLookup k (entriesL rest) = none := by
        obtain ⟨Ca, Cb, Cc, Cd⟩ :=
          childrenInv_keys rest (k1 :: ks2) hi h7 hsk h6
        apply entLookup_eq_none
        intro p hp
        have hx : p.1 ∈ (entriesL rest).map Prod.fst :=
          List.mem_map_of_mem Prod.fst hp
        have hge : k1 ≤ p.1 := Cc k1 rfl p.1 hx
        exact ne_of_gt (lt_of_lt_of_le (lt_of_not_le hk1) hge)
      rw [hkeep,
        show routeCount k (k1 :: ks2) = 0 from by simp [routeCount, hk1]]
      rfl
termination_by structural t => t

/-- Descent through an aligned child segment: routing by the count of
separators `≤ k` lands on the child whose range holds `k`, and the answer
is the lookup in the segment's concatenated entries. -/
theorem childrenInv_getAt {K V : Type} [LinearOrder K] {mx : Nat} :
    ∀ (cs : List (BtreeNode K V)) (ks : List K) (hi : Option K) (k : K),
    childrenInv mx hi ks cs = true →
    ks.Pairwise (· < ·) → ks.all (ltHi hi) = true → ks ≠ [] →
    (∀ s, ks.head? = some s → s ≤ k) →
    BtreeNode.getAt cs (routeCount k (ks.drop 1)) k =
      some (entLookup k (entriesL cs))
  | [], ks, hi, k, h, _, _, hne, _ => by
    have : ks = [] := by simpa [childrenInv, List.isEmpty_iff] using h
    exact absurd this hne
  | c :: rest, [], hi, k, h, _, _, hne, _ => by exact absurd rfl hne
  | c :: rest, k1 :: ks2, hi, k, h, hs, hall, _, hhead => by
    simp only [childrenInv, Bool.and_eq_true] at h
    obtain ⟨h1, h2⟩ := h
    have hk1 : k1 ≤ k := hhead k1 rfl
    rw [show entriesL (c :: rest) = entriesN c ++ entriesL rest from by
      simp [entriesL]]
    cases ks2 with
    | nil =>
      have hr : rest = [] :=
        List.length_eq_zero.1 (childrenInv_length rest [] h2)
      subst hr
      have := get_correct c false (some k1) (headOr ([] : List K) hi) k h1
      simpa [routeCount, entriesL, BtreeNode.getAt] using this
    | cons k2 ks3 =>
      have hs2 : (k2 :: ks3).Pairwise (· < ·) := (List.pairwise_cons.1 hs).2
      have hall2 : (k2 :: ks3).all (ltHi hi) = true := by
        simp only [List.all_cons, Bool.and_eq_true] at hall ⊢
        exact hall.2
      by_cases hk2 : k2 ≤ k
      · have hskip : ∀ p ∈ entriesN c, p.1 ≠ k := by
          intro p hp
          have hx : p.1 ∈ keysN c := List.mem_map_of_mem Prod.fst hp
          obtain ⟨Na, Nb, Nc2, Nd⟩ :=
            nodeInv_keys c false (some k1) (headOr (k2 :: ks3) hi) h1
          have hlt : p.1 < k2 := by simpa [ltHi, headOr] using Nb p.1 hx
          exact ne_of_lt (lt_of_lt_of_le hlt hk2)
        rw [entLookup_append_skip _ _ hskip,
          show routeCount k ((k1 :: k2 :: ks3).drop 1) =
            routeCount k ks3 + 1 from by simp [routeCount, hk2],
          show BtreeNode.getAt (c :: rest) (routeCount k ks3 + 1) k =
            BtreeNode.getAt rest (routeCount k ks3) k from rfl]
        exact childrenInv_getAt rest (k2 :: ks3) hi k h2 hs2 hall2
          (List.cons_ne_nil _ _)
          (fun s2 hs2' => by
            obtain rfl : k2 = s2 := by simpa using hs2'
            exact hk2)
      · have hkeep : ∀ p ∈ entriesL rest, p.1 ≠ k := by
          obtain ⟨Ca, Cb, Cc, Cd⟩ :=
            childrenInv_keys rest (k2 :: ks3) hi h2 hs2 hall2
          intro p hp
          have hx : p.1 ∈ (entriesL rest).map Prod.fst :=
            List.mem_map_of_mem Prod.fst hp
          have hge : k2 ≤ p.1 := Cc k2 rfl p.1 hx
          exact ne_of_gt (lt_of_lt_of_le (lt_of_not_le hk2) hge)
        rw [entLookup_append_keep _ _ hkeep,
          show routeCount k ((k1 :: k2 :: ks3).drop 1) = 0 from by
            simp [routeCount, hk2],
          show BtreeNode.getAt (c :: rest) 0 k = BtreeNode.get c k from rfl]
        exact get_correct c false (some k1) (headOr (k2 :: ks3) hi) k h1
termination_by structural cs => cs

end


/-! ### Plumbing for the `set` preservation proof -/

theorem upsertE_append_hi {K V : Type} [LinearOrder K] (k : K) (v : V) :
    ∀ (A B : List (K × V)), (∀ p ∈ B, k < p.1) →
    upsertE k v (A ++ B) = upsertE k v A ++ B
  | [], B, h => by simpa [upsertE] using upsertE_all_gt k v B h
  | (a, b) :: A, B, h => by
    rcases lt_trichotomy a k with hc | hc | hc
    · simp only [List.cons_append, upsertE, if_pos hc]
      exact congrArg (List.cons (a, b)) (upsertE_append_hi k v A B h)
    · subst hc
      simp [upsertE, lt_irrefl]
    · simp [upsertE, not_lt_of_gt hc, hc]

theorem entriesL_append {K V : Type} :
    ∀ (A B : List (BtreeNode K V)),
    entriesL (A ++ B) = entriesL A ++ entriesL B
  | [], B => rfl
  | c :: A, B => by
    show entriesN c ++ entriesL (A ++ B) =
      (entriesN c ++ entriesL A) ++ entriesL B
    rw [entriesL_append A B, List.append_assoc]

theorem lidsL_append {K V : Type} :
    ∀ (A B : List (BtreeNode K V)), lidsL (A ++ B) = lidsL A ++ lidsL B
  | [], B => rfl
  | c :: A, B => by
    show lidsN c ++ lidsL (A ++ B) = (lidsN c ++ lidsL A) ++ lidsL B
    rw [lidsL_append A B, List.append_assoc]

theorem headOr_take {K : Type} {ks : List K} {s : Nat} {km : K}
    (h : ks.get? s = some km) (hi : Option K) :
    headOr (ks.take s) (some km) = headOr ks hi := by
  cases ks with
  | nil => simp at h
  | cons a r =>
    cases s with
    | zero =>
      obtain rfl : a = km := by simpa using h
      rfl
    | succ s => rfl

/-- Cutting an aligned child segment at separator `s` keeps both halves
aligned: the left against bound `ks[s]`, the right against the outer
bound. -/
theorem childrenInv_split {K V : Type} [LinearOrder K] {mx : Nat} :
    ∀ (cs : List (BtreeNode K V)) (ks : List K) (hi : Option K) (s : Nat)
    (km : K), childrenInv mx hi ks cs = true → ks.get? s = some km →
    childrenInv mx (some km) (ks.take s) (cs.take s) = true ∧
    childrenInv mx hi (ks.drop s) (cs.drop s) = true
  | cs, ks, hi, 0, km, h, hk => ⟨rfl, h⟩
  | [], ks, hi, s + 1, km, h, hk => by
    have hks : ks = [] := by simpa [childrenInv, List.isEmpty_iff] using h
    subst hks
    simp at hk
  | c :: rest, [], hi, s + 1, km, h, hk => by simp at hk
  | c :: rest, k1 :: ks2, hi, s + 1, km, h, hk => by
    simp only [childrenInv, Bool.and_eq_true] at h
    obtain ⟨h1, h2⟩ := h
    have hk2 : ks2.get? s = some km := by simpa using hk
    obtain ⟨ihL, ihR⟩ := childrenInv_split rest ks2 hi s km h2 hk2
    refine ⟨?_, by simpa using ihR⟩
    simp only [List.take_succ_cons, childrenInv, Bool.and_eq_true]
    exact ⟨by rwa [headOr_take hk2 hi], ihL⟩

theorem rustBsearch_missing_of_bounds {K : Type} [LinearOrder K] {l : List K}
    {k : K} {i : Nat} (hs : l.Pairwise (· < ·)) (hil : i ≤ l.length)
    (hlo : ∀ j x, j < i → l.get? j = some x → x < k)
    (hhi : ∀ j x, i ≤ j → l.get? j = some x → k < x) :
    rustBsearch l k = .missing i :=
  searchSpec_unique hs (rustBsearch_spec hs) ⟨hil, hlo, hhi⟩

theorem rustBsearch_found_of_get {K : Type} [LinearOrder K] {l : List K}
    {k : K} {i : Nat} (hs : l.Pairwise (· < ·)) (hg : l.get? i = some k) :
    rustBsearch l k = .found i :=
  searchSpec_unique hs (rustBsearch_spec hs) hg

/-! ### Chain-delta machinery -/

theorem chainDelta_refl (σ : Chain) (ids : List Nat) : ChainDelta σ ids σ ids :=
  ⟨le_refl _, fun i h => Or.inl h, rfl, fun _ _ _ => rfl, fun _ _ _ h => h,
   fun hdom _ => hdom, fun hnd _ => hnd⟩

/-- Head of a tail segment, with a fallback when it is empty. -/
def hd0 (B : List Nat) (x : Option Nat) : Option Nat :=
  match B with
  | [] => x
  | b :: _ => some b

theorem linkChain_append {σ : Chain} {x : Option Nat} {B : List Nat} :
    ∀ (A : List Nat),
    linkChain σ x (A ++ B) ↔ linkChain σ (hd0 B x) A ∧ linkChain σ x B
  | [] => by simp [linkChain]
  | [a] => by
    cases B with
    | nil => simp [linkChain, hd0]
    | cons b B' => simp [linkChain, hd0]
  | a :: a2 :: A' => by
    have ih := linkChain_append (σ := σ) (x := x) (B := B) (a2 :: A')
    constructor
    · rintro ⟨h1, h2⟩
      obtain ⟨h3, h4⟩ := ih.1 h2
      exact ⟨⟨h1, h3⟩, h4⟩
    · rintro ⟨⟨h1, h3⟩, h4⟩
      exact ⟨h1, ih.2 ⟨h3, h4⟩⟩

theorem linkChain_congr {σ σ' : Chain} {x : Option Nat} :
    ∀ (A : List Nat), (∀ a ∈ A, σ'.nextOf a = σ.nextOf a) →
    linkChain σ x A → linkChain σ' x A
  | [], _, _ => trivial
  | [a], hc, h => by
    show σ'.nextOf a = x
    rw [hc a (List.mem_cons_self _ _)]
    exact h
  | a :: a2 :: A', hc, h => by
    obtain ⟨h1, h2⟩ := h
    refine ⟨?_, linkChain_congr (a2 :: A')
      (fun b hb => hc b (List.mem_cons_of_mem _ hb)) h2⟩
    rw [hc a (List.mem_cons_self _ _)]
    exact h1

/-- A delta on a contiguous segment of the leaf-id sequence extends to a
delta on the whole sequence. -/
theorem chainDelta_frame {σ σ' : Chain} {ids ids' : List Nat}
    (Δ : ChainDelta σ ids σ' ids') (pre post : List Nat) :
    ChainDelta σ (pre ++ ids ++ post) σ' (pre ++ ids' ++ post) := by
  have hhd : ∀ y : Option Nat, hd0 (ids' ++ post) y = hd0 (ids ++ post) y := by
    intro y
    have h := Δ.headEq
    cases ids with
    | nil =>
      cases ids' with
      | nil => rfl
      | cons a l => simp at h
    | cons a l =>
      cases ids' with
      | nil => simp at h
      | cons b m =>
        have : b = a := by simpa using h
        simp [hd0, this]
  refine ⟨Δ.freshMono, ?_, ?_, ?_, ?_, ?_, ?_⟩
  · intro i hi
    simp only [List.append_assoc, List.mem_append] at hi ⊢
    rcases hi with hi | hi | hi
    · exact Or.inl (Or.inl hi)
    · rcases Δ.idsSub i hi with h | h
      · exact Or.inl (Or.inr (Or.inl h))
      · exact Or.inr h
    · exact Or.inl (Or.inr (Or.inr hi))
  · cases pre with
    | cons p pr => simp
    | nil =>
      simp only [List.nil_append]
      have h := Δ.headEq
      cases ids with
      | nil =>
        cases ids' with
        | nil => rfl
        | cons a l => simp at h
      | cons a l =>
        cases ids' with
        | nil => simp at h
        | cons b m => simpa using h
  · intro i hnot hfresh
    apply Δ.offEq
    · intro hin
      exact hnot (by simp [List.mem_append, hin])
    · exact hfresh
  · intro x hnd hbound hlink
    rw [List.append_assoc, linkChain_append] at hlink
    obtain ⟨hpre, hmidpost⟩ := hlink
    rw [linkChain_append] at hmidpost
    obtain ⟨hmid, hpost⟩ := hmidpost
    rw [List.append_assoc] at hnd
    rw [List.nodup_append] at hnd
    obtain ⟨hnd_pre, hnd_mp, hdisj_pre⟩ := hnd
    rw [List.nodup_append] at hnd_mp
    obtain ⟨hnd_ids, hnd_post, hdisj_mp⟩ := hnd_mp
    have hb_ids : ∀ i ∈ ids, i < σ.fresh := fun i hi =>
      hbound i (by simp [List.mem_append, hi])
    have hmid' := Δ.linkPres (hd0 post x) hnd_ids hb_ids hmid
    have hpre' : linkChain σ' (hd0 (ids ++ post) x) pre := by
      refine linkChain_congr pre (fun a ha => Δ.offEq a ?_ ?_) hpre
      · intro hin
        exact hdisj_pre ha (by simp [List.mem_append, hin])
      · exact hbound a (by simp [List.mem_append, ha])
    have hpost' : linkChain σ' x post := by
      refine linkChain_congr post (fun a ha => Δ.offEq a ?_ ?_) hpost
      · intro hin
        exact hdisj_mp hin ha
      · exact hbound a (by simp [List.mem_append, ha])
    rw [List.append_assoc, linkChain_append]
    refine ⟨?_, ?_⟩
    · rw [hhd x]
      exact hpre'
    · rw [linkChain_append]
      exact ⟨hmid', hpost'⟩
  · intro hdom hids
    exact Δ.domPres hdom
      (fun i hi => hids i (by simp [List.mem_append, hi]))
  · intro hnd hbound
    rw [List.append_assoc, List.nodup_append] at hnd
    obtain ⟨hp, hmp, hdisj⟩ := hnd
    rw [List.nodup_append] at hmp
    obtain ⟨hids, hpost, hdisj2⟩ := hmp
    have hids' := Δ.nodupPres hids
      (fun i hi => hbound i (by simp [List.mem_append, hi]))
    rw [List.append_assoc, List.nodup_append]
    refine ⟨hp, ?_, ?_⟩
    · rw [List.nodup_append]
      refine ⟨hids', hpost, ?_⟩
      intro a ha hpost_a
      rcases Δ.idsSub a ha with hc | hc
      · exact hdisj2 hc hpost_a
      · have := hbound a (by simp [List.mem_append, hpost_a])
        omega
    · intro a ha hmem
      rcases List.mem_append.1 hmem with hm2 | hm2
      · rcases Δ.idsSub a hm2 with hc | hc
        · exact hdisj ha (by simp [List.mem_append, hc])
        · have := hbound a (by simp [List.mem_append, ha])
          omega
      · exact hdisj ha (by simp [List.mem_append, hm2])



/-! ### The leaf-level `set` -/

/-- Every link entry belongs to an allocated id. -/
def linksDom (σ : Chain) : Prop := ∀ p ∈ σ.links, p.1 < σ.fresh

theorem linkLookup_ge {i f : Nat} :
    ∀ (L : List (Nat × Option Nat)), (∀ p ∈ L, p.1 < f) → f ≤ i →
    linkLookup L i = none
  | [], _, _ => rfl
  | p :: r, hdom, hge => by
    have hp := hdom p (List.mem_cons_self _ _)
    obtain ⟨j, nx⟩ := p
    have hne : ¬ (j = i) := by
      simp only at hp
      omega
    simp only [linkLookup, if_neg hne]
    exact linkLookup_ge r (fun q hq => hdom q (List.mem_cons_of_mem _ hq)) hge

theorem nextOf_ge_fresh {σ : Chain} (hdom : linksDom σ) {i : Nat}
    (hge : σ.fresh ≤ i) : σ.nextOf i = none :=
  linkLookup_ge σ.links hdom hge

theorem ascB_take {K : Type} [LinearOrder K] {l : List K} (n : Nat)
    (h : ascB l = true) : ascB (l.take n) = true := by
  rw [ascB_iff_pairwise] at h ⊢
  exact h.sublist (List.take_sublist n l)

theorem ascB_drop {K : Type} [LinearOrder K] {l : List K} (n : Nat)
    (h : ascB l = true) : ascB (l.drop n) = true := by
  rw [ascB_iff_pairwise] at h ⊢
  exact h.sublist (List.drop_sublist n l)

theorem head_take_pos {α : Type} (l : List α) (n : Nat) (h : 0 < n) :
    (l.take n).head? = l.head? := by
  cases l with
  | nil => simp
  | cons a r =>
    cases n with
    | zero => exact absurd h (lt_irrefl 0)
    | succ n => simp [List.take_succ_cons]

/-- The chain step of `LeafNode::split`: the new leaf inherits the split
leaf's `next` and becomes its `next`. -/
theorem leafSplit_delta (σ : Chain) (lid : Nat) :
    ChainDelta σ [lid]
      ⟨(σ.fresh, σ.nextOf lid) :: (lid, some σ.fresh) :: σ.links,
       σ.fresh + 1⟩
      [lid, σ.fresh] := by
  refine ⟨Nat.le_succ _, ?_, rfl, ?_, ?_, ?_, ?_⟩
  · intro i hi
    rcases List.mem_cons.1 hi with rfl | hi
    · exact Or.inl (List.mem_cons_self _ _)
    · rcases List.mem_cons.1 hi with rfl | hi
      · exact Or.inr ⟨le_refl _, Nat.lt_succ_self _⟩
      · simp at hi
  · intro i hnot hlt
    have h1 : ¬ (lid = i) := by
      intro h
      exact hnot (h ▸ List.mem_cons_self _ _)
    have h2 : ¬ (σ.fresh = i) := by omega
    simp [Chain.nextOf, linkLookup, h1, h2]
  · intro x hnd hbound hlink
    have hlid : lid < σ.fresh := hbound lid (List.mem_cons_self _ _)
    have hne : ¬ (σ.fresh = lid) := by omega
    refine ⟨?_, ?_⟩
    · show linkLookup _ lid = some σ.fresh
      simp [linkLookup, hne]
    · show linkLookup _ σ.fresh = x
      simp only [linkLookup, if_pos rfl]
      exact hlink
  · intro hdom hids p hp
    rcases List.mem_cons.1 hp with rfl | hp
    · exact Nat.lt_succ_self _
    · rcases List.mem_cons.1 hp with rfl | hp
      · exact Nat.lt_succ_of_lt (hids lid (List.mem_cons_self _ _))
      · exact Nat.lt_succ_of_lt (hdom p hp)
  · intro hnd hbound
    have hlid := hbound lid (List.mem_cons_self _ _)
    simp only [List.nodup_cons, List.mem_singleton, List.mem_cons,
      List.not_mem_nil, or_false, List.nodup_nil, and_true]
    constructor
    · omega
    · simp

/-- What a successful node-level `set` guarantees: an unsplit result keeps
the node invariant and upserts the entries in place; a split result is a
pair of invariant halves around the promoted key, which lies strictly
inside the node's key range. -/
def setOutOk {K V : Type} [LinearOrder K] (mx : Nat) (isRoot : Bool)
    (req hi : Option K) (k : K) (v : V) (σ : Chain) (t : BtreeNode K V) :
    Chain × BtreeNode K V × Option (K × BtreeNode K V) → Prop
  | (σ', t', none) =>
    nodeInv mx isRoot req hi t' = true ∧
    entriesN t' = upsertE k v (entriesN t) ∧
    ChainDelta σ (lidsN t) σ' (lidsN t')
  | (σ', t', some (sk, nt)) =>
    nodeInv mx false req (some sk) t' = true ∧
    nodeInv mx false (some sk) hi nt = true ∧
    entriesN t' ++ entriesN nt = upsertE k v (entriesN t) ∧
    (∀ s, req = some s → s < sk) ∧ ltHi hi sk = true ∧
    ChainDelta σ (lidsN t) σ' (lidsN t' ++ lidsN nt)

/-- `LeafNode::set` succeeds on an invariant leaf with an in-range key and
meets the `set` contract. -/
theorem leafSet_ok {K V : Type} [LinearOrder K] {mx : Nat} {isRoot : Bool}
    {req hi : Option K} {k : K} (v : V) (σ : Chain) (ln : LeafNode K V)
    (hinv : nodeInv mx isRoot req hi (.leaf ln) = true)
    (hlo : leLo req k = true) (hhik : ltHi hi k = true) (hmx : 1 ≤ mx) :
    ∃ out, BtreeNode.set σ (.leaf ln) k v = some out ∧
      setOutOk mx isRoot req hi k v σ (.leaf ln) out := by
  have hinv0 := hinv
  simp only [nodeInv, Bool.and_eq_true, decide_eq_true_eq] at hinv0
  obtain ⟨⟨⟨⟨⟨⟨h1, h2⟩, h3⟩, h4⟩, h5⟩, h6⟩, h7⟩ := hinv0
  have hp : ln.keys.Pairwise (· < ·) := (ascB_iff_pairwise _).1 h3
  cases hr : rustBsearch ln.keys k with
  | found i =>
    have hk : ln.keys.get? i = some k := rustBsearch_found_get hr
    have hilt : i < ln.keys.length := (List.get?_eq_some.1 hk).1
    have hvlt : i < ln.vals.length := by omega
    have hvset : vSet ln.vals i v = some (ln.vals.set i v) := by
      simp [vSet, hvlt]
    have hnosp : ¬ (ln.keys.length > ln.max_key_count) := by omega
    have hset : ln.set σ k v =
        some (σ, { ln with vals := ln.vals.set i v }, none) := by
      simp [LeafNode.set, hr, hvset, LeafNode.need_split, hnosp]
    refine ⟨(σ, .leaf { ln with vals := ln.vals.set i v }, none), ?_, ?_, ?_, ?_⟩
    · simp [BtreeNode.set, hset]
    · simp only [nodeInv, Bool.and_eq_true, decide_eq_true_eq]
      exact ⟨⟨⟨⟨⟨⟨h1, by simpa [List.length_set] using h2⟩, h3⟩, h4⟩, h5⟩,
        h6⟩, h7⟩
    · obtain ⟨w, hw⟩ : ∃ w, ln.vals.get? i = some w :=
        ⟨_, List.get?_eq_get hvlt⟩
      have hz : (ln.keys.zip ln.vals).get? i = some (k, w) :=
        zip_get_both _ _ i k w hk hw
      have hpre : ∀ p ∈ (ln.keys.zip ln.vals).take i, p.1 < k := by
        intro p hp2
        obtain ⟨j, hj, hg⟩ := mem_take_get _ i p hp2
        exact pairwise_get_lt hp hj (zip_get_parts _ _ j p hg).1 hk
      show ln.keys.zip (ln.vals.set i v) = upsertE k v (ln.keys.zip ln.vals)
      rw [zip_set_right v i ln.keys ln.vals k hk]
      exact set_eq_upsertE v hz hpre
    · exact chainDelta_refl σ _
  | missing i =>
    have spec := rustBsearch_spec (l := ln.keys) (k := k) hp
    rw [hr] at spec
    have hil : i ≤ ln.keys.length := spec.1
    have hins1 : vInsert ln.keys i k = some (ln.keys.insertIdx i k) := by
      simp [vInsert, hil]
    have hins2 : vInsert ln.vals i v = some (ln.vals.insertIdx i v) := by
      simp only [vInsert, if_pos (by omega : i ≤ ln.vals.length)]
    have hlen1 : (ln.keys.insertIdx i k).length = ln.keys.length + 1 :=
      List.length_insertIdx i ln.keys hil
    have hlen2 : (ln.vals.insertIdx i v).length = ln.vals.length + 1 :=
      List.length_insertIdx i ln.vals (by omega)
    have hasc2 : ascB (ln.keys.insertIdx i k) = true :=
      ascB_insertIdx h3 hil spec.2.1 spec.2.2
    have hminr : minReq req (ln.keys.insertIdx i k) = true := by
      cases req with
      | none => rfl
      | some s =>
        have hh : ln.keys.head? = some s := by simpa [minReq] using h6
        have hsk : s ≤ k := by simpa [leLo] using hlo
        have hipos : 0 < i := by
          rcases Nat.eq_zero_or_pos i with h0 | h0
          · subst h0
            have hget0 : ln.keys.get? 0 = some s := by
              cases hks : ln.keys with
              | nil => simp [hks] at hh
              | cons a r =>
                rw [hks] at hh
                simpa using hh
            have := spec.2.2 0 s (Nat.zero_le _) hget0
            exact absurd this (not_lt.2 hsk)
          · exact h0
        simp only [minReq]
        rw [head_insertIdx_pos k ln.keys i hipos hil]
        simpa [minReq] using h6
    have hall2 : (ln.keys.insertIdx i k).all (ltHi hi) = true := by
      rw [List.all_eq_true]
      intro x hx
      rcases (List.mem_insertIdx hil).1 hx with rfl | hx
      · exact hhik
      · exact List.all_eq_true.1 h7 x hx
    have hents : (ln.keys.insertIdx i k).zip (ln.vals.insertIdx i v) =
        upsertE k v (ln.keys.zip ln.vals) := by
      rw [zip_insertIdx k v i ln.keys ln.vals h2.symm hil]
      apply insertIdx_eq_upsertE
      · rw [List.length_zip]
        omega
      · intro j p hj hg
        exact spec.2.1 j p.1 hj (zip_get_parts _ _ j p hg).1
      · intro j p hj hg
        exact spec.2.2 j p.1 hj (zip_get_parts _ _ j p hg).1
    by_cases hfull : ln.keys.length + 1 > mx
    · -- the leaf overflows and splits
      have hLmx : ln.keys.length = mx := by omega
      have hs0pos : 1 ≤ innerSplitAt mx := by
        simp only [innerSplitAt]
        omega
      have hs0le : innerSplitAt mx ≤ mx := by
        simp only [innerSplitAt]
        omega
      have hsplit_at :
          (⟨ln.lid, ln.keys.insertIdx i k, ln.vals.insertIdx i v,
            ln.max_key_count⟩ : LeafNode K V).split_at = innerSplitAt mx := by
        simp [LeafNode.split_at, h1, innerSplitAt]
      obtain ⟨sk, hsk⟩ :
          ∃ sk, (ln.keys.insertIdx i k).get? (innerSplitAt mx) = some sk :=
        ⟨_, List.get?_eq_get (by omega)⟩
      have hnsp :
          (⟨ln.lid, ln.keys.insertIdx i k, ln.vals.insertIdx i v,
            ln.max_key_count⟩ : LeafNode K V).need_split = true := by
        simp only [LeafNode.need_split, decide_eq_true_eq]
        show ln.max_key_count < (ln.keys.insertIdx i k).length
        rw [hlen1]
        omega
      have hs0v : innerSplitAt mx ≤ (ln.vals.insertIdx i v).length := by
        omega
      have hnewSp : LeafNode.split σ
          (⟨ln.lid, ln.keys.insertIdx i k, ln.vals.insertIdx i v,
            ln.max_key_count⟩ : LeafNode K V) (innerSplitAt mx) =
          some (⟨(σ.fresh, σ.nextOf ln.lid) :: (ln.lid, some σ.fresh) ::
              σ.links, σ.fresh + 1⟩,
            ⟨ln.lid, (ln.keys.insertIdx i k).take (innerSplitAt mx),
              (ln.vals.insertIdx i v).take (innerSplitAt mx),
              ln.max_key_count⟩,
            sk,
            ⟨σ.fresh, (ln.keys.insertIdx i k).drop (innerSplitAt mx),
              (ln.vals.insertIdx i v).drop (innerSplitAt mx),
              ln.max_key_count⟩) := by
        have hsk2 : (ln.keys.insertIdx i k)[innerSplitAt mx]? = some sk := by
          rw [← List.get?_eq_getElem?]
          exact hsk
        simp [LeafNode.split, vGet, hsk, hsk2, hs0v, Chain.nextOf]
      have hset : ln.set σ k v =
          some (⟨(σ.fresh, σ.nextOf ln.lid) :: (ln.lid, some σ.fresh) ::
              σ.links, σ.fresh + 1⟩,
            ⟨ln.lid, (ln.keys.insertIdx i k).take (innerSplitAt mx),
              (ln.vals.insertIdx i v).take (innerSplitAt mx),
              ln.max_key_count⟩,
            some (sk,
              ⟨σ.fresh, (ln.keys.insertIdx i k).drop (innerSplitAt mx),
                (ln.vals.insertIdx i v).drop (innerSplitAt mx),
                ln.max_key_count⟩)) := by
        simp only [LeafNode.set, hr, hins1, hins2]
        rw [if_pos hnsp, hsplit_at, hnewSp]
      have hpair2 : (ln.keys.insertIdx i k).Pairwise (· < ·) :=
        (ascB_iff_pairwise _).1 hasc2
      have hheads : ∀ s, req = some s →
          (ln.keys.insertIdx i k).head? = some s := by
        intro s hs
        subst hs
        simpa [minReq] using hminr
      refine ⟨(⟨(σ.fresh, σ.nextOf ln.lid) :: (ln.lid, some σ.fresh) ::
            σ.links, σ.fresh + 1⟩,
          .leaf ⟨ln.lid, (ln.keys.insertIdx i k).take (innerSplitAt mx),
            (ln.vals.insertIdx i v).take (innerSplitAt mx),
            ln.max_key_count⟩,
          some (sk,
            .leaf ⟨σ.fresh, (ln.keys.insertIdx i k).drop (innerSplitAt mx),
              (ln.vals.insertIdx i v).drop (innerSplitAt mx),
              ln.max_key_count⟩)),
        by simp [BtreeNode.set, hset], ?_, ?_, ?_, ?_, ?_, ?_⟩
      · -- left half invariant, bounded above by the promoted key
        simp only [nodeInv, Bool.and_eq_true, decide_eq_true_eq]
        refine ⟨⟨⟨⟨⟨⟨h1, ?_⟩, ascB_take _ hasc2⟩, ?_⟩, ?_⟩, ?_⟩, ?_⟩
        · simp only [List.length_take]
          omega
        · simp only [List.length_take]
          omega
        · simp only [Bool.or_eq_true, decide_eq_true_eq, List.length_take]
          right
          omega
        · cases req with
          | none => rfl
          | some s =>
            simp only [minReq, decide_eq_true_eq]
            rw [head_take_pos _ _ hs0pos]
            exact hheads s rfl
        · rw [List.all_eq_true]
          intro x hx
          obtain ⟨j, hj, hg⟩ := mem_take_get _ (innerSplitAt mx) x hx
          simp only [ltHi, decide_eq_true_eq]
          exact pairwise_get_lt hpair2 hj hg hsk
      · -- right half invariant: keys start at the promoted key
        simp only [nodeInv, Bool.and_eq_true, decide_eq_true_eq]
        refine ⟨⟨⟨⟨⟨⟨h1, ?_⟩, ascB_drop _ hasc2⟩, ?_⟩, ?_⟩, ?_⟩, ?_⟩
        · simp only [List.length_drop]
          omega
        · simp only [List.length_drop]
          omega
        · simp only [Bool.or_eq_true, decide_eq_true_eq, List.length_drop]
          right
          rw [hlen1, hLmx]
          simp only [innerSplitAt]
          omega
        · simp only [minReq, decide_eq_true_eq, List.head?_drop]
          rw [← List.get?_eq_getElem?]
          exact hsk
        · rw [List.all_eq_true]
          intro x hx
          obtain ⟨j, hj, hg⟩ := mem_drop_get _ (innerSplitAt mx) x hx
          rcases (List.mem_insertIdx hil).1 (List.get?_mem hg) with rfl | hx2
          · exact hhik
          · exact List.all_eq_true.1 h7 x hx2
      · -- the two halves concatenate to the upserted entries
        show ((ln.keys.insertIdx i k).take (innerSplitAt mx)).zip
            ((ln.vals.insertIdx i v).take (innerSplitAt mx)) ++
          ((ln.keys.insertIdx i k).drop (innerSplitAt mx)).zip
            ((ln.vals.insertIdx i v).drop (innerSplitAt mx)) =
          upsertE k v (ln.keys.zip ln.vals)
        rw [zip_take_take, zip_drop_drop (innerSplitAt mx) _ _ (by omega),
          List.take_append_drop, hents]
      · intro s hs
        have hh2 := hheads s hs
        have h0 : (ln.keys.insertIdx i k).get? 0 = some s := by
          cases hks2 : ln.keys.insertIdx i k with
          | nil => simp [hks2] at hh2
          | cons a r =>
            rw [hks2] at hh2
            simpa using hh2
        exact pairwise_get_lt hpair2 (by omega) h0 hsk
      · have hmem : sk ∈ ln.keys.insertIdx i k := List.get?_mem hsk
        rcases (List.mem_insertIdx hil).1 hmem with rfl | hx2
        · exact hhik
        · exact List.all_eq_true.1 h7 sk hx2
      · show ChainDelta σ [ln.lid] _ [ln.lid, σ.fresh]
        exact leafSplit_delta σ ln.lid
    · -- no split
      have hnsp :
          ¬ ((⟨ln.lid, ln.keys.insertIdx i k, ln.vals.insertIdx i v,
            ln.max_key_count⟩ : LeafNode K V).need_split = true) := by
        simp only [LeafNode.need_split, decide_eq_true_eq]
        show ¬ (ln.max_key_count < (ln.keys.insertIdx i k).length)
        rw [hlen1]
        omega
      have hset : ln.set σ k v =
          some (σ, ⟨ln.lid, ln.keys.insertIdx i k, ln.vals.insertIdx i v,
            ln.max_key_count⟩, none) := by
        simp only [LeafNode.set, hr, hins1, hins2]
        rw [if_neg hnsp]
      refine ⟨(σ, .leaf ⟨ln.lid, ln.keys.insertIdx i k,
          ln.vals.insertIdx i v, ln.max_key_count⟩, none),
        by simp [BtreeNode.set, hset], ?_, ?_, ?_⟩
      · simp only [nodeInv, Bool.and_eq_true, decide_eq_true_eq]
        refine ⟨⟨⟨⟨⟨⟨h1, by omega⟩, hasc2⟩, by omega⟩, ?_⟩, hminr⟩, hall2⟩
        rcases Bool.or_eq_true_iff.1 h5 with h | h
        · simp [h]
        · simp only [Bool.or_eq_true, decide_eq_true_eq] at h ⊢
          right
          rw [hlen1]
          omega
      · exact hents
      · exact chainDelta_refl σ _



/-! ### Splitting an overfull inner node -/

theorem entriesL_take_drop {K V : Type} (cs : List (BtreeNode K V))
    (n : Nat) : entriesL (cs.take n) ++ entriesL (cs.drop n) = entriesL cs := by
  rw [← entriesL_append, List.take_append_drop]

theorem lidsL_take_drop {K V : Type} (cs : List (BtreeNode K V))
    (n : Nat) : lidsL (cs.take n) ++ lidsL (cs.drop n) = lidsL cs := by
  rw [← lidsL_append, List.take_append_drop]

/-- Splitting an overfull inner node (key count `mx + 1`) at
`innerSplitAt mx` yields two invariant halves around the promoted key,
which stays as `keys[0]` of the right half while the sentinel takes its
child slot 0. -/
theorem innerSplit_ok {K V : Type} [LinearOrder K] {mx : Nat}
    {req hi : Option K} {ks : List K} {cs : List (BtreeNode K V)}
    (hmx : 1 ≤ mx) (hlen : ks.length = mx + 1) (hasc : ascB ks = true)
    (hminr : minReq req ks = true) (hall : ks.all (ltHi hi) = true)
    (hmatch : (match req, cs with
      | none, c :: rest =>
        nodeInv mx false none (headOr ks hi) c && childrenInv mx hi ks rest
      | some _, .placehold :: rest => childrenInv mx hi ks rest
      | _, _ => false) = true) :
    ∃ sk, ks.get? (innerSplitAt mx) = some sk ∧
      innerSplitAt mx + 1 ≤ cs.length ∧
      nodeInv mx false req (some sk)
        (.inner (ks.take (innerSplitAt mx))
          (cs.take (innerSplitAt mx + 1)) mx : BtreeNode K V) = true ∧
      nodeInv mx false (some sk) hi
        (.inner (ks.drop (innerSplitAt mx))
          (.placehold :: cs.drop (innerSplitAt mx + 1)) mx :
          BtreeNode K V) = true ∧
      entriesL (cs.take (innerSplitAt mx + 1)) ++
        entriesL (cs.drop (innerSplitAt mx + 1)) = entriesL cs ∧
      (∀ s0, req = some s0 → s0 < sk) ∧ ltHi hi sk = true := by
  have hs0pos : 1 ≤ innerSplitAt mx := by
    simp only [innerSplitAt]
    omega
  have hs0le : innerSplitAt mx ≤ mx := by
    simp only [innerSplitAt]
    omega
  obtain ⟨sk, hsk⟩ : ∃ sk, ks.get? (innerSplitAt mx) = some sk :=
    ⟨_, List.get?_eq_get (by omega)⟩
  have hpair : ks.Pairwise (· < ·) := (ascB_iff_pairwise _).1 hasc
  have hskhi : ltHi hi sk = true :=
    List.all_eq_true.1 hall sk (List.get?_mem hsk)
  have htake_all : (ks.take (innerSplitAt mx)).all (ltHi (some sk)) = true := by
    rw [List.all_eq_true]
    intro x hx
    obtain ⟨j, hj, hg⟩ := mem_take_get _ _ x hx
    simp only [ltHi, decide_eq_true_eq]
    exact pairwise_get_lt hpair hj hg hsk
  have hdrop_all : (ks.drop (innerSplitAt mx)).all (ltHi hi) = true := by
    rw [List.all_eq_true]
    intro x hx
    obtain ⟨j, hj, hg⟩ := mem_drop_get _ _ x hx
    exact List.all_eq_true.1 hall x (List.get?_mem hg)
  have hdrop_head : (ks.drop (innerSplitAt mx)).head? = some sk := by
    rw [List.head?_drop, ← List.get?_eq_getElem?]
    exact hsk
  rcases req with _ | s
  · -- L-type node
    cases cs with
    | nil => simp at hmatch
    | cons c rest =>
      rw [Bool.and_eq_true] at hmatch
      obtain ⟨hc, hcr⟩ := hmatch
      obtain ⟨hL, hR⟩ :=
        childrenInv_split rest ks hi (innerSplitAt mx) sk hcr hsk
      have hrl : rest.length = ks.length := childrenInv_length rest ks hcr
      refine ⟨sk, hsk, ?_, ?_, ?_, ?_, ?_, hskhi⟩
      · simp only [List.length_cons]
        omega
      · simp only [List.take_succ_cons, nodeInv, Bool.and_eq_true,
          decide_eq_true_eq]
        refine ⟨⟨⟨⟨⟨⟨by trivial, ascB_take _ hasc⟩, ?_⟩, ?_⟩, by trivial⟩,
          htake_all⟩, ?_, hL⟩
        · simp only [List.length_take]
          omega
        · simp only [Bool.or_eq_true, decide_eq_true_eq, List.length_take]
          right
          omega
        · rwa [headOr_take hsk hi]
      · simp only [nodeInv, Bool.and_eq_true, decide_eq_true_eq]
        refine ⟨⟨⟨⟨⟨⟨by trivial, ascB_drop _ hasc⟩, ?_⟩, ?_⟩, ?_⟩,
          hdrop_all⟩, ?_⟩
        · simp only [List.length_drop, hlen]
          omega
        · simp only [Bool.or_eq_true, decide_eq_true_eq, List.length_drop,
            hlen]
          right
          simp only [innerSplitAt]
          omega
        · simp only [minReq, decide_eq_true_eq]
          exact hdrop_head
        · simpa using hR
      · simp only [List.take_succ_cons, List.drop_succ_cons, entriesL,
          List.append_assoc]
        rw [entriesL_take_drop]
      · intro s0 h
        cases h
  · -- P-type node
    cases cs with
    | nil => simp at hmatch
    | cons c rest =>
      cases c with
      | inner a b d => simp at hmatch
      | leaf ln => simp at hmatch
      | placehold =>
        have hcr : childrenInv mx hi ks rest = true := hmatch
        obtain ⟨hL, hR⟩ :=
          childrenInv_split rest ks hi (innerSplitAt mx) sk hcr hsk
        have hrl : rest.length = ks.length := childrenInv_length rest ks hcr
        have hhead : ks.head? = some s := by simpa [minReq] using hminr
        have hssk : s < sk := by
          have h0 : ks.get? 0 = some s := by
            cases hks : ks with
            | nil => simp [hks] at hhead
            | cons a r =>
              rw [hks] at hhead
              simpa using hhead
          exact pairwise_get_lt hpair (by omega) h0 hsk
        refine ⟨sk, hsk, ?_, ?_, ?_, ?_, ?_, hskhi⟩
        · simp only [List.length_cons]
          omega
        · simp only [List.take_succ_cons, nodeInv, Bool.and_eq_true,
            decide_eq_true_eq]
          refine ⟨⟨⟨⟨⟨⟨by trivial, ascB_take _ hasc⟩, ?_⟩, ?_⟩, ?_⟩,
            htake_all⟩, hL⟩
          · simp only [List.length_take]
            omega
          · simp only [Bool.or_eq_true, decide_eq_true_eq, List.length_take]
            right
            omega
          · simp only [minReq, decide_eq_true_eq]
            rw [head_take_pos _ _ hs0pos]
            exact hhead
        · simp only [nodeInv, Bool.and_eq_true, decide_eq_true_eq]
          refine ⟨⟨⟨⟨⟨⟨by trivial, ascB_drop _ hasc⟩, ?_⟩, ?_⟩, ?_⟩,
            hdrop_all⟩, ?_⟩
          · simp only [List.length_drop, hlen]
            omega
          · simp only [Bool.or_eq_true, decide_eq_true_eq, List.length_drop,
              hlen]
            right
            simp only [innerSplitAt]
            omega
          · simp only [minReq, decide_eq_true_eq]
            exact hdrop_head
          · simpa using hR
        · simp only [List.take_succ_cons, List.drop_succ_cons, entriesL,
            List.append_assoc]
          rw [entriesL_take_drop]
        · intro s0 h
          obtain rfl : s = s0 := by simpa using h
          exact hssk


/-! ### The tail of `InnerNode::set` after the child-split insertion -/

/-- The remainder of `InnerNode::set` once the promoted key and the new
child are inserted: split this node if it is now over-full. -/
def innerFinish {K V : Type} [LinearOrder K] (σ' : Chain) (ks2 : List K)
    (cs2 : List (BtreeNode K V)) (maxk : Nat) :
    Option (Chain × BtreeNode K V × Option (K × BtreeNode K V)) :=
  if decide (ks2.length > maxk) then
    match vGet ks2 (innerSplitAt maxk) with
    | none => none
    | some sk2 =>
      if innerSplitAt maxk + 1 ≤ cs2.length then
        some (σ',
          .inner (ks2.take (innerSplitAt maxk))
            (cs2.take (innerSplitAt maxk + 1)) maxk,
          some (sk2,
            .inner (ks2.drop (innerSplitAt maxk))
              (.placehold :: cs2.drop (innerSplitAt maxk + 1)) maxk))
      else none
  else some (σ', .inner ks2 cs2 maxk, none)

/-- The post-insertion node meets the `set` contract through
`innerFinish`: unsplit if it fits, otherwise split into two invariant
halves. -/
theorem innerFinish_ok {K V : Type} [LinearOrder K] {mx : Nat}
    {isRoot : Bool} {req hi : Option K} {k : K} {v : V} {σ σ' : Chain}
    (told : BtreeNode K V) (ks2 : List K) (cs2 : List (BtreeNode K V))
    (hmx : 1 ≤ mx)
    (hlen : ks2.length ≤ mx + 1)
    (hasc : ascB ks2 = true)
    (hminr : minReq req ks2 = true)
    (hall : ks2.all (ltHi hi) = true)
    (h5n : (isRoot || decide (innerSplitAt mx ≤ ks2.length)) = true)
    (hmatch : (match req, cs2 with
      | none, c :: rest =>
        nodeInv mx false none (headOr ks2 hi) c && childrenInv mx hi ks2 rest
      | some _, .placehold :: rest => childrenInv mx hi ks2 rest
      | _, _ => false) = true)
    (hents : entriesL cs2 = upsertE k v (entriesN told))
    (hdelta : ChainDelta σ (lidsN told) σ' (lidsL cs2)) :
    ∃ out, innerFinish σ' ks2 cs2 mx = some out ∧
      setOutOk mx isRoot req hi k v σ told out := by
  by_cases hfull : ks2.length > mx
  · have hlen1 : ks2.length = mx + 1 := by omega
    obtain ⟨sk2, hsk2, hcs2, hinvL, hinvR, hsplitE, hreqb, hskhi⟩ :=
      innerSplit_ok hmx hlen1 hasc hminr hall hmatch
    refine ⟨(σ',
        .inner (ks2.take (innerSplitAt mx))
          (cs2.take (innerSplitAt mx + 1)) mx,
        some (sk2,
          .inner (ks2.drop (innerSplitAt mx))
            (.placehold :: cs2.drop (innerSplitAt mx + 1)) mx)), ?_,
      hinvL, hinvR, ?_, hreqb, hskhi, ?_⟩
    · have hdec : decide (ks2.length > mx) = true := by simpa using hfull
      unfold innerFinish
      rw [if_pos hdec]
      simp only [vGet, hsk2]
      rw [if_pos hcs2]
    · show entriesL (cs2.take (innerSplitAt mx + 1)) ++
        entriesL (BtreeNode.placehold :: cs2.drop (innerSplitAt mx + 1)) =
        upsertE k v (entriesN told)
      rw [show entriesL (BtreeNode.placehold ::
          cs2.drop (innerSplitAt mx + 1) : List (BtreeNode K V)) =
        entriesL (cs2.drop (innerSplitAt mx + 1)) from by simp [entriesL, entriesN]]
      rw [hsplitE, hents]
    · show ChainDelta σ (lidsN told) σ'
        (lidsL (cs2.take (innerSplitAt mx + 1)) ++
          lidsL (BtreeNode.placehold :: cs2.drop (innerSplitAt mx + 1)))
      rw [show lidsL (BtreeNode.placehold ::
          cs2.drop (innerSplitAt mx + 1) : List (BtreeNode K V)) =
        lidsL (cs2.drop (innerSplitAt mx + 1)) from by simp [lidsL, lidsN]]
      rw [lidsL_take_drop]
      exact hdelta
  · refine ⟨(σ', .inner ks2 cs2 mx, none), ?_, ?_, hents, hdelta⟩
    · have hdec : ¬ (decide (ks2.length > mx) = true) := fun h =>
        hfull (of_decide_eq_true h)
      unfold innerFinish
      rw [if_neg hdec]
    · rcases req with _ | s
      · cases cs2 with
        | nil => simp at hmatch
        | cons c rest =>
          have hm2 : (nodeInv mx false none (headOr ks2 hi) c &&
              childrenInv mx hi ks2 rest) = true := hmatch
          simp only [nodeInv, Bool.and_eq_true, decide_eq_true_eq]
          rw [Bool.and_eq_true] at hm2
          exact ⟨⟨⟨⟨⟨⟨by trivial, hasc⟩, by omega⟩, h5n⟩, hminr⟩, hall⟩, hm2⟩
      · cases cs2 with
        | nil => simp at hmatch
        | cons c rest =>
          cases c with
          | inner a b d => simp at hmatch
          | leaf ln => simp at hmatch
          | placehold =>
            simp only [nodeInv, Bool.and_eq_true, decide_eq_true_eq]
            exact ⟨⟨⟨⟨⟨⟨by trivial, hasc⟩, by omega⟩, h5n⟩, hminr⟩, hall⟩,
              hmatch⟩



/-! ### `set` preserves the invariant and upserts the entries -/

theorem chainDelta_cast {σ σ' : Chain} {a b a' b' : List Nat}
    (h : ChainDelta σ a σ' b) (ha : a = a') (hb : b = b') :
    ChainDelta σ a' σ' b' := ha ▸ hb ▸ h

mutual

/-- On an invariant subtree and an in-range key, `set` never panics and
meets the `set` contract (`setOutOk`). -/
theorem set_ok {K V : Type} [LinearOrder K] {mx : Nat} :
    ∀ (t : BtreeNode K V) (isRoot : Bool) (req hi : Option K) (k : K)
      (v : V) (σ : Chain),
    nodeInv mx isRoot req hi t = true →
    leLo req k = true → ltHi hi k = true → 1 ≤ mx →
    ∃ out, BtreeNode.set σ t k v = some out ∧
      setOutOk mx isRoot req hi k v σ t out
  | .placehold, isRoot, req, hi, k, v, σ, h, _, _, _ => by
    simp [nodeInv] at h
  | .leaf ln, isRoot, req, hi, k, v, σ, h, hlo, hhik, hmx =>
    leafSet_ok v σ ln h hlo hhik hmx
  | .inner ks [] mk, isRoot, none, hi, k, v, σ, h, _, _, _ => by
    simp [nodeInv] at h
  | .inner ks [] mk, isRoot, some s, hi, k, v, σ, h, _, _, _ => by
    simp [nodeInv] at h
  | .inner ks (.inner a b d :: rest) mk, isRoot, some s, hi, k, v, σ, h,
      _, _, _ => by simp [nodeInv] at h
  | .inner ks (.leaf ln :: rest) mk, isRoot, some s, hi, k, v, σ, h,
      _, _, _ => by simp [nodeInv] at h
  | .inner ks (c :: rest) mk, isRoot, none, hi, k, v, σ, h, hlo, hhik,
      hmx => by
    simp only [nodeInv, Bool.and_eq_true, decide_eq_true_eq] at h
    obtain ⟨⟨⟨⟨⟨⟨h1, h2⟩, h3⟩, h4⟩, h5⟩, h6⟩, h7, h8⟩ := h
    have h1s : mx = mk := h1.symm
    subst h1s
    have hsk : ks.Pairwise (· < ·) := (ascB_iff_pairwise _).1 h2
    have hroute : routeIndex (rustBsearch ks k) = routeCount k ks :=
      routeIndex_rustBsearch hsk
    cases ks with
    | nil =>
      have hr : rest = [] :=
        List.length_eq_zero.1 (childrenInv_length rest [] h8)
      subst hr
      obtain ⟨⟨σ', c', sp⟩, hsetc, hout⟩ :=
        set_ok c false none (headOr ([] : List K) hi) k v σ h7 rfl hhik hmx
      have hsetAt : BtreeNode.setAt σ [c] (routeCount k ([] : List K)) k v =
          some (σ', [c'], sp) := by
        simp only [routeCount, BtreeNode.setAt, hsetc]
      cases sp with
      | none =>
        obtain ⟨hinv', hents', hdelta'⟩ := hout
        refine ⟨(σ', .inner [] [c'] mx, none), ?_, ?_, ?_, ?_⟩
        · simp only [BtreeNode.set, hroute, hsetAt]
        · simp only [nodeInv, Bool.and_eq_true, decide_eq_true_eq]
          exact ⟨⟨⟨⟨⟨⟨by trivial, by trivial⟩, by simp⟩, h4⟩, by trivial⟩,
            by trivial⟩, hinv', by trivial⟩
        · show entriesN c' ++ entriesL ([] : List (BtreeNode K V)) =
            upsertE k v (entriesN c ++ entriesL ([] : List (BtreeNode K V)))
          simp only [entriesL, List.append_nil]
          exact hents'
        · refine chainDelta_cast hdelta' ?_ ?_ <;> simp [lidsL, lidsN]
      | some pr =>
        obtain ⟨sk, nn⟩ := pr
        obtain ⟨hinvL, hinvR, hents', hreqb, hskhi, hdelta'⟩ := hout
        have hlenA : ([sk] : List K).length ≤ mx + 1 := by
          simp only [List.length_cons, List.length_nil]
          omega
        have hascA : ascB [sk] = true := rfl
        have hminrA : minReq (none : Option K) [sk] = true := rfl
        have hallA : ([sk] : List K).all (ltHi hi) = true := by
          simp only [List.all_cons, List.all_nil, Bool.and_true]
          exact hskhi
        have h5nA : (isRoot ||
            decide (innerSplitAt mx ≤ ([sk] : List K).length)) = true := by
          rcases Bool.or_eq_true_iff.1 h4 with hr | hr
          · rw [Bool.or_eq_true]
            exact Or.inl hr
          · exfalso
            have h0 := of_decide_eq_true hr
            simp only [List.length_nil] at h0
            have h1p : 1 ≤ innerSplitAt mx := by
              simp only [innerSplitAt]
              omega
            omega
        have hmatchA : (nodeInv mx false none (headOr [sk] hi) c' &&
            childrenInv mx hi [sk] [nn]) = true := by
          rw [Bool.and_eq_true]
          refine ⟨hinvL, ?_⟩
          show (nodeInv mx false (some sk) (headOr ([] : List K) hi) nn &&
            childrenInv mx hi ([] : List K)
              ([] : List (BtreeNode K V))) = true
          rw [Bool.and_eq_true]
          exact ⟨hinvR, rfl⟩
        have hentsA : entriesL ([c', nn] : List (BtreeNode K V)) =
            upsertE k v (entriesN (.inner ([] : List K) [c] mx :
              BtreeNode K V)) := by
          show entriesN c' ++ (entriesN nn ++
              entriesL ([] : List (BtreeNode K V))) =
            upsertE k v (entriesN c ++ entriesL ([] : List (BtreeNode K V)))
          simp only [entriesL, List.append_nil]
          exact hents'
        have hdeltaA : ChainDelta σ
            (lidsN (.inner ([] : List K) [c] mx : BtreeNode K V)) σ'
            (lidsL ([c', nn] : List (BtreeNode K V))) := by
          refine chainDelta_cast hdelta' ?_ ?_ <;> simp [lidsL, lidsN]
        obtain ⟨out, hfineq, hok⟩ := innerFinish_ok
          (.inner ([] : List K) [c] mx) [sk] [c', nn] hmx hlenA hascA
          hminrA hallA h5nA hmatchA hentsA hdeltaA
        have hbs : rustBsearch ([] : List K) sk = .missing 0 :=
          rustBsearch_missing_of_bounds List.Pairwise.nil (by simp)
            (fun j x hj hx => by simp at hx)
            (fun j x hj hx => by simp at hx)
        have hvi1 : vInsert ([] : List K) 0 sk = some [sk] := rfl
        have hvi2 : vInsert ([c'] : List (BtreeNode K V)) (0 + 1) nn =
            some [c', nn] := rfl
        have hprog : BtreeNode.set σ
            (.inner ([] : List K) [c] mx : BtreeNode K V) k v =
            innerFinish σ' [sk] [c', nn] mx := by
          simp only [BtreeNode.set, hroute, hsetAt, hbs, hvi1, hvi2]
          rfl
        exact ⟨out, by rw [hprog, hfineq], hok⟩
    | cons k1 ks2 =>
      by_cases hk1 : k1 ≤ k
      · -- descend right of the first separator
        obtain ⟨⟨σ', rest', sp⟩, hsetr0, hout⟩ :=
          childrenInv_setAt rest (k1 :: ks2) hi k v σ h8 hsk h6
            (List.cons_ne_nil _ _)
            (fun s hs => by
              obtain rfl : k1 = s := by simpa using hs
              exact hk1)
            hhik hmx
        have hsetr : BtreeNode.setAt σ rest (routeCount k ks2) k v =
            some (σ', rest', sp) := hsetr0
        have hrc : routeCount k (k1 :: ks2) = routeCount k ks2 + 1 := by
          simp [routeCount, hk1]
        have hsetAt : BtreeNode.setAt σ (c :: rest)
            (routeCount k (k1 :: ks2)) k v = some (σ', c :: rest', sp) := by
          rw [hrc]
          simp only [BtreeNode.setAt, hsetr]
        have hc_lt : ∀ p ∈ entriesN c, p.1 < k := by
          intro p hp
          obtain ⟨Na, Nb, Nc2, Nd⟩ :=
            nodeInv_keys c false none (headOr (k1 :: ks2) hi) h7
          have hx : p.1 ∈ keysN c := List.mem_map_of_mem Prod.fst hp
          have hlt : p.1 < k1 := by simpa [ltHi, headOr] using Nb p.1 hx
          exact lt_of_lt_of_le hlt hk1
        cases sp with
        | none =>
          obtain ⟨hinv0, hents0, hdelta0⟩ := hout
          have hents' : entriesL rest' = upsertE k v (entriesL rest) :=
            hents0
          have hdelta' : ChainDelta σ (lidsL rest) σ' (lidsL rest') :=
            hdelta0
          refine ⟨(σ', .inner (k1 :: ks2) (c :: rest') mx, none), ?_, ?_,
            ?_, ?_⟩
          · simp only [BtreeNode.set, hroute, hsetAt]
          · simp only [nodeInv, Bool.and_eq_true, decide_eq_true_eq]
            exact ⟨⟨⟨⟨⟨⟨by trivial, h2⟩, h3⟩, h4⟩, by trivial⟩, h6⟩, h7,
              hinv0⟩
          · show entriesN c ++ entriesL rest' =
              upsertE k v (entriesN c ++ entriesL rest)
            rw [hents', upsertE_append_lo k v _ _ hc_lt]
          · refine chainDelta_cast (chainDelta_frame hdelta' (lidsN c) [])
              ?_ ?_ <;> simp [lidsL, lidsN]
        | some pr =>
          obtain ⟨sk2, nn⟩ := pr
          obtain ⟨hcinv0, hents0, hdelta0, hlenr0, hplt0, hblo0, hbhi0,
            hskhi⟩ := hout
          have hcinv : childrenInv mx hi
              ((k1 :: ks2).insertIdx (routeCount k ks2 + 1) sk2)
              (rest'.insertIdx (routeCount k ks2 + 1) nn) = true := hcinv0
          have hents' : entriesL (rest'.insertIdx
              (routeCount k ks2 + 1) nn) = upsertE k v (entriesL rest) :=
            hents0
          have hdelta' : ChainDelta σ (lidsL rest) σ'
              (lidsL (rest'.insertIdx (routeCount k ks2 + 1) nn)) := hdelta0
          have hlenr : rest'.length = (k1 :: ks2).length := hlenr0
          have hplt : routeCount k ks2 < (k1 :: ks2).length := hplt0
          have hblo : ∀ j x, j ≤ routeCount k ks2 →
              (k1 :: ks2).get? j = some x → x < sk2 := hblo0
          have hbhi : ∀ j x, routeCount k ks2 + 1 ≤ j →
              (k1 :: ks2).get? j = some x → sk2 < x := hbhi0
          have hblo' : ∀ j x, j < routeCount k ks2 + 1 →
              (k1 :: ks2).get? j = some x → x < sk2 := fun j x hj hx =>
            hblo j x (Nat.lt_succ_iff.1 hj) hx
          have hilen : routeCount k ks2 + 1 ≤ (k1 :: ks2).length := by
            simp only [List.length_cons] at hplt ⊢
            omega
          have hbs : rustBsearch (k1 :: ks2) sk2 =
              .missing (routeCount k ks2 + 1) :=
            rustBsearch_missing_of_bounds hsk hilen hblo' hbhi
          have hvi1 : vInsert (k1 :: ks2) (routeCount k ks2 + 1) sk2 =
              some ((k1 :: ks2).insertIdx (routeCount k ks2 + 1) sk2) := by
            rw [vInsert, if_pos hilen]
          have hvi2 : vInsert (c :: rest') (routeCount k ks2 + 1 + 1) nn =
              some (c :: rest'.insertIdx (routeCount k ks2 + 1) nn) := by
            rw [vInsert, if_pos (by
              simp only [List.length_cons] at hlenr ⊢
              omega)]
            rw [List.insertIdx_succ_cons]
          have hlenB : ((k1 :: ks2).insertIdx (routeCount k ks2 + 1)
              sk2).length ≤ mx + 1 := by
            rw [List.length_insertIdx _ _ hilen]
            simp only [List.length_cons] at h3 ⊢
            omega
          have hascB2 : ascB ((k1 :: ks2).insertIdx
              (routeCount k ks2 + 1) sk2) = true :=
            ascB_insertIdx h2 hilen hblo' hbhi
          have hminrB : minReq (none : Option K)
              ((k1 :: ks2).insertIdx (routeCount k ks2 + 1) sk2) = true :=
            rfl
          have hallB : ((k1 :: ks2).insertIdx (routeCount k ks2 + 1)
              sk2).all (ltHi hi) = true := by
            rw [List.all_eq_true]
            intro x hx
            rcases (List.mem_insertIdx hilen).1 hx with rfl | hx
            · exact hskhi
            · exact List.all_eq_true.1 h6 x hx
          have h5nB : (isRoot || decide (innerSplitAt mx ≤
              ((k1 :: ks2).insertIdx (routeCount k ks2 + 1)
                sk2).length)) = true := by
            rcases Bool.or_eq_true_iff.1 h4 with hr | hr
            · rw [Bool.or_eq_true]
              exact Or.inl hr
            · rw [Bool.or_eq_true]
              right
              rw [decide_eq_true_eq, List.length_insertIdx _ _ hilen]
              have := of_decide_eq_true hr
              omega
          have hmatchB : (nodeInv mx false none
              (headOr ((k1 :: ks2).insertIdx (routeCount k ks2 + 1) sk2)
                hi) c &&
              childrenInv mx hi
                ((k1 :: ks2).insertIdx (routeCount k ks2 + 1) sk2)
                (rest'.insertIdx (routeCount k ks2 + 1) nn)) = true := by
            rw [Bool.and_eq_true]
            constructor
            · rw [show (k1 :: ks2).insertIdx (routeCount k ks2 + 1) sk2 =
                k1 :: ks2.insertIdx (routeCount k ks2) sk2 from
                List.insertIdx_succ_cons _ _ _ _]
              exact h7
            · exact hcinv
          have hentsB : entriesL (c :: rest'.insertIdx
              (routeCount k ks2 + 1) nn) =
              upsertE k v (entriesN (.inner (k1 :: ks2) (c :: rest) mx :
                BtreeNode K V)) := by
            show entriesN c ++ entriesL (rest'.insertIdx
                (routeCount k ks2 + 1) nn) =
              upsertE k v (entriesN c ++ entriesL rest)
            rw [hents', upsertE_append_lo k v _ _ hc_lt]
          have hdeltaB : ChainDelta σ
              (lidsN (.inner (k1 :: ks2) (c :: rest) mx : BtreeNode K V))
              σ' (lidsL (c :: rest'.insertIdx
                (routeCount k ks2 + 1) nn)) := by
            refine chainDelta_cast
              (chainDelta_frame hdelta' (lidsN c) []) ?_ ?_ <;>
              simp [lidsL, lidsN]
          obtain ⟨out, hfineq, hok⟩ := innerFinish_ok
            (.inner (k1 :: ks2) (c :: rest) mx)
            ((k1 :: ks2).insertIdx (routeCount k ks2 + 1) sk2)
            (c :: rest'.insertIdx (routeCount k ks2 + 1) nn)
            hmx hlenB hascB2 hminrB hallB h5nB hmatchB hentsB hdeltaB
          have hprog : BtreeNode.set σ
              (.inner (k1 :: ks2) (c :: rest) mx : BtreeNode K V) k v =
              innerFinish σ'
                ((k1 :: ks2).insertIdx (routeCount k ks2 + 1) sk2)
                (c :: rest'.insertIdx (routeCount k ks2 + 1) nn) mx := by
            simp only [BtreeNode.set, hroute, hsetAt, hbs, hvi1, hvi2]
            rfl
          exact ⟨out, by rw [hprog, hfineq], hok⟩
      · -- descend into child 0
        obtain ⟨⟨σ', c', sp⟩, hsetc, hout⟩ :=
          set_ok c false none (headOr (k1 :: ks2) hi) k v σ h7 rfl
            (by simpa [ltHi, headOr] using lt_of_not_le hk1) hmx
        have hrc : routeCount k (k1 :: ks2) = 0 := by
          simp [routeCount, hk1]
        have hsetAt : BtreeNode.setAt σ (c :: rest)
            (routeCount k (k1 :: ks2)) k v = some (σ', c' :: rest, sp) := by
          rw [hrc]
          simp only [BtreeNode.setAt, hsetc]
        have hrest_gt : ∀ p ∈ entriesL rest, k < p.1 := by
          obtain ⟨Ca, Cb, Cc, Cd⟩ :=
            childrenInv_keys rest (k1 :: ks2) hi h8 hsk h6
          intro p hp
          have hx : p.1 ∈ (entriesL rest).map Prod.fst :=
            List.mem_map_of_mem Prod.fst hp
          exact lt_of_lt_of_le (lt_of_not_le hk1) (Cc k1 rfl p.1 hx)
        cases sp with
        | none =>
          obtain ⟨hinv', hents', hdelta'⟩ := hout
          refine ⟨(σ', .inner (k1 :: ks2) (c' :: rest) mx, none), ?_, ?_,
            ?_, ?_⟩
          · simp only [BtreeNode.set, hroute, hsetAt]
          · simp only [nodeInv, Bool.and_eq_true, decide_eq_true_eq]
            exact ⟨⟨⟨⟨⟨⟨by trivial, h2⟩, h3⟩, h4⟩, by trivial⟩, h6⟩,
              hinv', h8⟩
          · show entriesN c' ++ entriesL rest =
              upsertE k v (entriesN c ++ entriesL rest)
            rw [hents', upsertE_append_hi k v _ _ hrest_gt]
          · refine chainDelta_cast
              (chainDelta_frame hdelta' [] (lidsL rest)) ?_ ?_ <;>
              simp [lidsL, lidsN]
        | some pr =>
          obtain ⟨sk2, nn⟩ := pr
          obtain ⟨hinvL, hinvR, hents', hreqb, hskhi, hdelta'⟩ := hout
          have hsklt : sk2 < k1 := by simpa [ltHi, headOr] using hskhi
          have hk1hi : ltHi hi k1 = true :=
            List.all_eq_true.1 h6 k1 (List.mem_cons_self _ _)
          have hbs : rustBsearch (k1 :: ks2) sk2 = .missing 0 :=
            rustBsearch_missing_of_bounds hsk (Nat.zero_le _)
              (fun j x hj hx => by omega)
              (fun j x hj hx => by
                rcases Nat.eq_zero_or_pos j with rfl | hj2
                · obtain rfl : k1 = x := by simpa using hx
                  exact hsklt
                · have hk10 : (k1 :: ks2).get? 0 = some k1 := rfl
                  exact lt_trans hsklt (pairwise_get_lt hsk hj2 hk10 hx))
          have hvi1 : vInsert (k1 :: ks2) 0 sk2 =
              some (sk2 :: k1 :: ks2) := by
            rw [vInsert, if_pos (Nat.zero_le _)]
            rfl
          have hvi2 : vInsert (c' :: rest) (0 + 1) nn =
              some (c' :: nn :: rest) := by
            rw [vInsert, if_pos (by
              simp only [List.length_cons]
              omega)]
            rfl
          have hlenC : (sk2 :: k1 :: ks2).length ≤ mx + 1 := by
            simp only [List.length_cons] at h3 ⊢
            omega
          have hascC : ascB (sk2 :: k1 :: ks2) = true := by
            show (decide (sk2 < k1) && ascB (k1 :: ks2)) = true
            rw [Bool.and_eq_true]
            exact ⟨decide_eq_true hsklt, h2⟩
          have hminrC : minReq (none : Option K) (sk2 :: k1 :: ks2) =
              true := rfl
          have hallC : ((sk2 :: k1 :: ks2) : List K).all (ltHi hi) =
              true := by
            rw [List.all_eq_true]
            intro x hx
            rcases List.mem_cons.1 hx with rfl | hx
            · exact ltHi_of_lt hsklt hk1hi
            · exact List.all_eq_true.1 h6 x hx
          have h5nC : (isRoot || decide (innerSplitAt mx ≤
              ((sk2 :: k1 :: ks2) : List K).length)) = true := by
            rcases Bool.or_eq_true_iff.1 h4 with hr | hr
            · rw [Bool.or_eq_true]
              exact Or.inl hr
            · rw [Bool.or_eq_true]
              right
              rw [decide_eq_true_eq]
              have := of_decide_eq_true hr
              simp only [List.length_cons] at this ⊢
              omega
          have hmatchC : (nodeInv mx false none
              (headOr (sk2 :: k1 :: ks2) hi) c' &&
              childrenInv mx hi (sk2 :: k1 :: ks2) (nn :: rest)) = true := by
            rw [Bool.and_eq_true]
            refine ⟨hinvL, ?_⟩
            show (nodeInv mx false (some sk2) (headOr (k1 :: ks2) hi) nn &&
              childrenInv mx hi (k1 :: ks2) rest) = true
            rw [Bool.and_eq_true]
            exact ⟨hinvR, h8⟩
          have hentsC : entriesL (c' :: nn :: rest) =
              upsertE k v (entriesN (.inner (k1 :: ks2) (c :: rest) mx :
                BtreeNode K V)) := by
            show entriesN c' ++ (entriesN nn ++ entriesL rest) =
              upsertE k v (entriesN c ++ entriesL rest)
            rw [upsertE_append_hi k v _ _ hrest_gt, ← hents',
              List.append_assoc]
          have hdeltaC : ChainDelta σ
              (lidsN (.inner (k1 :: ks2) (c :: rest) mx : BtreeNode K V))
              σ' (lidsL (c' :: nn :: rest)) := by
            refine chainDelta_cast
              (chainDelta_frame hdelta' [] (lidsL rest)) ?_ ?_ <;>
              simp [lidsL, lidsN, List.append_assoc]
          obtain ⟨out, hfineq, hok⟩ := innerFinish_ok
            (.inner (k1 :: ks2) (c :: rest) mx) (sk2 :: k1 :: ks2)
            (c' :: nn :: rest)
            hmx hlenC hascC hminrC hallC h5nC hmatchC hentsC hdeltaC
          have hprog : BtreeNode.set σ
              (.inner (k1 :: ks2) (c :: rest) mx : BtreeNode K V) k v =
              innerFinish σ' (sk2 :: k1 :: ks2) (c' :: nn :: rest) mx := by
            simp only [BtreeNode.set, hroute, hsetAt, hbs, hvi1, hvi2]
            rfl
          exact ⟨out, by rw [hprog, hfineq], hok⟩
  | .inner ks (.placehold :: rest) mk, isRoot, some s, hi, k, v, σ, h,
      hlo, hhik, hmx => by
    simp only [nodeInv, Bool.and_eq_true, decide_eq_true_eq] at h
    obtain ⟨⟨⟨⟨⟨⟨h1, h2⟩, h3⟩, h4⟩, h5⟩, h6⟩, h7⟩ := h
    have h1s : mx = mk := h1.symm
    subst h1s
    have hsk : ks.Pairwise (· < ·) := (ascB_iff_pairwise _).1 h2
    have hroute : routeIndex (rustBsearch ks k) = routeCount k ks :=
      routeIndex_rustBsearch hsk
    have hh : ks.head? = some s := by simpa [minReq] using h5
    obtain ⟨k1, ks2, rfl⟩ : ∃ k1 ks2, ks = k1 :: ks2 := by
      cases ks with
      | nil => simp at hh
      | cons a r => exact ⟨a, r, rfl⟩
    obtain rfl : k1 = s := by simpa using hh
    have hk1 : k1 ≤ k := by simpa [leLo] using hlo
    obtain ⟨⟨σ', rest', sp⟩, hsetr0, hout⟩ :=
      childrenInv_setAt rest (k1 :: ks2) hi k v σ h7 hsk h6
        (List.cons_ne_nil _ _)
        (fun s2 hs2 => by
          obtain rfl : k1 = s2 := by simpa using hs2
          exact hk1)
        hhik hmx
    have hsetr : BtreeNode.setAt σ rest (routeCount k ks2) k v =
        some (σ', rest', sp) := hsetr0
    have hrc : routeCount k (k1 :: ks2) = routeCount k ks2 + 1 := by
      simp [routeCount, hk1]
    have hsetAt : BtreeNode.setAt σ (BtreeNode.placehold :: rest)
        (routeCount k (k1 :: ks2)) k v =
        some (σ', BtreeNode.placehold :: rest', sp) := by
      rw [hrc]
      simp only [BtreeNode.setAt, hsetr]
    cases sp with
    | none =>
      obtain ⟨hinv', hents0, hdelta0⟩ := hout
      have hents' : entriesL rest' = upsertE k v (entriesL rest) := hents0
      have hdelta' : ChainDelta σ (lidsL rest) σ' (lidsL rest') := hdelta0
      refine ⟨(σ', .inner (k1 :: ks2) (BtreeNode.placehold :: rest') mx,
        none), ?_, ?_, ?_, ?_⟩
      · simp only [BtreeNode.set, hroute, hsetAt]
      · simp only [nodeInv, Bool.and_eq_true, decide_eq_true_eq]
        exact ⟨⟨⟨⟨⟨⟨by trivial, h2⟩, h3⟩, h4⟩, h5⟩, h6⟩, hinv'⟩
      · show entriesN (BtreeNode.placehold : BtreeNode K V) ++
          entriesL rest' = upsertE k v
            (entriesN (BtreeNode.placehold : BtreeNode K V) ++
              entriesL rest)
        simp only [entriesN, List.nil_append]
        exact hents'
      · refine chainDelta_cast hdelta' ?_ ?_ <;> simp [lidsL, lidsN]
    | some pr =>
      obtain ⟨sk2, nn⟩ := pr
      obtain ⟨hcinv0, hents0, hdelta0, hlenr0, hplt0, hblo0, hbhi0,
        hskhi⟩ := hout
      have hcinv : childrenInv mx hi
          ((k1 :: ks2).insertIdx (routeCount k ks2 + 1) sk2)
          (rest'.insertIdx (routeCount k ks2 + 1) nn) = true := hcinv0
      have hents' : entriesL (rest'.insertIdx (routeCount k ks2 + 1) nn) =
          upsertE k v (entriesL rest) := hents0
      have hdelta' : ChainDelta σ (lidsL rest) σ'
          (lidsL (rest'.insertIdx (routeCount k ks2 + 1) nn)) := hdelta0
      have hlenr : rest'.length = (k1 :: ks2).length := hlenr0
      have hplt : routeCount k ks2 < (k1 :: ks2).length := hplt0
      have hblo : ∀ j x, j ≤ routeCount k ks2 →
          (k1 :: ks2).get? j = some x → x < sk2 := hblo0
      have hbhi : ∀ j x, routeCount k ks2 + 1 ≤ j →
          (k1 :: ks2).get? j = some x → sk2 < x := hbhi0
      have hblo' : ∀ j x, j < routeCount k ks2 + 1 →
          (k1 :: ks2).get? j = some x → x < sk2 := fun j x hj hx =>
        hblo j x (Nat.lt_succ_iff.1 hj) hx
      have hilen : routeCount k ks2 + 1 ≤ (k1 :: ks2).length := by
        simp only [List.length_cons] at hplt ⊢
        omega
      have hbs : rustBsearch (k1 :: ks2) sk2 =
          .missing (routeCount k ks2 + 1) :=
        rustBsearch_missing_of_bounds hsk hilen hblo' hbhi
      have hvi1 : vInsert (k1 :: ks2) (routeCount k ks2 + 1) sk2 =
          some ((k1 :: ks2).insertIdx (routeCount k ks2 + 1) sk2) := by
        rw [vInsert, if_pos hilen]
      have hvi2 : vInsert (BtreeNode.placehold :: rest')
          (routeCount k ks2 + 1 + 1) nn =
          some (BtreeNode.placehold ::
            rest'.insertIdx (routeCount k ks2 + 1) nn) := by
        rw [vInsert, if_pos (by
          simp only [List.length_cons] at hlenr ⊢
          omega)]
        rw [List.insertIdx_succ_cons]
      have hlenD : ((k1 :: ks2).insertIdx (routeCount k ks2 + 1)
          sk2).length ≤ mx + 1 := by
        rw [List.length_insertIdx _ _ hilen]
        simp only [List.length_cons] at h3 ⊢
        omega
      have hascD : ascB ((k1 :: ks2).insertIdx
          (routeCount k ks2 + 1) sk2) = true :=
        ascB_insertIdx h2 hilen hblo' hbhi
      have hminrD : minReq (some k1)
          ((k1 :: ks2).insertIdx (routeCount k ks2 + 1) sk2) = true := by
        simp only [minReq, decide_eq_true_eq]
        rw [head_insertIdx_pos sk2 (k1 :: ks2) (routeCount k ks2 + 1)
          (Nat.succ_pos _) hilen]
        rfl
      have hallD : ((k1 :: ks2).insertIdx (routeCount k ks2 + 1)
          sk2).all (ltHi hi) = true := by
        rw [List.all_eq_true]
        intro x hx
        rcases (List.mem_insertIdx hilen).1 hx with rfl | hx
        · exact hskhi
        · exact List.all_eq_true.1 h6 x hx
      have h5nD : (isRoot || decide (innerSplitAt mx ≤
          ((k1 :: ks2).insertIdx (routeCount k ks2 + 1)
            sk2).length)) = true := by
        rcases Bool.or_eq_true_iff.1 h4 with hr | hr
        · rw [Bool.or_eq_true]
          exact Or.inl hr
        · rw [Bool.or_eq_true]
          right
          rw [decide_eq_true_eq, List.length_insertIdx _ _ hilen]
          have := of_decide_eq_true hr
          omega
      have hmatchD : childrenInv mx hi
          ((k1 :: ks2).insertIdx (routeCount k ks2 + 1) sk2)
          (rest'.insertIdx (routeCount k ks2 + 1) nn) = true := hcinv
      have hentsD : entriesL (BtreeNode.placehold ::
          rest'.insertIdx (routeCount k ks2 + 1) nn) =
          upsertE k v (entriesN (.inner (k1 :: ks2)
            (BtreeNode.placehold :: rest) mx : BtreeNode K V)) := by
        show entriesN (BtreeNode.placehold : BtreeNode K V) ++
            entriesL (rest'.insertIdx (routeCount k ks2 + 1) nn) =
          upsertE k v (entriesN (BtreeNode.placehold : BtreeNode K V) ++
            entriesL rest)
        simp only [entriesN, List.nil_append]
        exact hents'
      have hdeltaD : ChainDelta σ
          (lidsN (.inner (k1 :: ks2) (BtreeNode.placehold :: rest) mx :
            BtreeNode K V)) σ'
          (lidsL (BtreeNode.placehold ::
            rest'.insertIdx (routeCount k ks2 + 1) nn)) := by
        refine chainDelta_cast hdelta' ?_ ?_ <;> simp [lidsL, lidsN]
      obtain ⟨out, hfineq, hok⟩ := innerFinish_ok
        (.inner (k1 :: ks2) (BtreeNode.placehold :: rest) mx)
        ((k1 :: ks2).insertIdx (routeCount k ks2 + 1) sk2)
        (BtreeNode.placehold :: rest'.insertIdx (routeCount k ks2 + 1) nn)
        hmx hlenD hascD hminrD hallD h5nD hmatchD hentsD hdeltaD
      have hprog : BtreeNode.set σ (.inner (k1 :: ks2)
          (BtreeNode.placehold :: rest) mx : BtreeNode K V) k v =
          innerFinish σ'
            ((k1 :: ks2).insertIdx (routeCount k ks2 + 1) sk2)
            (BtreeNode.placehold ::
              rest'.insertIdx (routeCount k ks2 + 1) nn) mx := by
        simp only [BtreeNode.set, hroute, hsetAt, hbs, hvi1, hvi2]
        rfl
      exact ⟨out, by rw [hprog, hfineq], hok⟩
termination_by structural t => t

/-- Setting through an aligned child segment: routing by the count of
separators `≤ k` succeeds, keeps the segment aligned (after inserting the
promoted pair on a split) and upserts the concatenated entries. -/
theorem childrenInv_setAt {K V : Type} [LinearOrder K] {mx : Nat} :
    ∀ (cs : List (BtreeNode K V)) (ks : List K) (hi : Option K) (k : K)
      (v : V) (σ : Chain),
    childrenInv mx hi ks cs = true →
    ks.Pairwise (· < ·) → ks.all (ltHi hi) = true → ks ≠ [] →
    (∀ s, ks.head? = some s → s ≤ k) → ltHi hi k = true → 1 ≤ mx →
    ∃ out : Chain × List (BtreeNode K V) × Option (K × BtreeNode K V),
      BtreeNode.setAt σ cs (routeCount k (ks.drop 1)) k v = some out ∧
      (match out with
       | (σ', cs', none) =>
           childrenInv mx hi ks cs' = true ∧
           entriesL cs' = upsertE k v (entriesL cs) ∧
           ChainDelta σ (lidsL cs) σ' (lidsL cs')
       | (σ', cs', some (sk, nn)) =>
           childrenInv mx hi
             (ks.insertIdx (routeCount k (ks.drop 1) + 1) sk)
             (cs'.insertIdx (routeCount k (ks.drop 1) + 1) nn) = true ∧
           entriesL (cs'.insertIdx (routeCount k (ks.drop 1) + 1) nn) =
             upsertE k v (entriesL cs) ∧
           ChainDelta σ (lidsL cs) σ'
             (lidsL (cs'.insertIdx (routeCount k (ks.drop 1) + 1) nn)) ∧
           cs'.length = ks.length ∧
           routeCount k (ks.drop 1) < ks.length ∧
           (∀ j x, j ≤ routeCount k (ks.drop 1) → ks.get? j = some x →
             x < sk) ∧
           (∀ j x, routeCount k (ks.drop 1) + 1 ≤ j → ks.get? j = some x →
             sk < x) ∧
           ltHi hi sk = true)
  | [], ks, hi, k, v, σ, h, _, _, hne, _, _, _ => by
    have hks : ks = [] := by simpa [childrenInv, List.isEmpty_iff] using h
    exact absurd hks hne
  | c :: rest, [], hi, k, v, σ, h, _, _, hne, _, _, _ => by
    exact absurd rfl hne
  | c :: rest, [k1], hi, k, v, σ, h, hs, hall, _, hhead, hhik, hmx => by
    simp only [childrenInv, Bool.and_eq_true] at h
    obtain ⟨h1, h2⟩ := h
    have hrest : rest = [] := by
      cases rest with
      | nil => rfl
      | cons c2 r2 => simp [childrenInv] at h2
    subst hrest
    have hk1 : k1 ≤ k := hhead k1 rfl
    obtain ⟨⟨σ', c', sp⟩, hsetc, hout⟩ :=
      set_ok c false (some k1) (headOr ([] : List K) hi) k v σ h1
        (by simpa [leLo] using hk1) hhik hmx
    have hsetAt : BtreeNode.setAt σ [c] (routeCount k (([k1] :
        List K).drop 1)) k v = some (σ', [c'], sp) := by
      show BtreeNode.setAt σ [c] (routeCount k ([] : List K)) k v =
        some (σ', [c'], sp)
      simp only [routeCount, BtreeNode.setAt, hsetc]
    cases sp with
    | none =>
      obtain ⟨hinv', hents', hdelta'⟩ := hout
      refine ⟨(σ', [c'], none), hsetAt, ?_, ?_, ?_⟩
      · simp only [childrenInv, Bool.and_eq_true]
        exact ⟨hinv', rfl⟩
      · show entriesN c' ++ entriesL ([] : List (BtreeNode K V)) =
          upsertE k v (entriesN c ++ entriesL ([] : List (BtreeNode K V)))
        simp only [entriesL, List.append_nil]
        exact hents'
      · refine chainDelta_cast hdelta' ?_ ?_ <;> simp [lidsL, lidsN]
    | some pr =>
      obtain ⟨sk, nn⟩ := pr
      obtain ⟨hinvL, hinvR, hents', hreqb, hskhi, hdelta'⟩ := hout
      refine ⟨(σ', [c'], some (sk, nn)), hsetAt, ?_, ?_, ?_, rfl, ?_, ?_,
        ?_, hskhi⟩
      · show childrenInv mx hi [k1, sk] [c', nn] = true
        simp only [childrenInv, Bool.and_eq_true]
        exact ⟨hinvL, hinvR, rfl⟩
      · show entriesN c' ++ (entriesN nn ++
            entriesL ([] : List (BtreeNode K V))) =
          upsertE k v (entriesN c ++ entriesL ([] : List (BtreeNode K V)))
        simp only [entriesL, List.append_nil]
        exact hents'
      · show ChainDelta σ (lidsN c ++ lidsL ([] : List (BtreeNode K V)))
          σ' (lidsN c' ++ (lidsN nn ++
            lidsL ([] : List (BtreeNode K V))))
        refine chainDelta_cast hdelta' ?_ ?_ <;> simp [lidsL, lidsN]
      · show routeCount k (([k1] : List K).drop 1) < 1
        simp [routeCount]
      · intro j x hj hx
        have hj0 : j = 0 := by
          have : j ≤ 0 := hj
          omega
        subst hj0
        obtain rfl : k1 = x := by simpa using hx
        exact hreqb k1 rfl
      · intro j x hj hx
        rcases j with _ | j2
        · exact absurd hj (by
            show ¬ (routeCount k (([k1] : List K).drop 1) + 1 ≤ 0)
            simp [routeCount])
        · simp at hx
  | c :: rest, k1 :: k2 :: ks3, hi, k, v, σ, h, hs, hall, _, hhead, hhik,
      hmx => by
    simp only [childrenInv, Bool.and_eq_true] at h
    obtain ⟨h1, h2⟩ := h
    have hk1 : k1 ≤ k := hhead k1 rfl
    have hs2 : (k2 :: ks3).Pairwise (· < ·) := (List.pairwise_cons.1 hs).2
    have hall2 : (k2 :: ks3).all (ltHi hi) = true := by
      simp only [List.all_cons, Bool.and_eq_true] at hall ⊢
      exact hall.2
    have hk1k2 : k1 < k2 :=
      (List.pairwise_cons.1 hs).1 k2 (List.mem_cons_self _ _)
    by_cases hk2 : k2 ≤ k
    · -- recurse into the tail segment
      obtain ⟨⟨σ', rest', sp⟩, hsetr0, hout⟩ :=
        childrenInv_setAt rest (k2 :: ks3) hi k v σ h2 hs2 hall2
          (List.cons_ne_nil _ _)
          (fun s2 hs2' => by
            obtain rfl : k2 = s2 := by simpa using hs2'
            exact hk2)
          hhik hmx
      have hsetr : BtreeNode.setAt σ rest (routeCount k ks3) k v =
          some (σ', rest', sp) := hsetr0
      have hrc : routeCount k ((k1 :: k2 :: ks3).drop 1) =
          routeCount k ks3 + 1 := by
        simp [routeCount, hk2]
      have hsetAt : BtreeNode.setAt σ (c :: rest)
          (routeCount k ((k1 :: k2 :: ks3).drop 1)) k v =
          some (σ', c :: rest', sp) := by
        rw [hrc]
        simp only [BtreeNode.setAt, hsetr]
      have hc_lt : ∀ p ∈ entriesN c, p.1 < k := by
        intro p hp
        obtain ⟨Na, Nb, Nc2, Nd⟩ :=
          nodeInv_keys c false (some k1) (headOr (k2 :: ks3) hi) h1
        have hx : p.1 ∈ keysN c := List.mem_map_of_mem Prod.fst hp
        have hlt : p.1 < k2 := by simpa [ltHi, headOr] using Nb p.1 hx
        exact lt_of_lt_of_le hlt hk2
      cases sp with
      | none =>
        obtain ⟨hinv', hents', hdelta'⟩ := hout
        refine ⟨(σ', c :: rest', none), hsetAt, ?_, ?_, ?_⟩
        · simp only [childrenInv, Bool.and_eq_true]
          exact ⟨h1, hinv'⟩
        · show entriesN c ++ entriesL rest' =
            upsertE k v (entriesN c ++ entriesL rest)
          rw [hents', upsertE_append_lo k v _ _ hc_lt]
        · refine chainDelta_cast (chainDelta_frame hdelta' (lidsN c) [])
            ?_ ?_ <;> simp [lidsL, lidsN]
      | some pr =>
        obtain ⟨sk, nn⟩ := pr
        obtain ⟨hcinv0, hents0, hdelta0, hlenr0, hplt0, hblo0, hbhi0,
          hskhi⟩ := hout
        have hcinv : childrenInv mx hi
            ((k2 :: ks3).insertIdx (routeCount k ks3 + 1) sk)
            (rest'.insertIdx (routeCount k ks3 + 1) nn) = true := hcinv0
        have hents' : entriesL (rest'.insertIdx
            (routeCount k ks3 + 1) nn) = upsertE k v (entriesL rest) :=
          hents0
        have hdelta' : ChainDelta σ (lidsL rest) σ'
            (lidsL (rest'.insertIdx (routeCount k ks3 + 1) nn)) := hdelta0
        have hlenr : rest'.length = (k2 :: ks3).length := hlenr0
        have hplt : routeCount k ks3 < (k2 :: ks3).length := hplt0
        have hblo : ∀ j x, j ≤ routeCount k ks3 →
            (k2 :: ks3).get? j = some x → x < sk := hblo0
        have hbhi : ∀ j x, routeCount k ks3 + 1 ≤ j →
            (k2 :: ks3).get? j = some x → sk < x := hbhi0
        refine ⟨(σ', c :: rest', some (sk, nn)), hsetAt, ?_, ?_, ?_, ?_,
          ?_, ?_, ?_, hskhi⟩
        · rw [hrc]
          rw [show (k1 :: k2 :: ks3).insertIdx (routeCount k ks3 + 1 + 1)
              sk = k1 :: ((k2 :: ks3).insertIdx (routeCount k ks3 + 1) sk)
            from List.insertIdx_succ_cons _ _ _ _]
          rw [show (c :: rest').insertIdx (routeCount k ks3 + 1 + 1) nn =
            c :: (rest'.insertIdx (routeCount k ks3 + 1) nn) from
            List.insertIdx_succ_cons _ _ _ _]
          simp only [childrenInv, Bool.and_eq_true]
          constructor
          · rw [show headOr ((k2 :: ks3).insertIdx
                (routeCount k ks3 + 1) sk) hi =
              headOr (k2 :: ks3) hi from by
                rw [List.insertIdx_succ_cons]
                rfl]
            exact h1
          · exact hcinv
        · rw [hrc]
          rw [show (c :: rest').insertIdx (routeCount k ks3 + 1 + 1) nn =
            c :: (rest'.insertIdx (routeCount k ks3 + 1) nn) from
            List.insertIdx_succ_cons _ _ _ _]
          show entriesN c ++
              entriesL (rest'.insertIdx (routeCount k ks3 + 1) nn) =
            upsertE k v (entriesN c ++ entriesL rest)
          rw [hents', upsertE_append_lo k v _ _ hc_lt]
        · rw [hrc]
          rw [show (c :: rest').insertIdx (routeCount k ks3 + 1 + 1) nn =
            c :: (rest'.insertIdx (routeCount k ks3 + 1) nn) from
            List.insertIdx_succ_cons _ _ _ _]
          refine chainDelta_cast
            (chainDelta_frame hdelta' (lidsN c) []) ?_ ?_ <;>
            simp [lidsL, lidsN]
        · simp only [List.length_cons]
          simp only [List.length_cons] at hlenr
          omega
        · rw [hrc]
          simp only [List.length_cons]
          simp only [List.length_cons] at hplt
          omega
        · intro j x hj hx
          rw [hrc] at hj
          rcases j with _ | j2
          · obtain rfl : k1 = x := by simpa using hx
            have hk2lt : k2 < sk := hblo 0 k2 (Nat.zero_le _) rfl
            exact lt_trans hk1k2 hk2lt
          · exact hblo j2 x (Nat.le_of_succ_le_succ hj)
              (by simpa using hx)
        · intro j x hj hx
          rw [hrc] at hj
          rcases j with _ | j2
          · omega
          · exact hbhi j2 x (Nat.le_of_succ_le_succ hj)
              (by simpa using hx)
    · -- the key belongs to child `c`
      obtain ⟨⟨σ', c', sp⟩, hsetc, hout⟩ :=
        set_ok c false (some k1) (headOr (k2 :: ks3) hi) k v σ h1
          (by simpa [leLo] using hk1)
          (by simpa [ltHi, headOr] using lt_of_not_le hk2) hmx
      have hrc : routeCount k ((k1 :: k2 :: ks3).drop 1) = 0 := by
        simp [routeCount, hk2]
      have hsetAt : BtreeNode.setAt σ (c :: rest)
          (routeCount k ((k1 :: k2 :: ks3).drop 1)) k v =
          some (σ', c' :: rest, sp) := by
        rw [hrc]
        simp only [BtreeNode.setAt, hsetc]
      have hrest_gt : ∀ p ∈ entriesL rest, k < p.1 := by
        obtain ⟨Ca, Cb, Cc, Cd⟩ :=
          childrenInv_keys rest (k2 :: ks3) hi h2 hs2 hall2
        intro p hp
        have hx : p.1 ∈ (entriesL rest).map Prod.fst :=
          List.mem_map_of_mem Prod.fst hp
        exact lt_of_lt_of_le (lt_of_not_le hk2) (Cc k2 rfl p.1 hx)
      cases sp with
      | none =>
        obtain ⟨hinv', hents', hdelta'⟩ := hout
        refine ⟨(σ', c' :: rest, none), hsetAt, ?_, ?_, ?_⟩
        · simp only [childrenInv, Bool.and_eq_true]
          exact ⟨hinv', h2⟩
        · show entriesN c' ++ entriesL rest =
            upsertE k v (entriesN c ++ entriesL rest)
          rw [hents', upsertE_append_hi k v _ _ hrest_gt]
        · refine chainDelta_cast
            (chainDelta_frame hdelta' [] (lidsL rest)) ?_ ?_ <;>
            simp [lidsL, lidsN]
      | some pr =>
        obtain ⟨sk, nn⟩ := pr
        obtain ⟨hinvL, hinvR, hents', hreqb, hskhi, hdelta'⟩ := hout
        have hsklt : sk < k2 := by simpa [ltHi, headOr] using hskhi
        have hk2hi : ltHi hi k2 = true := by
          simp only [List.all_cons, Bool.and_eq_true] at hall
          exact hall.2.1
        refine ⟨(σ', c' :: rest, some (sk, nn)), hsetAt, ?_, ?_, ?_, ?_,
          ?_, ?_, ?_, ltHi_of_lt hsklt hk2hi⟩
        · rw [hrc]
          show childrenInv mx hi (k1 :: sk :: k2 :: ks3)
            (c' :: nn :: rest) = true
          simp only [childrenInv, Bool.and_eq_true]
          exact ⟨hinvL, hinvR, h2⟩
        · rw [hrc]
          show entriesN c' ++ (entriesN nn ++ entriesL rest) =
            upsertE k v (entriesN c ++ entriesL rest)
          rw [upsertE_append_hi k v _ _ hrest_gt, ← hents',
            List.append_assoc]
        · rw [hrc]
          show ChainDelta σ (lidsL (c :: rest)) σ'
            (lidsL ((c' :: rest).insertIdx (0 + 1) nn))
          rw [show ((c' :: rest) : List (BtreeNode K V)).insertIdx (0 + 1)
              nn = c' :: nn :: rest from rfl]
          refine chainDelta_cast
            (chainDelta_frame hdelta' [] (lidsL rest)) ?_ ?_ <;>
            simp [lidsL, lidsN, List.append_assoc]
        · have hrl := childrenInv_length rest (k2 :: ks3) h2
          simp only [List.length_cons] at hrl ⊢
          omega
        · rw [hrc]
          simp
        · intro j x hj hx
          rw [hrc] at hj
          have hj0 : j = 0 := by omega
          subst hj0
          obtain rfl : k1 = x := by simpa using hx
          exact hreqb k1 rfl
        · intro j x hj hx
          rw [hrc] at hj
          rcases j with _ | j2
          · omega
          · have hg2 : (k2 :: ks3).get? j2 = some x := by simpa using hx
            rcases Nat.eq_zero_or_pos j2 with rfl | hj2
            · obtain rfl : k2 = x := by simpa using hg2
              exact hsklt
            · have hk20 : (k2 :: ks3).get? 0 = some k2 := rfl
              exact lt_trans hsklt (pairwise_get_lt hs2 hj2 hk20 hg2)
termination_by structural cs => cs

end

/-! ### The whole-state invariant and its preservation by `Bptree.set` -/

/-- Whole-state invariant of the public tree maintained by `set`: the order
is at least 2, the chain's link entries mention only allocated ids, the leaf
chain is well formed, and the root is the fresh-tree `placehold` or
satisfies the node invariant at `max_key_count = m - 1`. -/
def stInv {K V : Type} [LinearOrder K] (t : Bptree K V) : Prop :=
  2 ≤ t.m ∧ linksDom t.chain ∧ chainInvP t ∧
  (t.root = .placehold ∨ nodeInv (t.m - 1) true none none t.root = true)

theorem stInv_new {K V : Type} [LinearOrder K] (m : Nat) (hm : 2 ≤ m) :
    stInv (Bptree.new K V m) := by
  refine ⟨hm, ?_, ⟨?_, ?_, ?_⟩, Or.inl rfl⟩
  · intro p hp; simp [Bptree.new, Chain.init] at hp
  · simp [Bptree.new, lidsN]
  · intro i hi; simp [Bptree.new, lidsN] at hi
  · simp [Bptree.new, lidsN, linkChain]

theorem stInv_finish_none {K V : Type} [LinearOrder K] {m : Nat}
    {σ σ' : Chain} {r r' : BtreeNode K V} {k : K} {v : V}
    (hm : 2 ≤ m) (hdom : linksDom σ) (hnd : (lidsN r).Nodup)
    (hbound : ∀ i ∈ lidsN r, i < σ.fresh)
    (hlink : linkChain σ none (lidsN r))
    (hout : setOutOk (m - 1) true none none k v σ r (σ', r', none)) :
    stInv (⟨r', m, σ'⟩ : Bptree K V) ∧
    entriesN r' = upsertE k v (entriesN r) := by
  obtain ⟨hinv, hents, hΔ⟩ := hout
  refine ⟨⟨hm, hΔ.domPres hdom hbound,
    ⟨hΔ.nodupPres hnd hbound, ?_, hΔ.linkPres none hnd hbound hlink⟩,
    Or.inr hinv⟩, hents⟩
  intro i hi
  rcases hΔ.idsSub i hi with hc | hc
  · exact lt_of_lt_of_le (hbound i hc) hΔ.freshMono
  · exact hc.2

theorem stInv_finish_split {K V : Type} [LinearOrder K] {m : Nat}
    {σ σ' : Chain} {r r' nn : BtreeNode K V} {sk : K} {k : K} {v : V}
    (hm : 2 ≤ m) (hdom : linksDom σ) (hnd : (lidsN r).Nodup)
    (hbound : ∀ i ∈ lidsN r, i < σ.fresh)
    (hlink : linkChain σ none (lidsN r))
    (hout : setOutOk (m - 1) true none none k v σ r
      (σ', r', some (sk, nn))) :
    stInv (⟨.inner [sk] [r', nn] (m - 1), m, σ'⟩ : Bptree K V) ∧
    entriesN (BtreeNode.inner [sk] [r', nn] (m - 1)) =
      upsertE k v (entriesN r) := by
  obtain ⟨hinv1, hinv2, hents, hreq, hhisk, hΔ⟩ := hout
  have hl : lidsN (BtreeNode.inner [sk] [r', nn] (m - 1)) =
      lidsN r' ++ lidsN nn := by
    simp [lidsN, lidsL]
  have hroot : nodeInv (m - 1) true none none
      (BtreeNode.inner [sk] [r', nn] (m - 1)) = true := by
    simp only [nodeInv, childrenInv, headOr, ascB, minReq, ltHi,
      List.all_cons, List.all_nil, List.isEmpty_nil, List.length_cons,
      List.length_nil, Bool.true_or, Bool.and_true, Bool.true_and,
      Bool.and_eq_true, decide_eq_true_eq, true_and, and_true]
    refine ⟨by omega, hinv1, hinv2⟩
  have hcp : chainInvP
      (⟨BtreeNode.inner [sk] [r', nn] (m - 1), m, σ'⟩ : Bptree K V) := by
    refine ⟨?_, ?_, ?_⟩
    · show (lidsN (BtreeNode.inner [sk] [r', nn] (m - 1))).Nodup
      rw [hl]; exact hΔ.nodupPres hnd hbound
    · show ∀ i ∈ lidsN (BtreeNode.inner [sk] [r', nn] (m - 1)), i < σ'.fresh
      rw [hl]
      intro i hi
      rcases hΔ.idsSub i hi with hc | hc
      · exact lt_of_lt_of_le (hbound i hc) hΔ.freshMono
      · exact hc.2
    · show linkChain σ' none (lidsN (BtreeNode.inner [sk] [r', nn] (m - 1)))
      rw [hl]; exact hΔ.linkPres none hnd hbound hlink
  refine ⟨⟨hm, hΔ.domPres hdom hbound, hcp, Or.inr hroot⟩, ?_⟩
  simpa [entriesN, entriesL] using hents

/-- `Bptree::set` on an invariant state succeeds, preserves the invariant,
keeps the order, and upserts the pair into the in-order entries. -/
theorem stInv_set {K V : Type} [LinearOrder K] (t : Bptree K V) (k : K)
    (v : V) (h : stInv t) :
    ∃ t', t.set k v = some t' ∧ stInv t' ∧ t'.m = t.m ∧
      entriesN t'.root = upsertE k v (entriesN t.root) := by
  obtain ⟨hm, hdom, ⟨hnd, hbound, hlink⟩, hroot⟩ := h
  rcases hroot with hph | hinv
  · -- fresh tree: the root becomes a one-pair leaf
    have hns : (⟨t.chain.fresh, [k], [v], t.m - 1⟩ : LeafNode K V).need_split
        = false := by
      simp only [LeafNode.need_split, decide_eq_false_iff_not, gt_iff_lt,
        List.length_cons, List.length_nil]
      omega
    have hbs : t.set k v = some ⟨.leaf ⟨t.chain.fresh, [k], [v], t.m - 1⟩,
        t.m, ⟨t.chain.links, t.chain.fresh + 1⟩⟩ := by
      simp [Bptree.set, hph, LeafNode.set, LeafNode.new,
        show rustBsearch ([] : List K) k = SearchR.missing 0 from rfl,
        vInsert, hns]
    refine ⟨_, hbs, ⟨hm, ?_, ⟨?_, ?_, ?_⟩, Or.inr ?_⟩, rfl, ?_⟩
    · intro p hp
      exact Nat.lt_succ_of_lt (hdom p hp)
    · show ([t.chain.fresh] : List Nat).Nodup
      simp
    · show ∀ i ∈ ([t.chain.fresh] : List Nat), i < t.chain.fresh + 1
      intro i hi
      rcases List.mem_singleton.1 hi with rfl
      exact Nat.lt_succ_self _
    · show linkChain ⟨t.chain.links, t.chain.fresh + 1⟩ none [t.chain.fresh]
      show Chain.nextOf ⟨t.chain.links, t.chain.fresh + 1⟩ t.chain.fresh
        = none
      exact linkLookup_ge t.chain.links hdom (le_refl _)
    · show nodeInv (t.m - 1) true none none
        (BtreeNode.leaf ⟨t.chain.fresh, [k], [v], t.m - 1⟩) = true
      simp only [nodeInv, ascB, minReq, ltHi, List.all_cons, List.all_nil,
        List.length_cons, List.length_nil, Bool.true_or, Bool.and_true,
        Bool.true_and, Bool.and_eq_true, decide_eq_true_eq, true_and,
        and_true]
      omega
    · show entriesN (BtreeNode.leaf ⟨t.chain.fresh, [k], [v], t.m - 1⟩)
        = upsertE k v (entriesN t.root)
      rw [hph]
      simp [entriesN, upsertE, List.zip]
  · -- non-placehold root: delegate to the node-level contract
    obtain ⟨⟨σ', r', sp⟩, hset, hout⟩ :=
      set_ok t.root true none none k v t.chain hinv rfl rfl
        (by omega : 1 ≤ t.m - 1)
    rcases sp with _ | ⟨sk, nn⟩
    · obtain ⟨hst, hent⟩ := stInv_finish_none hm hdom hnd hbound hlink hout
      refine ⟨⟨r', t.m, σ'⟩, ?_, hst, rfl, hent⟩
      cases hr : t.root with
      | placehold => rw [hr] at hinv; simp [nodeInv] at hinv
      | leaf ln => rw [hr] at hset; simp only [Bptree.set, hr, hset]
      | inner ks cs mk => rw [hr] at hset; simp only [Bptree.set, hr, hset]
    · obtain ⟨hst, hent⟩ := stInv_finish_split hm hdom hnd hbound hlink hout
      refine ⟨⟨.inner [sk] [r', nn] (t.m - 1), t.m, σ'⟩, ?_, hst, rfl, hent⟩
      cases hr : t.root with
      | placehold => rw [hr] at hinv; simp [nodeInv] at hinv
      | leaf ln => rw [hr] at hset; simp only [Bptree.set, hr, hset]
      | inner ks cs mk => rw [hr] at hset; simp only [Bptree.set, hr, hset]

/-- Folding `set`s from any invariant state: all succeed, the invariant is
kept, and the in-order entries are the fold of the abstract upserts. -/
theorem stInv_goSets {K V : Type} [LinearOrder K] :
    ∀ (l : List (K × V)) (t : Bptree K V), stInv t →
    ∃ t', goOps (some t) (l.map (fun p => Op.setOp p.1 p.2)) = some t' ∧
      stInv t' ∧ t'.m = t.m ∧
      entriesN t'.root =
        l.foldl (fun e p => upsertE p.1 p.2 e) (entriesN t.root)
  | [], t, h => ⟨t, rfl, h, rfl, rfl⟩
  | p :: l, t, h => by
    obtain ⟨t1, hset, h1, hm1, he1⟩ := stInv_set t p.1 p.2 h
    obtain ⟨t', hgo, h', hm', he'⟩ := stInv_goSets l t1 h1
    refine ⟨t', ?_, h', by rw [hm', hm1], ?_⟩
    · simp only [List.map_cons, goOps, Bptree.applyOp, hset]
      exact hgo
    · simp only [List.foldl_cons]
      rw [← he1]
      exact he'

/-- `runSets` with order at least 2 never panics and produces an invariant
tree whose in-order entries are the fold of the upserts. -/
theorem stInv_runSets {K V : Type} [LinearOrder K] (m : Nat) (hm : 2 ≤ m)
    (l : List (K × V)) :
    ∃ t, runSets m l = some t ∧ stInv t ∧ t.m = m ∧
      entriesN t.root = l.foldl (fun e p => upsertE p.1 p.2 e) [] := by
  obtain ⟨t, hgo, h, hmm, he⟩ := stInv_goSets l (Bptree.new K V m)
    (stInv_new m hm)
  exact ⟨t, hgo, h, hmm, by rw [he]; rfl⟩

/-- `Bptree::get` on an invariant state returns exactly the entry-list
lookup. -/
theorem bget_correct {K V : Type} [LinearOrder K] (t : Bptree K V) (k : K)
    (h : stInv t) :
    t.get k = some (entLookup k (entriesN t.root)) := by
  obtain ⟨hm, hdom, hcp, hroot⟩ := h
  rcases hroot with hph | hinv
  · show t.root.get k = _
    rw [hph]
    rfl
  · exact get_correct t.root true none none k hinv

/-- The value paired with the last occurrence of `k` in the pair list (the
specification-side "most recently set value"). -/
def lastSet {K V : Type} [DecidableEq K] (k : K) (l : List (K × V)) :
    Option V :=
  l.foldl (fun acc p => if p.1 = k then some p.2 else acc) none

theorem entLookup_foldl_upsert {K V : Type} [LinearOrder K] (k : K) :
    ∀ (l : List (K × V)) (e : List (K × V)),
    entLookup k (l.foldl (fun e p => upsertE p.1 p.2 e) e) =
      l.foldl (fun acc p => if p.1 = k then some p.2 else acc)
        (entLookup k e)
  | [], e => rfl
  | p :: l, e => by
    simp only [List.foldl_cons]
    rw [entLookup_foldl_upsert k l]
    by_cases hp : p.1 = k
    · rw [if_pos hp, ← hp, entLookup_upsertE_self]
    · rw [if_neg hp, entLookup_upsertE_other (fun he => hp he.symm)]

/-- C1: for every sequence of `set`s on a fresh tree of order `m ≥ 3`,
every operation completes, and `get k` on the result returns the most
recently set value of every key `k` that appears in the sequence. -/
theorem claim_C1 {K V : Type} [LinearOrder K] (m : Nat) (hm : 3 ≤ m)
    (l : List (K × V)) (k : K) (v : V) (hlast : lastSet k l = some v) :
    ∃ t, runSets m l = some t ∧ t.get k = some (some v) := by
  obtain ⟨t, hrun, hst, hmm, hent⟩ := stInv_runSets m (by omega) l
  refine ⟨t, hrun, ?_⟩
  rw [bget_correct t k hst, hent, entLookup_foldl_upsert]
  show some (lastSet k l) = some (some v)
  rw [hlast]

/-- C1 witness: the sequence set(1,10); set(2,20); set(1,30) on order 3;
the last value set for key 1 is 30 and `get 1` returns it. -/
theorem claim_C1_witness :
    3 ≤ 3 ∧ lastSet 1 [(1, 10), (2, 20), (1, 30)] = some 30 ∧
    ∃ t, runSets 3 [(1, 10), (2, 20), (1, 30)] = some t ∧
      t.get 1 = some (some 30) :=
  ⟨by decide, by decide,
   claim_C1 3 (by decide) [(1, 10), (2, 20), (1, 30)] 1 30 (by decide)⟩

/-! ### Occupancy and sentinel-avoidance consequences of the invariant -/

theorem nodeInv_not_ph {K V : Type} [LinearOrder K] {mx : Nat}
    {isRoot : Bool} {req hi : Option K} {t : BtreeNode K V}
    (h : nodeInv mx isRoot req hi t = true) : isPh t = false := by
  cases t with
  | placehold => simp [nodeInv] at h
  | leaf ln => rfl
  | inner a b c => rfl

mutual

theorem nodeInv_occOk {K V : Type} [LinearOrder K] {mx : Nat} :
    ∀ (t : BtreeNode K V) (isRoot : Bool) (req hi : Option K),
    nodeInv mx isRoot req hi t = true → occOk mx isRoot t = true
  | .placehold, _, _, _, h => by simp [nodeInv] at h
  | .leaf ln, isRoot, req, hi, h => by
    simp only [nodeInv, Bool.and_eq_true, decide_eq_true_eq] at h
    obtain ⟨⟨⟨⟨⟨⟨h1, h2⟩, h3⟩, h4⟩, h5⟩, h6⟩, h7⟩ := h
    cases isRoot with
    | true => simp [occOk]
    | false =>
      rw [Bool.false_or] at h5
      simp only [occOk, Bool.false_or, Bool.and_eq_true]
      exact ⟨h5, decide_eq_true h4⟩
  | .inner ks [] mk, isRoot, none, hi, h => by simp [nodeInv] at h
  | .inner ks [] mk, isRoot, some s, hi, h => by simp [nodeInv] at h
  | .inner ks (.inner ks2 cs2 mk2 :: rest) mk, isRoot, some s, hi, h => by
    simp [nodeInv] at h
  | .inner ks (.leaf ln :: rest) mk, isRoot, some s, hi, h => by
    simp [nodeInv] at h
  | .inner ks (c :: rest) mk, isRoot, none, hi, h => by
    simp only [nodeInv, Bool.and_eq_true, decide_eq_true_eq] at h
    obtain ⟨⟨⟨⟨⟨⟨h1, h2⟩, h3⟩, h4⟩, h5⟩, h6⟩, h7, h8⟩ := h
    simp only [occOk, occOkL, Bool.and_eq_true]
    refine ⟨?_, nodeInv_occOk c false none (headOr ks hi) h7,
      childrenInv_occOkL rest ks hi h8⟩
    cases isRoot with
    | true => simp
    | false =>
      rw [Bool.false_or] at h4
      simp only [Bool.false_or, Bool.and_eq_true]
      exact ⟨h4, decide_eq_true h3⟩
  | .inner ks (.placehold :: rest) mk, isRoot, some s, hi, h => by
    simp only [nodeInv, Bool.and_eq_true, decide_eq_true_eq] at h
    obtain ⟨⟨⟨⟨⟨⟨h1, h2⟩, h3⟩, h4⟩, h5⟩, h6⟩, h7⟩ := h
    simp only [occOk, occOkL, Bool.and_eq_true]
    refine ⟨?_, trivial, childrenInv_occOkL rest ks hi h7⟩
    cases isRoot with
    | true => simp
    | false =>
      rw [Bool.false_or] at h4
      simp only [Bool.false_or, Bool.and_eq_true]
      exact ⟨h4, decide_eq_true h3⟩
termination_by structural t => t

theorem childrenInv_occOkL {K V : Type} [LinearOrder K] {mx : Nat} :
    ∀ (cs : List (BtreeNode K V)) (ks : List K) (hi : Option K),
    childrenInv mx hi ks cs = true → occOkL mx cs = true
  | [], _, _, _ => rfl
  | c :: rest, [], hi, h => by simp [childrenInv] at h
  | c :: rest, k1 :: ks2, hi, h => by
    simp only [childrenInv, Bool.and_eq_true] at h
    obtain ⟨h1, h2⟩ := h
    simp only [occOkL, Bool.and_eq_true]
    exact ⟨nodeInv_occOk c false (some k1) (headOr ks2 hi) h1,
           childrenInv_occOkL rest ks2 hi h2⟩
termination_by structural cs => cs

end

theorem nodeInv_keys_len {K V : Type} [LinearOrder K] {mx : Nat} :
    ∀ (t : BtreeNode K V) (isRoot : Bool) (req hi : Option K),
    nodeInv mx isRoot req hi t = true → t.keys_len ≤ mx
  | .placehold, _, _, _, h => by simp [nodeInv] at h
  | .leaf ln, isRoot, req, hi, h => by
    simp only [nodeInv, Bool.and_eq_true, decide_eq_true_eq] at h
    exact h.1.1.1.2
  | .inner ks [] mk, isRoot, none, hi, h => by simp [nodeInv] at h
  | .inner ks [] mk, isRoot, some s, hi, h => by simp [nodeInv] at h
  | .inner ks (.inner ks2 cs2 mk2 :: rest) mk, isRoot, some s, hi, h => by
    simp [nodeInv] at h
  | .inner ks (.leaf ln :: rest) mk, isRoot, some s, hi, h => by
    simp [nodeInv] at h
  | .inner ks (c :: rest) mk, isRoot, none, hi, h => by
    simp only [nodeInv, Bool.and_eq_true, decide_eq_true_eq] at h
    exact h.1.1.1.1.2
  | .inner ks (.placehold :: rest) mk, isRoot, some s, hi, h => by
    simp only [nodeInv, Bool.and_eq_true, decide_eq_true_eq] at h
    exact h.1.1.1.1.2

/-- C4 (amended): after every completed sequence of `set` operations on a
fresh tree of order `m ≥ 3`, every non-root node's key count lies in
`[⌈(m-1)/2⌉, m-1]`, and the root's key count is at most `m - 1` (it alone
may have fewer than the minimum). -/
theorem claim_C4 {K V : Type} [LinearOrder K] (m : Nat) (hm : 3 ≤ m)
    (l : List (K × V)) :
    ∃ t, runSets m l = some t ∧ occOk (m - 1) true t.root = true ∧
      t.root.keys_len ≤ m - 1 := by
  obtain ⟨t, hrun, hst, hmm, _⟩ := stInv_runSets m (by omega) l
  refine ⟨t, hrun, ?_, ?_⟩
  · rcases hst.2.2.2 with hph | hinv
    · rw [hph]; rfl
    · rw [← hmm]
      exact nodeInv_occOk t.root true none none hinv
  · rcases hst.2.2.2 with hph | hinv
    · rw [hph]
      exact Nat.zero_le _
    · rw [← hmm]
      exact nodeInv_keys_len t.root true none none hinv

/-- C4 witness: seven ascending sets on order 3 force leaf and inner
splits; the resulting tree satisfies the occupancy bounds, root
included. -/
theorem claim_C4_witness :
    3 ≤ 3 ∧ ∃ t,
      runSets 3 [(1, 1), (2, 2), (3, 3), (4, 4), (5, 5), (6, 6), (7, 7)]
        = some t ∧ occOk (3 - 1) true t.root = true ∧
        t.root.keys_len ≤ 3 - 1 :=
  ⟨by decide,
   claim_C4 3 (by decide)
     [(1, 1), (2, 2), (3, 3), (4, 4), (5, 5), (6, 6), (7, 7)]⟩

theorem getVisitsPhAt_succ {K V : Type} [LinearOrder K]
    (c : BtreeNode K V) (rest : List (BtreeNode K V)) (n : Nat) (k : K) :
    getVisitsPhAt (c :: rest) (n + 1) k = getVisitsPhAt rest n k := by
  cases c <;> rfl

theorem getVisitsPhAt_zero {K V : Type} [LinearOrder K]
    (c : BtreeNode K V) (rest : List (BtreeNode K V)) (k : K)
    (hc : isPh c = false) :
    getVisitsPhAt (c :: rest) 0 k = getVisitsPh c k := by
  cases c with
  | placehold => simp [isPh] at hc
  | leaf ln => rfl
  | inner a b d => rfl

mutual

theorem nodeInv_noPh {K V : Type} [LinearOrder K] {mx : Nat} :
    ∀ (t : BtreeNode K V) (isRoot : Bool) (req hi : Option K) (k : K),
    nodeInv mx isRoot req hi t = true → leLo req k = true →
    getVisitsPh t k = false
  | .placehold, isRoot, req, hi, k, h, _ => by simp [nodeInv] at h
  | .leaf ln, _, _, _, k, _, _ => rfl
  | .inner ks [] mk, isRoot, none, hi, k, h, _ => by simp [nodeInv] at h
  | .inner ks [] mk, isRoot, some s, hi, k, h, _ => by simp [nodeInv] at h
  | .inner ks (.inner ks2 cs2 mk2 :: rest) mk, isRoot, some s, hi, k, h,
      _ => by simp [nodeInv] at h
  | .inner ks (.leaf ln :: rest) mk, isRoot, some s, hi, k, h, _ => by
    simp [nodeInv] at h
  | .inner ks (c :: rest) mk, isRoot, none, hi, k, h, _ => by
    simp only [nodeInv, Bool.and_eq_true, decide_eq_true_eq] at h
    obtain ⟨⟨⟨⟨⟨⟨h1, h2⟩, h3⟩, h4⟩, h5⟩, h6⟩, h7, h8⟩ := h
    have hsk : ks.Pairwise (· < ·) := (ascB_iff_pairwise _).1 h2
    have hroute : routeIndex (rustBsearch ks k) = routeCount k ks :=
      routeIndex_rustBsearch hsk
    rw [show getVisitsPh (BtreeNode.inner ks (c :: rest) mk :
        BtreeNode K V) k = getVisitsPhAt (c :: rest)
        (routeIndex (rustBsearch ks k)) k from rfl, hroute]
    cases ks with
    | nil =>
      rw [show routeCount k ([] : List K) = 0 from rfl,
        getVisitsPhAt_zero c rest k (nodeInv_not_ph h7)]
      exact nodeInv_noPh c false none (headOr ([] : List K) hi) k h7 rfl
    | cons k1 ks2 =>
      by_cases hk1 : k1 ≤ k
      · rw [show routeCount k (k1 :: ks2) = routeCount k ks2 + 1 from by
            simp [routeCount, hk1],
          getVisitsPhAt_succ c rest (routeCount k ks2) k]
        exact childrenInv_noPhAt rest (k1 :: ks2) hi k h8 hsk
          (List.cons_ne_nil _ _)
          (fun s hs => by
            obtain rfl : k1 = s := by simpa using hs
            exact hk1)
      · rw [show routeCount k (k1 :: ks2) = 0 from by
            simp [routeCount, hk1],
          getVisitsPhAt_zero c rest k (nodeInv_not_ph h7)]
        exact nodeInv_noPh c false none (headOr (k1 :: ks2) hi) k h7 rfl
  | .inner ks (.placehold :: rest) mk, isRoot, some s, hi, k, h, hlo => by
    simp only [nodeInv, Bool.and_eq_true, decide_eq_true_eq] at h
    obtain ⟨⟨⟨⟨⟨⟨h1, h2⟩, h3⟩, h4⟩, h5⟩, h6⟩, h7⟩ := h
    have hsk : ks.Pairwise (· < ·) := (ascB_iff_pairwise _).1 h2
    have hh : ks.head? = some s := by simpa [minReq] using h5
    obtain ⟨k1, ks2, rfl⟩ : ∃ k1 ks2, ks = k1 :: ks2 := by
      cases ks with
      | nil => simp at hh
      | cons a r => exact ⟨a, r, rfl⟩
    obtain rfl : k1 = s := by simpa using hh
    have hk1 : k1 ≤ k := by simpa [leLo] using hlo
    have hroute : routeIndex (rustBsearch (k1 :: ks2) k) =
        routeCount k (k1 :: ks2) := routeIndex_rustBsearch hsk
    rw [show getVisitsPh (BtreeNode.inner (k1 :: ks2)
        (BtreeNode.placehold :: rest) mk : BtreeNode K V) k =
        getVisitsPhAt (BtreeNode.placehold :: rest)
        (routeIndex (rustBsearch (k1 :: ks2) k)) k from rfl, hroute,
      show routeCount k (k1 :: ks2) = routeCount k ks2 + 1 from by
        simp [routeCount, hk1],
      show getVisitsPhAt (BtreeNode.placehold :: rest)
        (routeCount k ks2 + 1) k = getVisitsPhAt rest (routeCount k ks2) k
        from rfl]
    exact childrenInv_noPhAt rest (k1 :: ks2) hi k h7 hsk
      (List.cons_ne_nil _ _)
      (fun s2 hs2 => by
        obtain rfl : k1 = s2 := by simpa using hs2
        exact hk1)
termination_by structural t => t

theorem childrenInv_noPhAt {K V : Type} [LinearOrder K] {mx : Nat} :
    ∀ (cs : List (BtreeNode K V)) (ks : List K) (hi : Option K) (k : K),
    childrenInv mx hi ks cs = true →
    ks.Pairwise (· < ·) → ks ≠ [] →
    (∀ s, ks.head? = some s → s ≤ k) →
    getVisitsPhAt cs (routeCount k (ks.drop 1)) k = false
  | [], ks, hi, k, h, _, hne, _ => by
    have : ks = [] := by simpa [childrenInv, List.isEmpty_iff] using h
    exact absurd this hne
  | c :: rest, [], hi, k, h, _, hne, _ => by exact absurd rfl hne
  | c :: rest, k1 :: ks2, hi, k, h, hs, _, hhead => by
    simp only [childrenInv, Bool.and_eq_true] at h
    obtain ⟨h1, h2⟩ := h
    have hk1 : k1 ≤ k := hhead k1 rfl
    cases ks2 with
    | nil =>
      rw [show routeCount k (([k1] : List K).drop 1) = 0 from rfl,
        getVisitsPhAt_zero c rest k (nodeInv_not_ph h1)]
      exact nodeInv_noPh c false (some k1) (headOr ([] : List K) hi) k h1
        (by simpa [leLo] using hk1)
    | cons k2 ks3 =>
      have hs2 : (k2 :: ks3).Pairwise (· < ·) := (List.pairwise_cons.1 hs).2
      by_cases hk2 : k2 ≤ k
      · rw [show routeCount k ((k1 :: k2 :: ks3).drop 1) =
            routeCount k ks3 + 1 from by simp [routeCount, hk2],
          getVisitsPhAt_succ c rest (routeCount k ks3) k]
        exact childrenInv_noPhAt rest (k2 :: ks3) hi k h2 hs2
          (List.cons_ne_nil _ _)
          (fun s2 hs2' => by
            obtain rfl : k2 = s2 := by simpa using hs2'
            exact hk2)
      · rw [show routeCount k ((k1 :: k2 :: ks3).drop 1) = 0 from by
            simp [routeCount, hk2],
          getVisitsPhAt_zero c rest k (nodeInv_not_ph h1)]
        exact nodeInv_noPh c false (some k1) (headOr (k2 :: ks3) hi) k h1
          (by simpa [leLo] using hk1)
termination_by structural cs => cs

end

/-- C9 (amended): on every tree built by `set` operations alone (order
`m ≥ 3`), the binary-search descent of `get` never selects a sentinel
(`placehold`) child, for any key. -/
theorem claim_C9 {K V : Type} [LinearOrder K] (m : Nat) (hm : 3 ≤ m)
    (l : List (K × V)) (k : K) :
    ∃ t, runSets m l = some t ∧ getVisitsPh t.root k = false := by
  obtain ⟨t, hrun, hst, _, _⟩ := stInv_runSets m (by omega) l
  refine ⟨t, hrun, ?_⟩
  rcases hst.2.2.2 with hph | hinv
  · rw [hph]; rfl
  · exact nodeInv_noPh t.root true none none k hinv rfl

/-- C9 witness: seven ascending sets on order 3 (two levels of splits,
so the tree has split-created inner nodes); the descent for key 5 never
touches a sentinel child. -/
theorem claim_C9_witness :
    3 ≤ 3 ∧ ∃ t,
      runSets 3 [(1, 1), (2, 2), (3, 3), (4, 4), (5, 5), (6, 6), (7, 7)]
        = some t ∧ getVisitsPh t.root 5 = false :=
  ⟨by decide,
   claim_C9 3 (by decide)
     [(1, 1), (2, 2), (3, 3), (4, 4), (5, 5), (6, 6), (7, 7)] 5⟩

/-! ### The leaf chain yields the in-order keys -/

/-- Keys contributed by a list of leaf ids, each resolved against the
tree `R` (the recursive form of the fold inside `chainKeys`). -/
def foldKeys {K V : Type} (R : BtreeNode K V) : List Nat → List K
  | [] => []
  | i :: ids =>
    (match findLeaf R i with
     | some ln => ln.keys
     | none => []) ++ foldKeys R ids

theorem foldr_foldKeys {K V : Type} (R : BtreeNode K V) :
    ∀ (ids : List Nat),
    ids.foldr (fun i acc =>
      (match findLeaf R i with
       | some ln => ln.keys
       | none => []) ++ acc) [] = foldKeys R ids
  | [] => rfl
  | i :: ids =>
    congrArg (fun x =>
      (match findLeaf R i with
       | some ln => ln.keys
       | none => []) ++ x) (foldr_foldKeys R ids)

theorem chainKeys_eq {K V : Type} (t : Bptree K V) :
    chainKeys t = foldKeys t.root
      (chainIds t.chain t.chain.fresh (lidsN t.root).head?) :=
  foldr_foldKeys t.root _

theorem foldKeys_append {K V : Type} (R : BtreeNode K V) :
    ∀ (A B : List Nat), foldKeys R (A ++ B) = foldKeys R A ++ foldKeys R B
  | [], B => rfl
  | i :: A, B =>
    (congrArg (fun x =>
      (match findLeaf R i with
       | some ln => ln.keys
       | none => []) ++ x) (foldKeys_append R A B)).trans
      (List.append_assoc _ _ _).symm

mutual

theorem findLeaf_not_mem {K V : Type} :
    ∀ (t : BtreeNode K V) (i : Nat), i ∉ lidsN t → findLeaf t i = none
  | .placehold, i, _ => rfl
  | .leaf ln, i, h => by
    have hne : ¬ (ln.lid = i) := by
      intro he
      exact h (by simp [lidsN, he])
    simp [findLeaf, hne]
  | .inner ks cs mk, i, h => by
    show findLeafL cs i = none
    exact findLeafL_not_mem cs i (by simpa [lidsN] using h)
termination_by structural t => t

theorem findLeafL_not_mem {K V : Type} :
    ∀ (cs : List (BtreeNode K V)) (i : Nat), i ∉ lidsL cs →
    findLeafL cs i = none
  | [], i, _ => rfl
  | c :: rest, i, h => by
    have h1 : i ∉ lidsN c := fun hin =>
      h (by simp [lidsL, List.mem_append, hin])
    have h2 : i ∉ lidsL rest := fun hin =>
      h (by simp [lidsL, List.mem_append, hin])
    simp only [findLeafL, findLeaf_not_mem c i h1]
    exact findLeafL_not_mem rest i h2
termination_by structural cs => cs

end

mutual

theorem findLeaf_mem {K V : Type} :
    ∀ (t : BtreeNode K V) (i : Nat), i ∈ lidsN t →
    ∃ ln, findLeaf t i = some ln
  | .placehold, i, h => by simp [lidsN] at h
  | .leaf ln, i, h => by
    have he : i = ln.lid := by simpa [lidsN] using h
    exact ⟨ln, by simp [findLeaf, he]⟩
  | .inner ks cs mk, i, h =>
    findLeafL_mem cs i (by simpa [lidsN] using h)
termination_by structural t => t

theorem findLeafL_mem {K V : Type} :
    ∀ (cs : List (BtreeNode K V)) (i : Nat), i ∈ lidsL cs →
    ∃ ln, findLeafL cs i = some ln
  | [], i, h => by simp [lidsL] at h
  | c :: rest, i, h => by
    cases hc : findLeaf c i with
    | some ln => exact ⟨ln, by simp only [findLeafL, hc]⟩
    | none =>
      have h2 : i ∈ lidsL rest := by
        rcases List.mem_append.1 (by simpa [lidsL] using h) with hin | hin
        · obtain ⟨ln2, hln2⟩ := findLeaf_mem c i hin
          rw [hln2] at hc
          cases hc
        · exact hin
      obtain ⟨ln, hln⟩ := findLeafL_mem rest i h2
      refine ⟨ln, ?_⟩
      simp only [findLeafL, hc]
      exact hln
termination_by structural cs => cs

end

mutual

/-- On an invariant subtree with distinct leaf ids, resolving the subtree's
leaf ids against any tree `R` that agrees with it on those ids yields the
subtree's in-order keys. -/
theorem nodeInv_foldKeys {K V : Type} [LinearOrder K] {mx : Nat} :
    ∀ (t : BtreeNode K V) (isRoot : Bool) (req hi : Option K)
      (R : BtreeNode K V),
    nodeInv mx isRoot req hi t = true → (lidsN t).Nodup →
    (∀ i ∈ lidsN t, findLeaf R i = findLeaf t i) →
    foldKeys R (lidsN t) = keysN t
  | .placehold, isRoot, req, hi, R, h, _, _ => by simp [nodeInv] at h
  | .leaf ln, isRoot, req, hi, R, h, _, hR => by
    simp only [nodeInv, Bool.and_eq_true, decide_eq_true_eq] at h
    obtain ⟨⟨⟨⟨⟨⟨h1, h2⟩, h3⟩, h4⟩, h5⟩, h6⟩, h7⟩ := h
    have hk : keysN (BtreeNode.leaf ln : BtreeNode K V) = ln.keys := by
      simp only [keysN, entriesN]
      exact List.map_fst_zip _ _ (le_of_eq h2.symm)
    have hfl : findLeaf R ln.lid = some ln := by
      rw [hR ln.lid (by simp [lidsN])]
      simp [findLeaf]
    simp only [lidsN, foldKeys, hfl, hk, List.append_nil]
  | .inner ks [] mk, isRoot, none, hi, R, h, _, _ => by simp [nodeInv] at h
  | .inner ks [] mk, isRoot, some s, hi, R, h, _, _ => by
    simp [nodeInv] at h
  | .inner ks (.inner ks2 cs2 mk2 :: rest) mk, isRoot, some s, hi, R, h, _,
      _ => by simp [nodeInv] at h
  | .inner ks (.leaf ln :: rest) mk, isRoot, some s, hi, R, h, _, _ => by
    simp [nodeInv] at h
  | .inner ks (c :: rest) mk, isRoot, none, hi, R, h, hnd, hR => by
    simp only [nodeInv, Bool.and_eq_true, decide_eq_true_eq] at h
    obtain ⟨⟨⟨⟨⟨⟨h1, h2⟩, h3⟩, h4⟩, h5⟩, h6⟩, h7, h8⟩ := h
    have hsplit : lidsN (BtreeNode.inner ks (c :: rest) mk : BtreeNode K V)
        = lidsN c ++ lidsL rest := by simp [lidsN, lidsL]
    rw [hsplit] at hnd
    rw [List.nodup_append] at hnd
    have hRc : ∀ i ∈ lidsN c, findLeaf R i = findLeaf c i := by
      intro i hi2
      obtain ⟨ln2, hln2⟩ := findLeaf_mem c i hi2
      rw [hR i (by simp [lidsN, lidsL, List.mem_append, hi2])]
      simp only [findLeaf, findLeafL, hln2]
    have hRrest : ∀ i ∈ lidsL rest, findLeaf R i = findLeafL rest i := by
      intro i hi2
      have hnotc : i ∉ lidsN c := fun hin => hnd.2.2 hin hi2
      rw [hR i (by simp [lidsN, lidsL, List.mem_append, hi2])]
      simp only [findLeaf, findLeafL, findLeaf_not_mem c i hnotc]
    rw [hsplit, foldKeys_append,
      nodeInv_foldKeys c false none (headOr ks hi) R h7 hnd.1 hRc,
      childrenInv_foldKeys rest ks hi R h8 hnd.2.1 hRrest]
    simp [keysN, entriesN, entriesL, List.map_append]
  | .inner ks (.placehold :: rest) mk, isRoot, some s, hi, R, h, hnd,
      hR => by
    simp only [nodeInv, Bool.and_eq_true, decide_eq_true_eq] at h
    obtain ⟨⟨⟨⟨⟨⟨h1, h2⟩, h3⟩, h4⟩, h5⟩, h6⟩, h7⟩ := h
    have hsplit : lidsN (BtreeNode.inner ks
        (BtreeNode.placehold :: rest) mk : BtreeNode K V) = lidsL rest := by
      simp [lidsN, lidsL]
    rw [hsplit] at hnd
    have hRrest : ∀ i ∈ lidsL rest, findLeaf R i = findLeafL rest i := by
      intro i hi2
      rw [hR i (by simp [lidsN, lidsL, hi2])]
      simp only [findLeaf, findLeafL]
    rw [hsplit, childrenInv_foldKeys rest ks hi R h7 hnd hRrest]
    simp [keysN, entriesN, entriesL]
termination_by structural t => t

theorem childrenInv_foldKeys {K V : Type} [LinearOrder K] {mx : Nat} :
    ∀ (cs : List (BtreeNode K V)) (ks : List K) (hi : Option K)
      (R : BtreeNode K V),
    childrenInv mx hi ks cs = true → (lidsL cs).Nodup →
    (∀ i ∈ lidsL cs, findLeaf R i = findLeafL cs i) →
    foldKeys R (lidsL cs) = (entriesL cs).map Prod.fst
  | [], ks, hi, R, _, _, _ => rfl
  | c :: rest, [], hi, R, h, _, _ => by simp [childrenInv] at h
  | c :: rest, k1 :: ks2, hi, R, h, hnd, hR => by
    simp only [childrenInv, Bool.and_eq_true] at h
    obtain ⟨h1, h2⟩ := h
    have hsplit : lidsL (c :: rest) = lidsN c ++ lidsL rest := by
      simp [lidsL]
    rw [hsplit] at hnd
    rw [List.nodup_append] at hnd
    have hRc : ∀ i ∈ lidsN c, findLeaf R i = findLeaf c i := by
      intro i hi2
      obtain ⟨ln2, hln2⟩ := findLeaf_mem c i hi2
      rw [hR i (by simp [lidsL, List.mem_append, hi2])]
      simp only [findLeafL, hln2]
    have hRrest : ∀ i ∈ lidsL rest, findLeaf R i = findLeafL rest i := by
      intro i hi2
      have hnotc : i ∉ lidsN c := fun hin => hnd.2.2 hin hi2
      rw [hR i (by simp [lidsL, List.mem_append, hi2])]
      simp only [findLeafL, findLeaf_not_mem c i hnotc]
    rw [hsplit, foldKeys_append,
      nodeInv_foldKeys c false (some k1) (headOr ks2 hi) R h1 hnd.1 hRc,
      childrenInv_foldKeys rest ks2 hi R h2 hnd.2.1 hRrest]
    simp [keysN, entriesL, List.map_append]
termination_by structural cs => cs

end

theorem nodup_bound_length {f : Nat} (ids : List Nat) (hnd : ids.Nodup)
    (hb : ∀ i ∈ ids, i < f) : ids.length ≤ f := by
  have hsub : ids.toFinset ⊆ Finset.range f := by
    intro x hx
    rw [List.mem_toFinset] at hx
    rw [Finset.mem_range]
    exact hb x hx
  have hcard := Finset.card_le_card hsub
  rwa [List.toFinset_card_of_nodup hnd, Finset.card_range] at hcard

/-- Following the `next` chain with enough fuel from the head of a
well-linked id list reproduces the list. -/
theorem chainIds_linkChain (σ : Chain) :
    ∀ (ids : List Nat) (fuel : Nat), linkChain σ none ids →
    ids.length ≤ fuel → chainIds σ fuel ids.head? = ids
  | [], fuel, _, _ => by cases fuel <;> rfl
  | [i], fuel, hl, hlen => by
    obtain ⟨f, rfl⟩ : ∃ f, fuel = f + 1 := ⟨fuel - 1, by
      simp only [List.length_cons, List.length_nil] at hlen
      omega⟩
    show i :: chainIds σ f (σ.nextOf i) = [i]
    rw [show σ.nextOf i = none from hl]
    cases f <;> rfl
  | i :: j :: r, fuel, hl, hlen => by
    obtain ⟨hn, hl2⟩ := hl
    obtain ⟨f, rfl⟩ : ∃ f, fuel = f + 1 := ⟨fuel - 1, by
      simp only [List.length_cons] at hlen
      omega⟩
    show i :: chainIds σ f (σ.nextOf i) = i :: j :: r
    rw [hn]
    have hrec := chainIds_linkChain σ (j :: r) f hl2 (by
      simp only [List.length_cons] at hlen ⊢
      omega)
    rw [show (j :: r).head? = some j from rfl] at hrec
    rw [hrec]

/-- C5 (amended): after any sequence of `set` operations on a fresh tree of
order m ≥ 3, the tree's in-order key sequence is strictly ascending (so in
particular each leaf's keys are), and traversing the leaf chain by `next`
references from the leftmost leaf yields exactly that ascending key
sequence — no gaps, no duplicates. -/
theorem claim_C5 {K V : Type} [LinearOrder K] (m : Nat) (hm : 3 ≤ m)
    (l : List (K × V)) :
    ∃ t, runSets m l = some t ∧ ascB (keysN t.root) = true ∧
      chainKeys t = keysN t.root := by
  obtain ⟨t, hrun, hst, _, _⟩ := stInv_runSets m (by omega) l
  refine ⟨t, hrun, ?_, ?_⟩
  · rcases hst.2.2.2 with hph | hinv
    · rw [hph]; rfl
    · exact (ascB_iff_pairwise _).2
        (nodeInv_keys t.root true none none hinv).1
  · obtain ⟨hnd, hbound, hlink⟩ := hst.2.2.1
    rw [chainKeys_eq,
      chainIds_linkChain t.chain (lidsN t.root) t.chain.fresh hlink
        (nodup_bound_length (lidsN t.root) hnd hbound)]
    rcases hst.2.2.2 with hph | hinv
    · rw [hph]; rfl
    · exact nodeInv_foldKeys t.root true none none t.root hinv hnd
        (fun i _ => rfl)

/-- C5 witness: five out-of-order sets on order 3 (forcing a leaf split);
the key sequence is ascending and the leaf chain yields it. -/
theorem claim_C5_witness :
    3 ≤ 3 ∧ ∃ t,
      runSets 3 [(3, 30), (1, 10), (2, 20), (5, 50), (4, 40)] = some t ∧
      ascB (keysN t.root) = true ∧ chainKeys t = keysN t.root :=
  ⟨by decide,
   claim_C5 3 (by decide) [(3, 30), (1, 10), (2, 20), (5, 50), (4, 40)]⟩

/-! ### Remove on a leaf root -/

theorem not_mem_eraseIdx {K : Type} [LinearOrder K] :
    ∀ (l : List K) (i : Nat) (k : K), l.Pairwise (· < ·) →
    l.get? i = some k → k ∉ l.eraseIdx i
  | [], i, k, _, h => by simp at h
  | a :: l, 0, k, hp, h => by
    obtain rfl : a = k := by simpa using h
    show a ∉ l
    intro hm2
    exact lt_irrefl a ((List.pairwise_cons.1 hp).1 a hm2)
  | a :: l, i + 1, k, hp, h => by
    have h2 : l.get? i = some k := by simpa using h
    have hrec := not_mem_eraseIdx l i k (List.pairwise_cons.1 hp).2 h2
    show k ∉ a :: l.eraseIdx i
    intro hm2
    rcases List.mem_cons.1 hm2 with rfl | hm3
    · exact lt_irrefl k
        ((List.pairwise_cons.1 hp).1 k (List.get?_mem h2))
    · exact hrec hm3

/-- `LeafNode::remove` with no siblings, on a hit at position `i`: it
returns the removed value, erases the pair at `i`, and keeps everything
else; the first two components of the returned triple are both present or
both absent. -/
theorem leafRemoveOp_found {K V : Type} [LinearOrder K] (ln : LeafNode K V)
    (k : K) (v : V) (i : Nat)
    (hf : rustBsearch ln.keys k = .found i)
    (hkget : ln.keys.get? i = some k) (hv : ln.vals.get? i = some v)
    (hsp : 1 ≤ ln.split_at) :
    ∃ out : RmRes K V, LeafNode.removeOp ln k none none = some out ∧
      ((∃ a b, out = ⟨some a, some b, some v,
          .leaf ⟨ln.lid, ln.keys.eraseIdx i, ln.vals.eraseIdx i,
            ln.max_key_count⟩, none, none⟩) ∨
       out = ⟨none, none, some v,
          .leaf ⟨ln.lid, ln.keys.eraseIdx i, ln.vals.eraseIdx i,
            ln.max_key_count⟩, none, none⟩) := by
  have hne : ln.keys ≠ [] := by
    intro he
    rw [he] at hkget
    simp at hkget
  obtain ⟨k0, kr, hke⟩ : ∃ k0 kr, ln.keys = k0 :: kr := by
    cases hc : ln.keys with
    | nil => exact absurd hc hne
    | cons a r => exact ⟨a, r, rfl⟩
  have hv0 : vGet ln.keys 0 = some k0 := by rw [hke]; rfl
  simp only [LeafNode.removeOp, hv0, hf,
    show vRemove ln.keys i = some (k, ln.keys.eraseIdx i) from by
      simp only [vRemove, hkget],
    show vRemove ln.vals i = some (v, ln.vals.eraseIdx i) from by
      simp only [vRemove, hv]]
  by_cases huf : (ln.keys.eraseIdx i).length < ln.split_at
  · rw [if_pos (decide_eq_true huf)]
    exact ⟨_, rfl, Or.inr rfl⟩
  · rw [if_neg (fun hc => huf (of_decide_eq_true hc))]
    by_cases hi0 : i = 0
    · subst hi0
      have hlen : 1 ≤ (ln.keys.eraseIdx 0).length := by omega
      obtain ⟨nm, hnm⟩ : ∃ nm, vGet (ln.keys.eraseIdx 0) 0 = some nm := by
        cases hc : ln.keys.eraseIdx 0 with
        | nil => rw [hc] at hlen; simp at hlen
        | cons a r => exact ⟨a, rfl⟩
      rw [if_pos rfl, hnm]
      exact ⟨_, rfl, Or.inl ⟨k0, nm, rfl⟩⟩
    · rw [if_neg hi0]
      exact ⟨_, rfl, Or.inr rfl⟩

/-- C2 (amended, scoped): on a tree built by `set` operations alone whose
root is still a single leaf, if `get k` finds a value then `remove k`
succeeds, returns exactly that value, and a subsequent `get k` returns
absent. -/
theorem claim_C2 {K V : Type} [LinearOrder K] (m : Nat) (hm : 3 ≤ m)
    (l : List (K × V)) (t : Bptree K V) (hrun : runSets m l = some t)
    (ln : LeafNode K V) (hroot : t.root = .leaf ln) (k : K) (v : V)
    (hget : t.get k = some (some v)) :
    ∃ t', t.remove k = some (t', some v) ∧ t'.get k = some none := by
  obtain ⟨t2, hrun2, hst, hmm, _⟩ := stInv_runSets m (by omega) l
  rw [hrun] at hrun2
  obtain rfl : t = t2 := Option.some_inj.1 hrun2
  obtain ⟨hm2, hdom, hcp, hdisj⟩ := hst
  rcases hdisj with hph | hinv
  · rw [hroot] at hph
    simp at hph
  rw [hroot] at hinv
  simp only [nodeInv, Bool.and_eq_true, decide_eq_true_eq] at hinv
  obtain ⟨⟨⟨⟨⟨⟨h1, h2⟩, h3⟩, h4⟩, h5⟩, h6⟩, h7⟩ := hinv
  have hp : ln.keys.Pairwise (· < ·) := (ascB_iff_pairwise _).1 h3
  have hget2 : LeafNode.get ln k = some (some v) := by
    show BtreeNode.get (BtreeNode.leaf ln) k = some (some v)
    rw [← hroot]
    exact hget
  obtain ⟨i, hf, hv⟩ : ∃ i, rustBsearch ln.keys k = .found i ∧
      ln.vals.get? i = some v := by
    cases hr : rustBsearch ln.keys k with
    | missing j =>
      rw [show LeafNode.get ln k = some none from by
        simp [LeafNode.get, hr]] at hget2
      simp at hget2
    | found j =>
      simp only [LeafNode.get, hr] at hget2
      cases hvg : vGet ln.vals j with
      | none =>
        simp only [hvg] at hget2
        exact absurd hget2 (by simp)
      | some v2 =>
        simp only [hvg] at hget2
        obtain rfl : v2 = v := by simpa using hget2
        exact ⟨j, rfl, hvg⟩
  have hkget : ln.keys.get? i = some k := rustBsearch_found_get hf
  have hsp : 1 ≤ ln.split_at := by
    show 1 ≤ ln.max_key_count / 2 + ln.max_key_count % 2
    rw [h1]
    omega
  have hlenpos : ¬ (ln.keys.length = 0) := by
    intro he
    rw [List.length_eq_zero.1 he] at hkget
    simp at hkget
  obtain ⟨out, hro, hcase⟩ := leafRemoveOp_found ln k v i hf hkget hv hsp
  have hro2 : BtreeNode.removeOp (BtreeNode.leaf ln) k none none =
      some out := hro
  have hrem : t.remove k =
      some (⟨.leaf ⟨ln.lid, ln.keys.eraseIdx i, ln.vals.eraseIdx i,
        ln.max_key_count⟩, t.m, t.chain⟩, some v) := by
    rcases hcase with ⟨a, b, rfl⟩ | rfl
    · simp only [Bptree.remove, hroot, BtreeNode.keys_len,
        if_neg hlenpos, hro2]
    · simp only [Bptree.remove, hroot, BtreeNode.keys_len,
        if_neg hlenpos, hro2]
  refine ⟨_, hrem, ?_⟩
  have hnmem : k ∉ ln.keys.eraseIdx i := not_mem_eraseIdx ln.keys i k hp hkget
  show LeafNode.get ⟨ln.lid, ln.keys.eraseIdx i, ln.vals.eraseIdx i,
    ln.max_key_count⟩ k = some none
  cases hr2 : rustBsearch (ln.keys.eraseIdx i) k with
  | found j =>
    exact absurd (List.get?_mem (rustBsearch_found_get hr2)) hnmem
  | missing j =>
    simp [LeafNode.get, hr2]

theorem runPairSets_eq : runSets 3 [(1, 10), (2, 20)] =
    some (Bptree.mk (BtreeNode.leaf (LeafNode.mk 0 [1, 2] [10, 20] 2)) 3
      (Chain.mk [] 1)) := by
  rw [show runSets 3 [(1, 10), (2, 20)] = goOps (some (Bptree.new Nat Nat 3))
        [Op.setOp 1 10, Op.setOp 2 20] from rfl,
      show Bptree.new Nat Nat 3 =
        (Bptree.mk BtreeNode.placehold 3 (Chain.mk [] 0) : Bptree Nat Nat)
        from rfl]
  rw [goOps_cons, show Bptree.applyOp
      (Bptree.mk BtreeNode.placehold 3 (Chain.mk [] 0)) (Op.setOp 1 10) =
      some (Bptree.mk (BtreeNode.leaf (LeafNode.mk 0 [1] [10] 2)) 3
        (Chain.mk [] 1)) from rfl]
  rw [goOps_cons, show Bptree.applyOp
      (Bptree.mk (BtreeNode.leaf (LeafNode.mk 0 [1] [10] 2)) 3
        (Chain.mk [] 1)) (Op.setOp 2 20) =
      some (Bptree.mk (BtreeNode.leaf (LeafNode.mk 0 [1, 2] [10, 20] 2)) 3
        (Chain.mk [] 1)) from rfl]
  rw [goOps_nil]

/-- C2 witness: set(1,10); set(2,20) on order 3 leaves a single-leaf root;
removing key 1 returns 10 and the subsequent get of 1 is absent. -/
theorem claim_C2_witness :
    3 ≤ 3 ∧
    runSets 3 [(1, 10), (2, 20)] =
      some ⟨.leaf ⟨0, [1, 2], [10, 20], 2⟩, 3, ⟨[], 1⟩⟩ ∧
    (⟨.leaf ⟨0, [1, 2], [10, 20], 2⟩, 3, ⟨[], 1⟩⟩ : Bptree Nat Nat).root =
      .leaf ⟨0, [1, 2], [10, 20], 2⟩ ∧
    (⟨.leaf ⟨0, [1, 2], [10, 20], 2⟩, 3, ⟨[], 1⟩⟩ : Bptree Nat Nat).get 1 =
      some (some 10) ∧
    ∃ t', (⟨.leaf ⟨0, [1, 2], [10, 20], 2⟩, 3, ⟨[], 1⟩⟩ :
        Bptree Nat Nat).remove 1 = some (t', some 10) ∧
      t'.get 1 = some none :=
  ⟨by decide, runPairSets_eq, rfl, rfl,
   claim_C2 3 (by decide) [(1, 10), (2, 20)]
     ⟨.leaf ⟨0, [1, 2], [10, 20], 2⟩, 3, ⟨[], 1⟩⟩ runPairSets_eq
     ⟨0, [1, 2], [10, 20], 2⟩ rfl 1 10 rfl⟩

end Rsb
